import Mathlib

/-!
Verification of the libfvde fvdetools core against its specification.

The definitions below are shallow embeddings of the C sources:
  * the weak CRC-32 and the compact dump rewriter (`fvdedump` / dump_handle),
  * the extent store (`fvdecheck_extent`),
  * the volume walker (`check_handle`),
  * the kernel keyring key insertion (`keyring_handle`).
Machine integers are modelled as `Nat`; `% 2 ^ 64` (or `% 2 ^ 32`) appears
exactly where the C code can overflow.  Byte buffers are `List Nat` with
byte values below 256.
-/

namespace FVDE

/-! ## Byte-level primitives -/

/-- `u64_mod = 2 ^ 64`, the modulus of C `uint64_t` arithmetic. -/
def u64_mod : Nat := 18446744073709551616

/-- Read an `n`-byte little-endian unsigned integer starting at byte
offset `off` (models `byte_stream_copy_to_uintN_little_endian`).
Out-of-range bytes read as 0. -/
def readLE (bytes : List Nat) (off : Nat) : Nat → Nat
  | 0 => 0
  | n + 1 => bytes.getD off 0 + 256 * readLE bytes (off + 1) n

/-- Write an `n`-byte little-endian unsigned integer at byte offset `off`
(models `byte_stream_copy_from_uintN_little_endian`); writes beyond the end
of the buffer are dropped, matching the in-bounds uses in the source. -/
def writeLE (bytes : List Nat) (off : Nat) : Nat → Nat → List Nat
  | 0, _ => bytes
  | n + 1, v => writeLE (bytes.set off (v % 256)) (off + 1) n (v / 256)

/-! ## Weak CRC-32 (dump_handle.c)

`dump_handle_initialize_crc32_table` builds a 256-entry table from the
polynomial; `dump_handle_calculate_weak_crc32` folds the per-byte step over
the buffer.  The table is always initialized with polynomial `0x82f63b78`. -/

/-- The reflected Castagnoli polynomial passed to the table initializer. -/
def crc32_polynomial : Nat := 0x82f63b78

/-- One iteration of the inner bit loop of
`dump_handle_initialize_crc32_table`:
`if (checksum & 1) checksum = polynomial ^ (checksum >> 1); else checksum >>= 1`. -/
def crc32_bit_step (checksum : Nat) : Nat :=
  if checksum % 2 = 1 then crc32_polynomial ^^^ (checksum / 2) else checksum / 2

/-- One table entry: seed with the table index, then run the bit step
8 times (the `bit_iterator` loop). -/
def crc32_table_entry (table_index : Nat) : Nat :=
  crc32_bit_step (crc32_bit_step (crc32_bit_step (crc32_bit_step
    (crc32_bit_step (crc32_bit_step (crc32_bit_step (crc32_bit_step table_index)))))))

/-- The 256-entry CRC table built by `dump_handle_initialize_crc32_table`. -/
def crc32_table : List Nat := (List.range 256).map crc32_table_entry

/-- The per-byte step of `dump_handle_calculate_weak_crc32`:
`table_index = (checksum ^ byte) & 0xff; checksum = table[table_index] ^ (checksum >> 8)`. -/
def crc32_byte_step (checksum b : Nat) : Nat :=
  crc32_table.getD ((checksum ^^^ b) &&& 255) 0 ^^^ checksum / 256

/-- `dump_handle_calculate_weak_crc32`: fold the byte step over the buffer,
starting from `initial_value`. -/
def dump_handle_calculate_weak_crc32 (buffer : List Nat) (initial_value : Nat) : Nat :=
  buffer.foldl crc32_byte_step initial_value

/-! Reference CRC, modelled from the spec's words (§4.A / P7): build a
256-entry table from polynomial `0x82F63B78` by the standard reflected
construction (seed each entry with its index, then eight times: if the LSB
is set, shift right one and XOR the polynomial, else shift right one),
initialize the running checksum to the initial value, and for each byte `b`
set `checksum = table[(checksum XOR b) AND 0xFF] XOR (checksum >> 8)`. -/

/-- Reference reflected table step, from the spec's words. -/
def ref_reflected_step (c : Nat) : Nat :=
  if c % 2 = 1 then c / 2 ^^^ 0x82f63b78 else c / 2

/-- Reference table, as a function from index to entry: seed with the
index, then apply the reflected step eight times. -/
def ref_table (i : Nat) : Nat := ref_reflected_step^[8] i

/-- Reference CRC from the spec's words. -/
def ref_weak_crc32 (bs : List Nat) (iv : Nat) : Nat :=
  bs.foldl (fun checksum b => ref_table ((checksum ^^^ b) &&& 255) ^^^ checksum / 256) iv

/-! ## Dump handle (fvdedump / dump_handle.c)

The source device is modelled as a byte map `src : Nat → Nat`; `read_bytes`
models an in-bounds `read` of `n` bytes at a byte offset. -/

/-- `u32_mod = 2 ^ 32`, the modulus of C `uint32_t` arithmetic. -/
def u32_mod : Nat := 4294967296

/-- Bytes `[off .. off + n)` of the source. -/
def read_bytes (src : Nat → Nat) (off n : Nat) : List Nat :=
  (List.range n).map (fun i => src (off + i))

/-- Little-endian read of `n` bytes directly from the source byte map
(used to evaluate reads of `read_bytes` buffers without materializing
them). -/
def src_readLE (src : Nat → Nat) (off : Nat) : Nat → Nat
  | 0 => 0
  | n + 1 => src off + 256 * src_readLE src (off + 1) n

inductive DumpError
  | unsupportedSignature
  | valueMissing
deriving DecidableEq

structure dump_handle where
  physical_volume_size : Nat
  block_size : Nat
  metadata_size : Nat
  metadata_offsets : List Nat
  encrypted_metadata1_offset : Nat
  encrypted_metadata2_offset : Nat
  encrypted_metadata_size : Nat
  compact : Bool
  best_metadata_only : Bool
deriving DecidableEq

/-- `dump_handle_initialize`: all numeric fields cleared. -/
def dump_handle_initialize_state : dump_handle :=
  { physical_volume_size := 0, block_size := 0, metadata_size := 0
    metadata_offsets := [0, 0, 0, 0]
    encrypted_metadata1_offset := 0, encrypted_metadata2_offset := 0
    encrypted_metadata_size := 0, compact := false, best_metadata_only := false }

/-- `dump_handle_read_volume_header`: read 512 bytes at offset 0, check the
CoreStorage signature `"CS"` at bytes 88/89, then extract
`physical_volume_size` (u64 at 72), `block_size` (u32 at 96),
`metadata_size` (u32 at 100) and the four metadata block numbers
(u64 at 104 + 8i), each converted to a byte offset by multiplying with the
block size (u64 arithmetic). -/
def dump_handle_read_volume_header (src : Nat → Nat) (h : dump_handle) :
    Except DumpError dump_handle :=
  let volume_header_data := read_bytes src 0 512
  if volume_header_data.getD 88 0 ≠ 67 ∨ volume_header_data.getD 89 0 ≠ 83 then
    .error .unsupportedSignature
  else
    let bs := readLE volume_header_data 96 4
    .ok { h with
      physical_volume_size := readLE volume_header_data 72 8
      block_size := bs
      metadata_size := readLE volume_header_data 100 4
      metadata_offsets := (List.range 4).map
        (fun i => readLE volume_header_data (104 + i * 8) 8 * bs % u64_mod) }

/-- Accumulator of the metadata scan loop of `dump_handle_read_metadata`:
the running highest transaction identifier, the index of the best copy and
the volume-groups descriptor fields last adopted. -/
structure metadata_scan_state where
  highest_transaction_id : Nat
  best_metadata_index : Nat
  encrypted_metadata_size : Nat
  encrypted_metadata1_offset : Nat
  encrypted_metadata2_offset : Nat
deriving DecidableEq

/-- One iteration of the metadata scan loop: read the transaction identifier
at byte 16; when it strictly exceeds the running highest, adopt this copy as
best and, when the volume-groups descriptor offset at byte 220 is > 64, also
adopt the descriptor fields (size at +8, block numbers at +32 and +40,
relative to `64 + (offset - 64)`). -/
def read_metadata_step (block : List Nat) (metadata_index : Nat)
    (acc : metadata_scan_state) : metadata_scan_state :=
  let transaction_identifier := readLE block 16 8
  if transaction_identifier > acc.highest_transaction_id then
    let volume_groups_descriptor_offset := readLE block 220 4
    if volume_groups_descriptor_offset > 64 then
      let actual_offset := volume_groups_descriptor_offset - 64
      { highest_transaction_id := transaction_identifier
        best_metadata_index := metadata_index
        encrypted_metadata_size := readLE block (64 + actual_offset + 8) 8
        encrypted_metadata1_offset := readLE block (64 + actual_offset + 32) 8
        encrypted_metadata2_offset := readLE block (64 + actual_offset + 40) 8 }
    else
      { acc with
        highest_transaction_id := transaction_identifier
        best_metadata_index := metadata_index }
  else
    acc

/-- The metadata block read for copy `i` by `dump_handle_read_metadata`. -/
def metadata_block_of (src : Nat → Nat) (h : dump_handle) (i : Nat) : List Nat :=
  read_bytes src (h.metadata_offsets.getD i 0) h.metadata_size

/-- The scan over the four metadata copies, in index order. -/
def dump_handle_metadata_scan (src : Nat → Nat) (h : dump_handle) : metadata_scan_state :=
  (List.range 4).foldl
    (fun acc i => read_metadata_step (metadata_block_of src h i) i acc)
    { highest_transaction_id := 0, best_metadata_index := 0
      encrypted_metadata_size := 0, encrypted_metadata1_offset := 0
      encrypted_metadata2_offset := 0 }

/-- `dump_handle_read_metadata`: fails when `metadata_size` is 0, otherwise
runs the scan and stores the results: block numbers are masked to their low
48 bits (the high 16 bits hold the physical volume index) and converted to
byte offsets; the size (in blocks) is converted to bytes. -/
def dump_handle_read_metadata (src : Nat → Nat) (h : dump_handle) :
    Except DumpError dump_handle :=
  if h.metadata_size = 0 then
    .error .valueMissing
  else
    let s := dump_handle_metadata_scan src h
    .ok { h with
      encrypted_metadata1_offset :=
        (s.encrypted_metadata1_offset &&& 0xffffffffffff) * h.block_size % u64_mod
      encrypted_metadata2_offset :=
        (s.encrypted_metadata2_offset &&& 0xffffffffffff) * h.block_size % u64_mod
      encrypted_metadata_size := s.encrypted_metadata_size * h.block_size % u64_mod }

/-- `dump_handle_write_corrected_volume_header` (compact mode): read the 512
volume header bytes, rewrite the four metadata block numbers at
`104 + 8i` (`compact_block` starts at 1 and advances by
`(metadata_size + block_size - 1) / block_size`, u32 arithmetic), then
recompute the weak CRC-32 over bytes `[8 .. 512)` with the initial value
read from bytes `[4 .. 8)` and store it at `[0 .. 4)`. -/
def dump_handle_write_corrected_volume_header (src : Nat → Nat) (h : dump_handle) :
    List Nat :=
  let volume_header_data := read_bytes src 0 512
  let res := (List.range 4).foldl
    (fun (acc : List Nat × Nat) metadata_index =>
      (writeLE acc.1 (104 + metadata_index * 8) 8 acc.2,
       (acc.2 + (h.metadata_size + h.block_size - 1) % u32_mod / h.block_size) % u64_mod))
    (volume_header_data, 1)
  let initial_value := readLE res.1 4 4
  let calculated_checksum :=
    dump_handle_calculate_weak_crc32 ((res.1.drop 8).take 504) initial_value
  writeLE res.1 0 4 calculated_checksum

/-- `dump_handle_write_corrected_metadata` (compact mode): read
`metadata_size` bytes at `source_offset`; when the volume-groups descriptor
offset at byte 220 is > 64 and the descriptor fits
(`64 + actual_offset + 48 ≤ metadata_size`), rewrite the two encrypted
metadata block numbers (the compact byte offsets divided by the block size)
at `+32` and `+40` and recompute the checksum at `[0 .. 4)` as the weak
CRC-32 over the 8184 bytes `[8 .. 8192)` with the fixed initial value
`0xffffffff`; otherwise the block is copied unmodified. -/
def dump_handle_write_corrected_metadata (src : Nat → Nat) (h : dump_handle)
    (source_offset compact_encrypted_metadata1_offset compact_encrypted_metadata2_offset : Nat) :
    List Nat :=
  let metadata_data := read_bytes src source_offset h.metadata_size
  let volume_groups_descriptor_offset := readLE metadata_data 220 4
  if volume_groups_descriptor_offset > 64 then
    let actual_offset := volume_groups_descriptor_offset - 64
    if 64 + actual_offset + 48 ≤ h.metadata_size then
      let encrypted_metadata1_block_number :=
        compact_encrypted_metadata1_offset / h.block_size
      let encrypted_metadata2_block_number :=
        compact_encrypted_metadata2_offset / h.block_size
      let b1 := writeLE metadata_data (64 + actual_offset + 32) 8
        encrypted_metadata1_block_number
      let b2 := writeLE b1 (64 + actual_offset + 40) 8
        encrypted_metadata2_block_number
      let calculated_checksum :=
        dump_handle_calculate_weak_crc32 ((b2.drop 8).take 8184) 0xffffffff
      writeLE b2 0 4 calculated_checksum
    else
      metadata_data
  else
    metadata_data

/-- `dump_handle_dump`, as the ordered list of `(destination_offset, bytes)`
writes it performs.  In compact mode the corrected volume header goes to
offset 0, the four corrected metadata blocks go to
`block_size + i * metadata_size`, and each of the two encrypted metadata
regions, when its source offset is non-zero, is appended at the running
offset.  In sparse mode every region is copied to its source offset. -/
def dump_handle_dump (src : Nat → Nat) (h : dump_handle) : List (Nat × List Nat) :=
  if h.compact then
    let compact_encrypted_metadata1_offset :=
      (h.block_size + 4 * h.metadata_size) % u32_mod
    let compact_encrypted_metadata2_offset :=
      compact_encrypted_metadata1_offset + h.encrypted_metadata_size
    let header_write : List (Nat × List Nat) :=
      [(0, dump_handle_write_corrected_volume_header src h)]
    let metadata_writes := (List.range 4).map (fun i =>
      (h.block_size + i * h.metadata_size,
       dump_handle_write_corrected_metadata src h (h.metadata_offsets.getD i 0)
         compact_encrypted_metadata1_offset compact_encrypted_metadata2_offset))
    let current_offset := h.block_size + 4 * h.metadata_size
    let step1 :=
      if h.encrypted_metadata1_offset ≠ 0 then
        (header_write ++ metadata_writes ++
          [(current_offset, read_bytes src h.encrypted_metadata1_offset h.encrypted_metadata_size)],
         current_offset + h.encrypted_metadata_size)
      else
        (header_write ++ metadata_writes, current_offset)
    if h.encrypted_metadata2_offset ≠ 0 then
      step1.1 ++
        [(step1.2, read_bytes src h.encrypted_metadata2_offset h.encrypted_metadata_size)]
    else
      step1.1
  else
    let header_write : List (Nat × List Nat) := [(0, read_bytes src 0 512)]
    let metadata_writes := (List.range 4).map (fun i =>
      (h.metadata_offsets.getD i 0,
       read_bytes src (h.metadata_offsets.getD i 0) h.metadata_size))
    let step1 :=
      if h.encrypted_metadata1_offset ≠ 0 then
        header_write ++ metadata_writes ++
          [(h.encrypted_metadata1_offset,
            read_bytes src h.encrypted_metadata1_offset h.encrypted_metadata_size)]
      else
        header_write ++ metadata_writes
    if h.encrypted_metadata2_offset ≠ 0 then
      step1 ++
        [(h.encrypted_metadata2_offset,
          read_bytes src h.encrypted_metadata2_offset h.encrypted_metadata_size)]
    else
      step1

/-- Size of the destination file after the dump: it is opened with
`O_CREAT | O_TRUNC`, so in compact mode its length is the largest write
end; in sparse mode it is first truncated to `physical_volume_size`. -/
def dump_destination_size (h : dump_handle) (writes : List (Nat × List Nat)) : Nat :=
  if h.compact then
    writes.foldl (fun m w => max m (w.1 + w.2.length)) 0
  else
    writes.foldl (fun m w => max m (w.1 + w.2.length)) h.physical_volume_size

/-! ## Block number conversions (fvdecheck_extent.c) -/

/-- `fvdecheck_linux_sector_to_fvde_block`: `(sector * 512) / block_size`,
with a zero guard; the multiplication is C `uint64_t` and can wrap. -/
def fvdecheck_linux_sector_to_fvde_block (sector : Nat) (block_size : Nat) : Nat :=
  if block_size = 0 then 0 else (sector * 512 % u64_mod) / block_size

/-- `fvdecheck_fvde_block_to_linux_sector`: `(block * block_size) / 512`;
the multiplication is C `uint64_t` and can wrap. -/
def fvdecheck_fvde_block_to_linux_sector (block : Nat) (block_size : Nat) : Nat :=
  (block * block_size % u64_mod) / 512

/-! ## Extent store (fvdecheck_extent.c) -/

def FVDECHECK_MAX_PHYSICAL_VOLUMES : Nat := 16
def FVDECHECK_MAX_LOGICAL_VOLUMES : Nat := 16

def FVDECHECK_EXTENT_STATE_UNKNOWN : Nat := 0
def FVDECHECK_EXTENT_STATE_FREE : Nat := 1
def FVDECHECK_EXTENT_STATE_ALLOCATED : Nat := 2
def FVDECHECK_EXTENT_STATE_RESERVED : Nat := 3

/-- `fvdecheck_extent_t`.  The two doubly-linked lists of the C struct are
represented by membership of the extent in the per-volume `extent_list`
fields below. -/
structure fvdecheck_extent where
  physical_volume_index : Nat
  physical_block_start : Nat
  physical_block_count : Nat
  logical_volume_index : Nat
  logical_block_start : Nat
  state : Nat
  transaction_id : Nat
  metadata_block_index : Nat
  block_type : Nat
  reserved_description : String
deriving DecidableEq

/-- A freshly initialized (zeroed) extent, as produced by
`fvdecheck_extent_initialize`. -/
def extent_zero : fvdecheck_extent :=
  { physical_volume_index := 0, physical_block_start := 0, physical_block_count := 0
    logical_volume_index := 0, logical_block_start := 0
    state := FVDECHECK_EXTENT_STATE_UNKNOWN
    transaction_id := 0, metadata_block_index := 0, block_type := 0
    reserved_description := "" }

structure fvdecheck_physical_volume_info where
  uuid : List Nat
  size_in_blocks : Nat
  extent_list : List fvdecheck_extent
  reserved_blocks : Nat
  allocated_blocks : Nat
  free_blocks : Nat
deriving DecidableEq

structure fvdecheck_logical_volume_info where
  uuid : List Nat
  size_in_blocks : Nat
  extent_list : List fvdecheck_extent
  mapped_blocks : Nat
  unmapped_blocks : Nat
deriving DecidableEq

structure fvdecheck_volume_state where
  physical_volumes : List fvdecheck_physical_volume_info
  logical_volumes : List fvdecheck_logical_volume_info
  block_size : Nat
  total_extents : Nat
deriving DecidableEq

/-- Errors raised by the extent store.  `capacityExceeded` is the
out-of-bounds error raised when the 16-volume cap is reached in the add
functions, `valueOutOfBounds` the one raised for a bad volume index. -/
inductive StoreError
  | invalidValue
  | valueOutOfBounds
  | capacityExceeded
deriving DecidableEq

/-- `fvdecheck_volume_state_initialize` (source name): empty state, default block size 4096. -/
def fvdecheck_volume_state_initial : fvdecheck_volume_state :=
  { physical_volumes := [], logical_volumes := [], block_size := 4096, total_extents := 0 }

/-- `fvdecheck_volume_state_add_physical_volume`: fails once
`FVDECHECK_MAX_PHYSICAL_VOLUMES` volumes are present, otherwise appends a
volume with an empty extent list and returns its index. -/
def fvdecheck_volume_state_add_physical_volume (volume_state : fvdecheck_volume_state)
    (uuid : List Nat) (size_in_blocks : Nat) :
    Except StoreError (fvdecheck_volume_state × Nat) :=
  if volume_state.physical_volumes.length ≥ FVDECHECK_MAX_PHYSICAL_VOLUMES then
    .error .capacityExceeded
  else
    let new_index := volume_state.physical_volumes.length
    .ok ({ volume_state with
            physical_volumes := volume_state.physical_volumes ++
              [{ uuid := uuid, size_in_blocks := size_in_blocks, extent_list := []
                 reserved_blocks := 0, allocated_blocks := 0, free_blocks := 0 }] },
         new_index)

/-- `fvdecheck_volume_state_add_logical_volume`: same 16-volume cap. -/
def fvdecheck_volume_state_add_logical_volume (volume_state : fvdecheck_volume_state)
    (uuid : List Nat) (size_in_blocks : Nat) :
    Except StoreError (fvdecheck_volume_state × Nat) :=
  if volume_state.logical_volumes.length ≥ FVDECHECK_MAX_LOGICAL_VOLUMES then
    .error .capacityExceeded
  else
    let new_index := volume_state.logical_volumes.length
    .ok ({ volume_state with
            logical_volumes := volume_state.logical_volumes ++
              [{ uuid := uuid, size_in_blocks := size_in_blocks, extent_list := []
                 mapped_blocks := 0, unmapped_blocks := 0 }] },
         new_index)

/-- `fvdecheck_insert_extent_physical` on the list of a physical volume:
walk the list and insert the new extent before the first element whose
`physical_block_start` is strictly greater, else append at the end.  On
equal keys the new extent therefore goes after the existing ones. -/
def fvdecheck_insert_extent_physical (extent : fvdecheck_extent) :
    List fvdecheck_extent → List fvdecheck_extent
  | [] => [extent]
  | current :: rest =>
    if extent.physical_block_start < current.physical_block_start then
      extent :: current :: rest
    else
      current :: fvdecheck_insert_extent_physical extent rest

/-- `fvdecheck_insert_extent_logical`: the same walk, keyed by
`logical_block_start`. -/
def fvdecheck_insert_extent_logical (extent : fvdecheck_extent) :
    List fvdecheck_extent → List fvdecheck_extent
  | [] => [extent]
  | current :: rest =>
    if extent.logical_block_start < current.logical_block_start then
      extent :: current :: rest
    else
      current :: fvdecheck_insert_extent_logical extent rest

/-- Insert an extent into the list of physical volume `pv_index`; out of
range indices leave the state unchanged (the C helper returns without
inserting). -/
def insert_into_physical_volume (volume_state : fvdecheck_volume_state)
    (pv_index : Nat) (extent : fvdecheck_extent) : fvdecheck_volume_state :=
  match volume_state.physical_volumes[pv_index]? with
  | none => volume_state
  | some pv_info =>
    { volume_state with
        physical_volumes := volume_state.physical_volumes.set pv_index
          { pv_info with
              extent_list := fvdecheck_insert_extent_physical extent pv_info.extent_list } }

/-- Insert an extent into the list of logical volume `lv_index`. -/
def insert_into_logical_volume (volume_state : fvdecheck_volume_state)
    (lv_index : Nat) (extent : fvdecheck_extent) : fvdecheck_volume_state :=
  match volume_state.logical_volumes[lv_index]? with
  | none => volume_state
  | some lv_info =>
    { volume_state with
        logical_volumes := volume_state.logical_volumes.set lv_index
          { lv_info with
              extent_list := fvdecheck_insert_extent_logical extent lv_info.extent_list } }

/-- The reserved extent built by `fvdecheck_volume_state_mark_reserved`
(all other fields zeroed by `fvdecheck_extent_initialize`). -/
def reserved_extent (pv_index block_start block_count : Nat)
    (description : String) : fvdecheck_extent :=
  { extent_zero with
      physical_volume_index := pv_index
      physical_block_start := block_start
      physical_block_count := block_count
      state := FVDECHECK_EXTENT_STATE_RESERVED
      reserved_description := description }

/-- The free extent built by `fvdecheck_volume_state_mark_free`. -/
def free_extent (pv_index block_start block_count transaction_id
    metadata_block_index block_type : Nat) : fvdecheck_extent :=
  { extent_zero with
      physical_volume_index := pv_index
      physical_block_start := block_start
      physical_block_count := block_count
      state := FVDECHECK_EXTENT_STATE_FREE
      transaction_id := transaction_id
      metadata_block_index := metadata_block_index
      block_type := block_type }

/-- The allocated extent built by `fvdecheck_volume_state_mark_allocated`. -/
def allocated_extent (pv_index phys_block_start block_count lv_index
    logical_block_start transaction_id metadata_block_index block_type : Nat) :
    fvdecheck_extent :=
  { extent_zero with
      physical_volume_index := pv_index
      physical_block_start := phys_block_start
      physical_block_count := block_count
      logical_volume_index := lv_index
      logical_block_start := logical_block_start
      state := FVDECHECK_EXTENT_STATE_ALLOCATED
      transaction_id := transaction_id
      metadata_block_index := metadata_block_index
      block_type := block_type }

/-- `fvdecheck_volume_state_mark_reserved`: bounds-check the volume index,
build a reserved extent and insert it into the physical list.  No overlap
check is performed. -/
def fvdecheck_volume_state_mark_reserved (volume_state : fvdecheck_volume_state)
    (pv_index block_start block_count : Nat) (description : String) :
    Except StoreError fvdecheck_volume_state :=
  if pv_index ≥ volume_state.physical_volumes.length then
    .error .valueOutOfBounds
  else
    let extent := reserved_extent pv_index block_start block_count description
    let vs1 := insert_into_physical_volume volume_state pv_index extent
    .ok { vs1 with total_extents := (vs1.total_extents + 1) % u64_mod }

/-- `fvdecheck_volume_state_mark_free`. -/
def fvdecheck_volume_state_mark_free (volume_state : fvdecheck_volume_state)
    (pv_index block_start block_count transaction_id metadata_block_index block_type : Nat) :
    Except StoreError fvdecheck_volume_state :=
  if pv_index ≥ volume_state.physical_volumes.length then
    .error .valueOutOfBounds
  else
    let extent := free_extent pv_index block_start block_count transaction_id
      metadata_block_index block_type
    let vs1 := insert_into_physical_volume volume_state pv_index extent
    .ok { vs1 with total_extents := (vs1.total_extents + 1) % u64_mod }

/-- `fvdecheck_volume_state_mark_allocated`: bounds-check both indices,
build an allocated extent and insert it into both the physical and the
logical list. -/
def fvdecheck_volume_state_mark_allocated (volume_state : fvdecheck_volume_state)
    (pv_index phys_block_start block_count lv_index logical_block_start
     transaction_id metadata_block_index block_type : Nat) :
    Except StoreError fvdecheck_volume_state :=
  if pv_index ≥ volume_state.physical_volumes.length then
    .error .valueOutOfBounds
  else if lv_index ≥ volume_state.logical_volumes.length then
    .error .valueOutOfBounds
  else
    let extent := allocated_extent pv_index phys_block_start block_count lv_index
      logical_block_start transaction_id metadata_block_index block_type
    let vs1 := insert_into_physical_volume volume_state pv_index extent
    let vs2 := insert_into_logical_volume vs1 lv_index extent
    .ok { vs2 with total_extents := (vs2.total_extents + 1) % u64_mod }

/-- Extent list of physical volume `pv_index` (empty for a bad index). -/
def pv_extent_list (volume_state : fvdecheck_volume_state) (pv_index : Nat) :
    List fvdecheck_extent :=
  match volume_state.physical_volumes[pv_index]? with
  | none => []
  | some pv_info => pv_info.extent_list

/-- Extent list of logical volume `lv_index` (empty for a bad index). -/
def lv_extent_list (volume_state : fvdecheck_volume_state) (lv_index : Nat) :
    List fvdecheck_extent :=
  match volume_state.logical_volumes[lv_index]? with
  | none => []
  | some lv_info => lv_info.extent_list

/-- `fvdecheck_volume_state_find_physical_extent` restricted to one list:
return the first extent whose half-open physical range contains
`block_number`; stop early once `physical_block_start` exceeds it.  The end
of a range is computed in u64 arithmetic. -/
def fvdecheck_find_physical_extent_in_list (block_number : Nat) :
    List fvdecheck_extent → Option fvdecheck_extent
  | [] => none
  | current :: rest =>
    if block_number ≥ current.physical_block_start ∧
       block_number < (current.physical_block_start + current.physical_block_count) % u64_mod then
      some current
    else if current.physical_block_start > block_number then
      none
    else
      fvdecheck_find_physical_extent_in_list block_number rest

/-- `fvdecheck_volume_state_find_physical_extent`. -/
def fvdecheck_volume_state_find_physical_extent (volume_state : fvdecheck_volume_state)
    (pv_index block_number : Nat) : Option fvdecheck_extent :=
  match volume_state.physical_volumes[pv_index]? with
  | none => none
  | some pv_info => fvdecheck_find_physical_extent_in_list block_number pv_info.extent_list

/-- `fvdecheck_volume_state_check_overlap` restricted to one list: return
the first extent overlapping `[block_start, block_start + block_count)`
under the half-open test `start1 < end2 AND start2 < end1`; stop early once
`physical_block_start ≥ block_end`.  Ends are u64 sums. -/
def fvdecheck_check_overlap_in_list (block_start block_count : Nat) :
    List fvdecheck_extent → Option fvdecheck_extent
  | [] => none
  | current :: rest =>
    let block_end := (block_start + block_count) % u64_mod
    let current_end :=
      (current.physical_block_start + current.physical_block_count) % u64_mod
    if block_start < current_end ∧ current.physical_block_start < block_end then
      some current
    else if current.physical_block_start ≥ block_end then
      none
    else
      fvdecheck_check_overlap_in_list block_start block_count rest

/-- `fvdecheck_volume_state_check_overlap`. -/
def fvdecheck_volume_state_check_overlap (volume_state : fvdecheck_volume_state)
    (pv_index block_start block_count : Nat) : Option fvdecheck_extent :=
  match volume_state.physical_volumes[pv_index]? with
  | none => none
  | some pv_info => fvdecheck_check_overlap_in_list block_start block_count pv_info.extent_list

/-- The single pass of `fvdecheck_volume_state_calculate_statistics` over
one physical list: accumulate (reserved, allocated, free) block totals in
u64 arithmetic. -/
def fvdecheck_pv_statistics (l : List fvdecheck_extent) : Nat × Nat × Nat :=
  l.foldl (fun acc e =>
    if e.state = FVDECHECK_EXTENT_STATE_RESERVED then
      ((acc.1 + e.physical_block_count) % u64_mod, acc.2.1, acc.2.2)
    else if e.state = FVDECHECK_EXTENT_STATE_ALLOCATED then
      (acc.1, (acc.2.1 + e.physical_block_count) % u64_mod, acc.2.2)
    else if e.state = FVDECHECK_EXTENT_STATE_FREE then
      (acc.1, acc.2.1, (acc.2.2 + e.physical_block_count) % u64_mod)
    else acc) (0, 0, 0)

/-- The mapped-blocks pass over one logical list. -/
def fvdecheck_lv_mapped_blocks (l : List fvdecheck_extent) : Nat :=
  l.foldl (fun acc e => (acc + e.physical_block_count) % u64_mod) 0

/-- `fvdecheck_volume_state_calculate_statistics`: recompute every
statistics field from the extent lists alone. -/
def fvdecheck_volume_state_calculate_statistics (volume_state : fvdecheck_volume_state) :
    fvdecheck_volume_state :=
  { volume_state with
      physical_volumes := volume_state.physical_volumes.map (fun pv =>
        let s := fvdecheck_pv_statistics pv.extent_list
        { pv with reserved_blocks := s.1, allocated_blocks := s.2.1, free_blocks := s.2.2 })
      logical_volumes := volume_state.logical_volumes.map (fun lv =>
        let mapped := fvdecheck_lv_mapped_blocks lv.extent_list
        { lv with
            mapped_blocks := mapped
            unmapped_blocks :=
              if lv.size_in_blocks > mapped then lv.size_in_blocks - mapped else 0 }) }

/-! ## Volume walker (check_handle.c) -/

/-- `libfvde_segment_descriptor_t`, as supplied by the Unlocker. -/
structure libfvde_segment_descriptor where
  physical_volume_index : Nat
  physical_block_number : Nat
  number_of_blocks : Nat
  logical_block_number : Nat
deriving DecidableEq

structure unlocker_physical_volume where
  identifier : List Nat
  size : Nat
deriving DecidableEq

structure unlocker_logical_volume where
  identifier : List Nat
  size : Nat
  segment_descriptors : List libfvde_segment_descriptor
deriving DecidableEq

/-- The volume header fields the walker consumes: `metadata_size` and the
four metadata byte offsets. -/
structure unlocker_volume_header where
  metadata_size : Nat
  metadata_offsets : List Nat
deriving DecidableEq

/-- The (optional) metadata fields the walker consumes. -/
structure unlocker_metadata where
  encrypted_metadata_size : Nat
  encrypted_metadata1_offset : Nat
  encrypted_metadata2_offset : Nat
deriving DecidableEq

/-- An unlocked volume, i.e. everything the Unlocker supplies to the
walker. -/
structure unlocked_volume where
  physical_volumes : List unlocker_physical_volume
  logical_volumes : List unlocker_logical_volume
  volume_header : unlocker_volume_header
  metadata : Option unlocker_metadata
deriving DecidableEq

def metadata_description (metadata_index : Nat) : String :=
  if metadata_index = 0 then "Metadata block 1"
  else if metadata_index = 1 then "Metadata block 2"
  else if metadata_index = 2 then "Metadata block 3"
  else "Metadata block 4"

/-- The physical-volume loop of `check_handle_open`: add each physical
volume (size in bytes divided by the block size) and immediately mark its
block 0 as the reserved volume header. -/
def check_handle_add_physical (st : fvdecheck_volume_state)
    (pv : unlocker_physical_volume) : Except StoreError fvdecheck_volume_state := do
  let r ← fvdecheck_volume_state_add_physical_volume st pv.identifier
    (pv.size / st.block_size)
  fvdecheck_volume_state_mark_reserved r.1 r.2 0 1 "Volume header"

/-- The logical-volume loop of `check_handle_open`: add each logical volume
(size in bytes divided by the block size). -/
def check_handle_add_logical (st : fvdecheck_volume_state)
    (lv : unlocker_logical_volume) : Except StoreError fvdecheck_volume_state := do
  let r ← fvdecheck_volume_state_add_logical_volume st lv.identifier
    (lv.size / st.block_size)
  pure r.1

/-- `check_handle_mark_metadata_reserved`: mark the four metadata slots
as reserved against physical volume 0 (byte offsets and the metadata size
divided by the block size), then, when metadata is present, the two
encrypted metadata regions whose offset and size are non-zero. -/
def check_handle_mark_metadata_reserved (uv : unlocked_volume)
    (st : fvdecheck_volume_state) : Except StoreError fvdecheck_volume_state := do
  let metadata_size := uv.volume_header.metadata_size
  let st1 ← (List.range 4).foldlM (fun st metadata_index =>
    fvdecheck_volume_state_mark_reserved st 0
      (uv.volume_header.metadata_offsets.getD metadata_index 0 / st.block_size)
      (metadata_size / st.block_size)
      (metadata_description metadata_index)) st
  match uv.metadata with
  | none => pure st1
  | some md => do
    let st2 ←
      if md.encrypted_metadata1_offset > 0 ∧ md.encrypted_metadata_size > 0 then
        fvdecheck_volume_state_mark_reserved st1 0
          (md.encrypted_metadata1_offset / st1.block_size)
          (md.encrypted_metadata_size / st1.block_size) "Encrypted metadata 1"
      else pure st1
    if md.encrypted_metadata2_offset > 0 ∧ md.encrypted_metadata_size > 0 then
      fvdecheck_volume_state_mark_reserved st2 0
        (md.encrypted_metadata2_offset / st2.block_size)
        (md.encrypted_metadata_size / st2.block_size) "Encrypted metadata 2"
    else pure st2

/-- `check_handle_process_volume`: mark the metadata regions reserved, then
walk each logical volume's segment descriptors in order and mark each as
allocated with provenance `(0, 0, 0x0305)`. -/
def check_handle_process_volume (uv : unlocked_volume)
    (st : fvdecheck_volume_state) : Except StoreError fvdecheck_volume_state := do
  let st1 ← check_handle_mark_metadata_reserved uv st
  uv.logical_volumes.enum.foldlM (fun st p =>
    p.2.segment_descriptors.foldlM (fun st sd =>
      fvdecheck_volume_state_mark_allocated st
        sd.physical_volume_index sd.physical_block_number sd.number_of_blocks
        p.1 sd.logical_block_number 0 0 0x0305) st) st1

/-- The whole walk: `check_handle_open`'s state population followed by
`check_handle_process_volume`. -/
def check_handle_walk (uv : unlocked_volume) : Except StoreError fvdecheck_volume_state := do
  let st1 ← uv.physical_volumes.foldlM check_handle_add_physical
    fvdecheck_volume_state_initial
  let st2 ← uv.logical_volumes.foldlM check_handle_add_logical st1
  check_handle_process_volume uv st2

/-! Regions the walker marks, in insertion order, used to state the
well-formedness hypotheses of the amended claim C1. -/

structure walk_region where
  pv : Nat
  start : Nat
  count : Nat
deriving DecidableEq

/-- All regions the walk inserts, in order: one volume-header block per
physical volume, the four metadata slots on volume 0, the encrypted
metadata regions on volume 0 when present and non-zero, then every segment
descriptor of every logical volume.  Offsets are divided by the default
block size 4096, exactly as the walker does. -/
def walk_regions (uv : unlocked_volume) : List walk_region :=
  uv.physical_volumes.enum.map (fun p => { pv := p.1, start := 0, count := 1 }) ++
  (List.range 4).map (fun i =>
    { pv := 0
      start := uv.volume_header.metadata_offsets.getD i 0 / 4096
      count := uv.volume_header.metadata_size / 4096 }) ++
  (match uv.metadata with
   | none => []
   | some md =>
     (if md.encrypted_metadata1_offset > 0 ∧ md.encrypted_metadata_size > 0 then
       [{ pv := 0, start := md.encrypted_metadata1_offset / 4096
          count := md.encrypted_metadata_size / 4096 }]
      else []) ++
     (if md.encrypted_metadata2_offset > 0 ∧ md.encrypted_metadata_size > 0 then
       [{ pv := 0, start := md.encrypted_metadata2_offset / 4096
          count := md.encrypted_metadata_size / 4096 }]
      else [])) ++
  uv.logical_volumes.flatMap (fun lv =>
    lv.segment_descriptors.map (fun sd =>
      { pv := sd.physical_volume_index, start := sd.physical_block_number
        count := sd.number_of_blocks }))

/-- Two regions on the same physical volume are disjoint. -/
def region_disjoint (r1 r2 : walk_region) : Prop :=
  r1.pv = r2.pv → r1.start + r1.count ≤ r2.start ∨ r2.start + r2.count ≤ r1.start

instance : DecidableRel region_disjoint := fun r1 r2 => by
  unfold region_disjoint
  infer_instance

/-! ## Kernel keyring insertion (keyring_handle.c) -/

def KEY_SPEC_SESSION_KEYRING : Int := -3
def KEY_SPEC_USER_KEYRING : Int := -4
def KEY_SPEC_USER_SESSION_KEYRING : Int := -5

/-- The keyring identifier argument, by the branch of
`keyring_handle_add_key` it selects: `NULL`, `"@s"`, `"@u"`, `"@us"`, or
any other string through `atoi`. -/
inductive keyring_choice
  | null_id
  | at_s
  | at_u
  | at_us
  | numeric (atoi_value : Int)
deriving DecidableEq

/-- Observable outcome of one `keyring_handle_add_key` call: the returned
code, whether key material was copied into the 48-byte `combined_key`
stack buffer, and whether that buffer was zeroed (`memory_set`) before the
return. -/
structure keyring_call_state where
  result : Int
  key_copied : Bool
  key_zeroed : Bool
deriving DecidableEq

/-- `keyring_handle_add_key` (keyutils build): argument validation, UUID
formatting, copy of master key (16 bytes) and tweak key (32 bytes) into
`combined_key`, keyring id parsing, `add_key` call (whose success is the
parameter `add_key_succeeds`), and zeroing of `combined_key` — which the
code performs only after a successful `add_key`. -/
def keyring_handle_add_key (volume_master_key : Option (List Nat))
    (volume_master_key_size : Nat) (volume_tweak_key : Option (List Nat))
    (volume_tweak_key_size : Nat) (volume_uuid : Option (List Nat))
    (volume_uuid_size : Nat) (keyring_id : keyring_choice)
    (add_key_succeeds : Bool) : keyring_call_state :=
  match volume_master_key with
  | none => { result := -1, key_copied := false, key_zeroed := false }
  | some _ =>
  if volume_master_key_size ≠ 16 then
    { result := -1, key_copied := false, key_zeroed := false }
  else match volume_tweak_key with
  | none => { result := -1, key_copied := false, key_zeroed := false }
  | some _ =>
  if volume_tweak_key_size ≠ 32 then
    { result := -1, key_copied := false, key_zeroed := false }
  else match volume_uuid with
  | none => { result := -1, key_copied := false, key_zeroed := false }
  | some _ =>
  if volume_uuid_size ≠ 16 then
    { result := -1, key_copied := false, key_zeroed := false }
  else
    -- keyring_handle_format_uuid_string and the snprintf of the key
    -- description cannot fail for a 16-byte UUID; the two memory_copy
    -- calls then place the key material in combined_key
    let keyring_id_value : Option Int :=
      match keyring_id with
      | .null_id => some KEY_SPEC_SESSION_KEYRING
      | .at_s => some KEY_SPEC_SESSION_KEYRING
      | .at_u => some KEY_SPEC_USER_KEYRING
      | .at_us => some KEY_SPEC_USER_SESSION_KEYRING
      | .numeric v => if v = 0 then none else some v
    match keyring_id_value with
    | none => { result := -1, key_copied := true, key_zeroed := false }
    | some _ =>
      if add_key_succeeds then
        { result := 1, key_copied := true, key_zeroed := true }
      else
        { result := -1, key_copied := true, key_zeroed := false }

/-! ## Checksum validity predicates (§4.A checksum discipline)

A volume header validates when the stored checksum at `[0..4)` equals the
weak CRC-32 of bytes `[8..512)` with the initial value read from `[4..8)`;
a metadata block (of the typical size 8192) validates likewise over bytes
`[8..8192)`. -/

def volume_header_checksum_valid (data : List Nat) : Prop :=
  readLE data 0 4 =
    dump_handle_calculate_weak_crc32 ((data.drop 8).take 504) (readLE data 4 4)

def metadata_block_checksum_valid (data : List Nat) : Prop :=
  readLE data 0 4 =
    dump_handle_calculate_weak_crc32 ((data.drop 8).take 8184) (readLE data 4 4)

/-! ## Concrete S4 source for claim C3

A source with block size 4096, metadata size 8192, metadata byte offsets
0x2000/0x4000/0x6000/0x8000 (block numbers 2, 4, 6, 8), encrypted metadata
block numbers 100 and 200 and encrypted metadata size 4 blocks = 16384
bytes.  All four metadata copies are identical, carry transaction id 1 and
a volume-groups descriptor at offset 300. -/

def c3_header_byte (j : Nat) : Nat :=
  if j = 4 ∨ j = 5 ∨ j = 6 ∨ j = 7 then 255
  else if j = 88 then 67
  else if j = 89 then 83
  else if j = 97 then 16
  else if j = 101 then 32
  else if j = 104 then 2
  else if j = 112 then 4
  else if j = 120 then 6
  else if j = 128 then 8
  else 0

def c3_metadata_byte (j : Nat) : Nat :=
  if j = 4 ∨ j = 5 ∨ j = 6 ∨ j = 7 then 255
  else if j = 16 then 1
  else if j = 220 then 44
  else if j = 221 then 1
  else if j = 308 then 4
  else if j = 332 then 100
  else if j = 340 then 200
  else 0

def c3_src (i : Nat) : Nat :=
  if i < 512 then c3_header_byte i
  else if 8192 ≤ i ∧ i < 40960 then c3_metadata_byte ((i - 8192) % 8192)
  else 0

def c3_handle0 : dump_handle :=
  { dump_handle_initialize_state with compact := true }

/-- The handle after `dump_handle_read_volume_header` on `c3_src`. -/
def c3_handle1 : dump_handle :=
  { c3_handle0 with
      physical_volume_size := 0
      block_size := 4096
      metadata_size := 8192
      metadata_offsets := [8192, 16384, 24576, 32768] }

/-- The handle after `dump_handle_read_metadata` on `c3_src`. -/
def c3_handle2 : dump_handle :=
  { c3_handle1 with
      encrypted_metadata1_offset := 409600
      encrypted_metadata2_offset := 819200
      encrypted_metadata_size := 16384 }

def c3_writes : List (Nat × List Nat) := dump_handle_dump c3_src c3_handle2

def c3_dump_header : List Nat :=
  dump_handle_write_corrected_volume_header c3_src c3_handle2

def c3_dump_metadata (i : Nat) : List Nat :=
  dump_handle_write_corrected_metadata c3_src c3_handle2
    (c3_handle2.metadata_offsets.getD i 0) 36864 53248

/-! ## Concrete counterexample block for claim C4: its checksum initial
value field `[4..8)` holds 0, not 0xffffffff. -/

def c4_metadata_byte (j : Nat) : Nat :=
  if j = 16 then 1
  else if j = 220 then 44
  else if j = 221 then 1
  else if j = 308 then 4
  else if j = 332 then 100
  else if j = 340 then 200
  else 0

def c4_src (i : Nat) : Nat :=
  if i < 8192 then c4_metadata_byte i else 0

def c4_handle : dump_handle :=
  { dump_handle_initialize_state with
      compact := true, block_size := 4096, metadata_size := 8192 }

/-- The rewritten counterexample block. -/
def c4_out : List Nat :=
  dump_handle_write_corrected_metadata c4_src c4_handle 0 36864 53248

/-! ## Predicates and machinery for the extent-store claims -/

deriving instance DecidableEq for Except

/-- Non-empty intersection of the half-open intervals `[s, s + c)` and
`[start, start + count)`. -/
def intervals_intersect (s c start count : Nat) : Prop :=
  max s start < min (s + c) (start + count)

instance (s c start count : Nat) : Decidable (intervals_intersect s c start count) := by
  unfold intervals_intersect
  infer_instance

/-- The boolean overlap test of `fvdecheck_volume_state_check_overlap`
(`start1 < end2 AND start2 < end1`, in u64 arithmetic), as a predicate on a
stored extent. -/
def overlap_test (block_start block_count : Nat) (e : fvdecheck_extent) : Bool :=
  decide (block_start <
      (e.physical_block_start + e.physical_block_count) % u64_mod) &&
  decide (e.physical_block_start < (block_start + block_count) % u64_mod)

def extent_phys_le (e1 e2 : fvdecheck_extent) : Prop :=
  e1.physical_block_start ≤ e2.physical_block_start

def extent_logical_le (e1 e2 : fvdecheck_extent) : Prop :=
  e1.logical_block_start ≤ e2.logical_block_start

instance : DecidableRel extent_phys_le := fun e1 e2 => by
  unfold extent_phys_le
  infer_instance

instance : DecidableRel extent_logical_le := fun e1 e2 => by
  unfold extent_logical_le
  infer_instance

/-- All physical lists sorted by `physical_block_start` and all logical
lists sorted by `logical_block_start` (both weakly; on equal keys the lists
keep insertion order). -/
def sorted_lists (st : fvdecheck_volume_state) : Prop :=
  (∀ pvi ∈ st.physical_volumes, List.Sorted extent_phys_le pvi.extent_list) ∧
  (∀ lvi ∈ st.logical_volumes, List.Sorted extent_logical_le lvi.extent_list)

/-- One `mark_*` call on the extent store. -/
inductive fvdecheck_mark_op
  | reserved (pv_index block_start block_count : Nat) (description : String)
  | free (pv_index block_start block_count transaction_id metadata_block_index block_type : Nat)
  | allocated (pv_index phys_block_start block_count lv_index logical_block_start
      transaction_id metadata_block_index block_type : Nat)
deriving DecidableEq

def apply_mark_op (st : fvdecheck_volume_state) :
    fvdecheck_mark_op → Except StoreError fvdecheck_volume_state
  | .reserved pv s c d => fvdecheck_volume_state_mark_reserved st pv s c d
  | .free pv s c tid mbi bt => fvdecheck_volume_state_mark_free st pv s c tid mbi bt
  | .allocated pv s c lv ls tid mbi bt =>
      fvdecheck_volume_state_mark_allocated st pv s c lv ls tid mbi bt

/-- Apply a sequence of mark calls; a failing call leaves the state
unchanged (the store is not modified on an error return). -/
def apply_mark_ops (st : fvdecheck_volume_state) (ops : List fvdecheck_mark_op) :
    fvdecheck_volume_state :=
  ops.foldl (fun st op =>
    match apply_mark_op st op with
    | .ok st1 => st1
    | .error _ => st) st

def except_ok_or {α : Type} (d : α) : Except StoreError α → α
  | .ok v => v
  | .error _ => d

/-- The S2 scenario state: one physical and one logical volume, then
reserved (0,1), allocated (10,5) at logical 0, allocated (4,3) at
logical 5. -/
def s2_state : fvdecheck_volume_state :=
  let st0 := fvdecheck_volume_state_initial
  let st1 := except_ok_or st0 ((fvdecheck_volume_state_add_physical_volume st0
    (List.replicate 16 0) 1000).map Prod.fst)
  let st2 := except_ok_or st1 ((fvdecheck_volume_state_add_logical_volume st1
    (List.replicate 16 1) 1000).map Prod.fst)
  let st3 := except_ok_or st2 (fvdecheck_volume_state_mark_reserved st2 0 0 1 "H")
  let st4 := except_ok_or st3
    (fvdecheck_volume_state_mark_allocated st3 0 10 5 0 0 0 0 0x0305)
  except_ok_or st4 (fvdecheck_volume_state_mark_allocated st4 0 4 3 0 5 0 0 0x0305)

/-- The state used to refute claim C2 as stated: one physical volume with a
single reserved extent `[0, 10)`. -/
def c2_cex_state : fvdecheck_volume_state :=
  let st0 := fvdecheck_volume_state_initial
  let st1 := except_ok_or st0 ((fvdecheck_volume_state_add_physical_volume st0
    (List.replicate 16 0) 1000).map Prod.fst)
  except_ok_or st1 (fvdecheck_volume_state_mark_reserved st1 0 0 10 "H")

/-- 16-byte uuid used in the capacity scenario, distinct per index. -/
def c7_uuid (i : Nat) : List Nat := List.replicate 15 0 ++ [i]

/-- Call `add_physical_volume` `n` times with distinct uuids. -/
def c7_physical_adds (n : Nat) : Except StoreError fvdecheck_volume_state :=
  (List.range n).foldlM (fun st i =>
    (fvdecheck_volume_state_add_physical_volume st (c7_uuid i) 100).map Prod.fst)
    fvdecheck_volume_state_initial

/-- Call `add_logical_volume` `n` times with distinct uuids. -/
def c7_logical_adds (n : Nat) : Except StoreError fvdecheck_volume_state :=
  (List.range n).foldlM (fun st i =>
    (fvdecheck_volume_state_add_logical_volume st (c7_uuid i) 100).map Prod.fst)
    fvdecheck_volume_state_initial

/-- The expected store after 16 physical adds. -/
def c7_expected_physical : fvdecheck_volume_state :=
  { fvdecheck_volume_state_initial with
      physical_volumes := (List.range 16).map (fun i =>
        { uuid := c7_uuid i, size_in_blocks := 100, extent_list := []
          reserved_blocks := 0, allocated_blocks := 0, free_blocks := 0 }) }

/-- The expected store after 16 logical adds. -/
def c7_expected_logical : fvdecheck_volume_state :=
  { fvdecheck_volume_state_initial with
      logical_volumes := (List.range 16).map (fun i =>
        { uuid := c7_uuid i, size_in_blocks := 100, extent_list := []
          mapped_blocks := 0, unmapped_blocks := 0 }) }

/-! ## Invariants I1 - I5 and the walker extent trace (claim C1) -/

/-- Disjointness of the physical ranges of two extents (closed-open
interval test). -/
def extent_disjoint (e1 e2 : fvdecheck_extent) : Prop :=
  e1.physical_block_start + e1.physical_block_count ≤ e2.physical_block_start ∨
  e2.physical_block_start + e2.physical_block_count ≤ e1.physical_block_start

/-- I1: every stored extent has a positive block count. -/
def invariant_I1 (st : fvdecheck_volume_state) : Prop :=
  ∀ pvi ∈ st.physical_volumes, ∀ e ∈ pvi.extent_list, 0 < e.physical_block_count

/-- I2: every physical list is strictly sorted by `physical_block_start`
and no two of its extents overlap. -/
def invariant_I2 (st : fvdecheck_volume_state) : Prop :=
  ∀ pvi ∈ st.physical_volumes,
    List.Pairwise (fun e1 e2 : fvdecheck_extent =>
      e1.physical_block_start < e2.physical_block_start) pvi.extent_list ∧
    List.Pairwise extent_disjoint pvi.extent_list

/-- I3: every allocated extent appears exactly once in its physical list
and exactly once in the list of its logical volume (the record, hence also
its `physical_block_count`, is the same in both). -/
def invariant_I3 (st : fvdecheck_volume_state) : Prop :=
  (∀ pvi ∈ st.physical_volumes, ∀ e ∈ pvi.extent_list,
    e.state = FVDECHECK_EXTENT_STATE_ALLOCATED →
      pvi.extent_list.count e = 1 ∧
      ∃ lvi, st.logical_volumes[e.logical_volume_index]? = some lvi ∧
        lvi.extent_list.count e = 1) ∧
  (∀ lvi ∈ st.logical_volumes, ∀ e ∈ lvi.extent_list,
    e.state = FVDECHECK_EXTENT_STATE_ALLOCATED ∧
    lvi.extent_list.count e = 1 ∧
    ∃ pvi, st.physical_volumes[e.physical_volume_index]? = some pvi ∧
      pvi.extent_list.count e = 1)

/-- I4: no allocated extent overlaps a reserved extent. -/
def invariant_I4 (st : fvdecheck_volume_state) : Prop :=
  ∀ pvi ∈ st.physical_volumes, ∀ e1 ∈ pvi.extent_list, ∀ e2 ∈ pvi.extent_list,
    e1.state = FVDECHECK_EXTENT_STATE_ALLOCATED →
    e2.state = FVDECHECK_EXTENT_STATE_RESERVED →
    extent_disjoint e1 e2

/-- I5 at a state: the statistics pass derives every statistics field from
the extent lists alone (and is therefore idempotent at this state). -/
def invariant_I5 (st : fvdecheck_volume_state) : Prop :=
  (∀ i pvi, (fvdecheck_volume_state_calculate_statistics st).physical_volumes[i]? =
      some pvi →
    (pvi.reserved_blocks, pvi.allocated_blocks, pvi.free_blocks) =
      fvdecheck_pv_statistics (pv_extent_list st i)) ∧
  (∀ j lvi, (fvdecheck_volume_state_calculate_statistics st).logical_volumes[j]? =
      some lvi →
    lvi.mapped_blocks = fvdecheck_lv_mapped_blocks (lv_extent_list st j)) ∧
  fvdecheck_volume_state_calculate_statistics
      (fvdecheck_volume_state_calculate_statistics st) =
    fvdecheck_volume_state_calculate_statistics st

/-- The extent records the walk inserts, in insertion order (the companion
of `walk_regions`). -/
def walk_extents (uv : unlocked_volume) : List fvdecheck_extent :=
  uv.physical_volumes.enum.map (fun p =>
    { extent_zero with
        physical_volume_index := p.1, physical_block_start := 0
        physical_block_count := 1, state := FVDECHECK_EXTENT_STATE_RESERVED
        reserved_description := "Volume header" }) ++
  (List.range 4).map (fun i =>
    { extent_zero with
        physical_volume_index := 0
        physical_block_start := uv.volume_header.metadata_offsets.getD i 0 / 4096
        physical_block_count := uv.volume_header.metadata_size / 4096
        state := FVDECHECK_EXTENT_STATE_RESERVED
        reserved_description := metadata_description i }) ++
  (match uv.metadata with
   | none => []
   | some md =>
     (if md.encrypted_metadata1_offset > 0 ∧ md.encrypted_metadata_size > 0 then
       [{ extent_zero with
            physical_volume_index := 0
            physical_block_start := md.encrypted_metadata1_offset / 4096
            physical_block_count := md.encrypted_metadata_size / 4096
            state := FVDECHECK_EXTENT_STATE_RESERVED
            reserved_description := "Encrypted metadata 1" }]
      else []) ++
     (if md.encrypted_metadata2_offset > 0 ∧ md.encrypted_metadata_size > 0 then
       [{ extent_zero with
            physical_volume_index := 0
            physical_block_start := md.encrypted_metadata2_offset / 4096
            physical_block_count := md.encrypted_metadata_size / 4096
            state := FVDECHECK_EXTENT_STATE_RESERVED
            reserved_description := "Encrypted metadata 2" }]
      else [])) ++
  uv.logical_volumes.enum.flatMap (fun p =>
    p.2.segment_descriptors.map (fun sd =>
      { extent_zero with
          physical_volume_index := sd.physical_volume_index
          physical_block_start := sd.physical_block_number
          physical_block_count := sd.number_of_blocks
          logical_volume_index := p.1
          logical_block_start := sd.logical_block_number
          state := FVDECHECK_EXTENT_STATE_ALLOCATED
          block_type := 0x0305 }))

/-- Projection of an extent to its region. -/
def extent_region (e : fvdecheck_extent) : walk_region :=
  { pv := e.physical_volume_index, start := e.physical_block_start
    count := e.physical_block_count }

/-- Claim C1 counterexample input: one physical volume, disjoint metadata
slots, no encrypted metadata, and one logical volume whose segment
descriptors contain an overlapping duplicate and a zero-length segment. -/
def c1_cex_input : unlocked_volume :=
  { physical_volumes := [{ identifier := List.replicate 16 0, size := 40960000 }]
    logical_volumes :=
      [{ identifier := List.replicate 16 1, size := 4096000,
         segment_descriptors :=
           [{ physical_volume_index := 0, physical_block_number := 100,
              number_of_blocks := 5, logical_block_number := 0 },
            { physical_volume_index := 0, physical_block_number := 100,
              number_of_blocks := 5, logical_block_number := 5 },
            { physical_volume_index := 0, physical_block_number := 200,
              number_of_blocks := 0, logical_block_number := 10 }] }]
    volume_header :=
      { metadata_size := 8192, metadata_offsets := [8192, 16384, 24576, 32768] }
    metadata := none }

/-- A well-formed walker input used as witness for the amended claim C1:
the same volume with disjoint, positive-length segments. -/
def c1_witness_input : unlocked_volume :=
  { physical_volumes := [{ identifier := List.replicate 16 0, size := 40960000 }]
    logical_volumes :=
      [{ identifier := List.replicate 16 1, size := 4096000,
         segment_descriptors :=
           [{ physical_volume_index := 0, physical_block_number := 100,
              number_of_blocks := 5, logical_block_number := 0 },
            { physical_volume_index := 0, physical_block_number := 200,
              number_of_blocks := 3, logical_block_number := 5 }] }]
    volume_header :=
      { metadata_size := 8192, metadata_offsets := [8192, 16384, 24576, 32768] }
    metadata := none }

instance : DecidableRel extent_disjoint := fun e1 e2 => by
  unfold extent_disjoint
  infer_instance

/-- Disjointness of physical ranges, demanded only of extents on the same
physical volume (the extent analogue of `region_disjoint`). -/
def extent_same_pv_disjoint (e1 e2 : fvdecheck_extent) : Prop :=
  e1.physical_volume_index = e2.physical_volume_index → extent_disjoint e1 e2

instance : DecidableRel extent_same_pv_disjoint := fun e1 e2 => by
  unfold extent_same_pv_disjoint
  infer_instance

/-- The volume-header extent `check_handle_open` inserts for physical
volume `p`. -/
def header_extent (p : Nat) : fvdecheck_extent :=
  reserved_extent p 0 1 "Volume header"

/-- The region a mark call covers. -/
def mark_op_region : fvdecheck_mark_op → walk_region
  | .reserved pv s c _ => { pv := pv, start := s, count := c }
  | .free pv s c _ _ _ => { pv := pv, start := s, count := c }
  | .allocated pv s c _ _ _ _ _ => { pv := pv, start := s, count := c }

/-- The mark calls `check_handle_mark_metadata_reserved` performs (with the
walker's constant block size 4096). -/
def md_ops (uv : unlocked_volume) : List fvdecheck_mark_op :=
  (List.range 4).map (fun i =>
    .reserved 0 (uv.volume_header.metadata_offsets.getD i 0 / 4096)
      (uv.volume_header.metadata_size / 4096) (metadata_description i)) ++
  (match uv.metadata with
   | none => []
   | some md =>
     (if md.encrypted_metadata1_offset > 0 ∧ md.encrypted_metadata_size > 0 then
       [.reserved 0 (md.encrypted_metadata1_offset / 4096)
          (md.encrypted_metadata_size / 4096) "Encrypted metadata 1"]
      else []) ++
     (if md.encrypted_metadata2_offset > 0 ∧ md.encrypted_metadata_size > 0 then
       [.reserved 0 (md.encrypted_metadata2_offset / 4096)
          (md.encrypted_metadata_size / 4096) "Encrypted metadata 2"]
      else []))

/-- The mark calls of the segment-descriptor walk. -/
def seg_ops (uv : unlocked_volume) : List fvdecheck_mark_op :=
  uv.logical_volumes.enum.flatMap (fun p =>
    p.2.segment_descriptors.map (fun sd =>
      .allocated sd.physical_volume_index sd.physical_block_number
        sd.number_of_blocks p.1 sd.logical_block_number 0 0 0x0305))

/-- All mark calls of `check_handle_process_volume`, in order. -/
def walk_ops (uv : unlocked_volume) : List fvdecheck_mark_op :=
  md_ops uv ++ seg_ops uv

/-- The walker state invariant, relative to the list `R` of regions marked
so far: every physical extent sits in the list of its own volume, has a
positive count and a region in `R`, and, when allocated, also sits in the
list of its logical volume; physical lists are pairwise disjoint; logical
extents are allocated, indexed consistently and present in their physical
list; logical lists are pairwise disjoint per physical volume. -/
def walker_inv (R : List walk_region) (st : fvdecheck_volume_state) : Prop :=
  (∀ p, ∀ e ∈ pv_extent_list st p,
    e.physical_volume_index = p ∧ 0 < e.physical_block_count ∧
    extent_region e ∈ R ∧
    (e.state = FVDECHECK_EXTENT_STATE_ALLOCATED →
      ∃ lvi, st.logical_volumes[e.logical_volume_index]? = some lvi ∧
        e ∈ lvi.extent_list)) ∧
  (∀ p, List.Pairwise extent_disjoint (pv_extent_list st p)) ∧
  (∀ l, ∀ e ∈ lv_extent_list st l,
    e.state = FVDECHECK_EXTENT_STATE_ALLOCATED ∧ e.logical_volume_index = l ∧
    e ∈ pv_extent_list st e.physical_volume_index) ∧
  (∀ l, List.Pairwise extent_same_pv_disjoint (lv_extent_list st l))

/-- The state the walk produces on the counterexample input. -/
def c1_cex_state : fvdecheck_volume_state :=
  except_ok_or fvdecheck_volume_state_initial (check_handle_walk c1_cex_input)

/-- The state the walk produces on the witness input. -/
def c1_witness_state : fvdecheck_volume_state :=
  except_ok_or fvdecheck_volume_state_initial (check_handle_walk c1_witness_input)

/-! ## Claim C10 helper -/

/-- Transaction identifier of metadata copy `i` (u64 at byte 16). -/
def transaction_id_of (src : Nat → Nat) (h : dump_handle) (i : Nat) : Nat :=
  readLE (metadata_block_of src h i) 16 8

/-- The scan of `dump_handle_read_metadata` stopped after the first `n`
metadata copies (the full scan is `n = 4`). -/
def metadata_scan_upto (src : Nat → Nat) (h : dump_handle) (n : Nat) :
    metadata_scan_state :=
  (List.range n).foldl
    (fun acc i => read_metadata_step (metadata_block_of src h i) i acc)
    { highest_transaction_id := 0, best_metadata_index := 0
      encrypted_metadata_size := 0, encrypted_metadata1_offset := 0
      encrypted_metadata2_offset := 0 }

/-- The volume-groups descriptor fields of metadata copy `i`: size in
blocks at descriptor offset +8 and the two encrypted-metadata block
numbers at +32 and +40. -/
def metadata_descriptor_fields (src : Nat → Nat) (h : dump_handle) (i : Nat) :
    Nat × Nat × Nat :=
  let block := metadata_block_of src h i
  let actual_offset := readLE block 220 4 - 64
  (readLE block (64 + actual_offset + 8) 8,
   readLE block (64 + actual_offset + 32) 8,
   readLE block (64 + actual_offset + 40) 8)

/-- All-zero source for the C10 witness. -/
def c10_src : Nat → Nat := fun _ => 0

def c10_handle : dump_handle :=
  { dump_handle_initialize_state with block_size := 4096, metadata_size := 8192 }

/-! ## Claim C9 helper -/

/-- The round trip of the two conversions. -/
def linux_sector_roundtrip (sector block_size : Nat) : Nat :=
  fvdecheck_fvde_block_to_linux_sector
    (fvdecheck_linux_sector_to_fvde_block sector block_size) block_size

/-! # Lemmas about the byte primitives -/

theorem length_writeLE (b : List Nat) (off n v : Nat) :
    (writeLE b off n v).length = b.length := by
  induction n generalizing b off v with
  | zero => rfl
  | succ n ih => rw [writeLE, ih, List.length_set]

theorem length_read_bytes (src : Nat → Nat) (off n : Nat) :
    (read_bytes src off n).length = n := by
  simp [read_bytes]

theorem getD_writeLE_of_lt (b : List Nat) (off n v i : Nat) (h : i < off) :
    (writeLE b off n v).getD i 0 = b.getD i 0 := by
  induction n generalizing b off v with
  | zero => rfl
  | succ n ih =>
    rw [writeLE, ih _ _ _ (Nat.lt_succ_of_lt h)]
    simp [List.getD_eq_getElem?_getD, List.getElem?_set_ne (Nat.ne_of_gt h)]

theorem getD_writeLE_of_ge (b : List Nat) (off n v i : Nat) (h : off + n ≤ i) :
    (writeLE b off n v).getD i 0 = b.getD i 0 := by
  induction n generalizing b off v with
  | zero => rfl
  | succ n ih =>
    rw [writeLE, ih _ _ _ (by omega)]
    have hne : off ≠ i := by omega
    simp [List.getD_eq_getElem?_getD, List.getElem?_set_ne hne]

theorem readLE_writeLE_left (b : List Nat) (off n v off1 n1 : Nat)
    (h : off1 + n1 ≤ off) :
    readLE (writeLE b off n v) off1 n1 = readLE b off1 n1 := by
  induction n1 generalizing off1 with
  | zero => rfl
  | succ n1 ih =>
    rw [readLE, readLE, getD_writeLE_of_lt _ _ _ _ _ (by omega), ih _ (by omega)]

theorem readLE_writeLE_right (b : List Nat) (off n v off1 n1 : Nat)
    (h : off + n ≤ off1) :
    readLE (writeLE b off n v) off1 n1 = readLE b off1 n1 := by
  induction n1 generalizing off1 with
  | zero => rfl
  | succ n1 ih =>
    rw [readLE, readLE, getD_writeLE_of_ge _ _ _ _ _ (by omega), ih _ (by omega)]

theorem readLE_writeLE_self (b : List Nat) (off n v : Nat) (h : off + n ≤ b.length) :
    readLE (writeLE b off n v) off n = v % 256 ^ n := by
  induction n generalizing b off v with
  | zero => simp [readLE, writeLE, Nat.mod_one]
  | succ n ih =>
    rw [writeLE, readLE]
    have hofflt : off < b.length := by omega
    have h1 : (writeLE (b.set off (v % 256)) (off + 1) n (v / 256)).getD off 0 =
        v % 256 := by
      rw [getD_writeLE_of_lt _ _ _ _ _ (Nat.lt_succ_self off)]
      simp [List.getD_eq_getElem?_getD, List.getElem?_set_self, hofflt]
    have h2 : readLE (writeLE (b.set off (v % 256)) (off + 1) n (v / 256)) (off + 1) n =
        v / 256 % 256 ^ n := by
      apply ih
      rw [List.length_set]
      omega
    rw [h1, h2]
    have h3 : (256 : Nat) ^ (n + 1) = 256 * 256 ^ n := by ring
    rw [h3, Nat.mod_mul]

theorem drop_writeLE (b : List Nat) (off n v m : Nat) (h : off + n ≤ m) :
    (writeLE b off n v).drop m = b.drop m := by
  induction n generalizing b off v with
  | zero => rfl
  | succ n ih =>
    rw [writeLE, ih _ _ _ (by omega), List.drop_set_of_lt _ _ (by omega)]

theorem bytes_lt_writeLE (b : List Nat) (off n v : Nat) (hb : ∀ x ∈ b, x < 256) :
    ∀ x ∈ writeLE b off n v, x < 256 := by
  induction n generalizing b off v with
  | zero => exact hb
  | succ n ih =>
    rw [writeLE]
    apply ih
    intro x hx
    rcases List.mem_or_eq_of_mem_set hx with h1 | h1
    · exact hb x h1
    · rw [h1]; exact Nat.mod_lt _ (by norm_num)

theorem bytes_lt_read_bytes (src : Nat → Nat) (off n : Nat)
    (hsrc : ∀ i, src i < 256) : ∀ x ∈ read_bytes src off n, x < 256 := by
  intro x hx
  simp [read_bytes] at hx
  obtain ⟨i, _, hi⟩ := hx
  rw [← hi]
  exact hsrc _

theorem getD_read_bytes (src : Nat → Nat) (off n i : Nat) (h : i < n) :
    (read_bytes src off n).getD i 0 = src (off + i) := by
  simp [read_bytes, List.getD_eq_getElem?_getD, List.getElem?_map,
    List.getElem?_range h]

theorem readLE_read_bytes (src : Nat → Nat) (off n o2 : Nat) :
    ∀ k, o2 + k ≤ n → readLE (read_bytes src off n) o2 k = src_readLE src (off + o2) k := by
  intro k
  induction k generalizing o2 with
  | zero => intro _; rfl
  | succ k ih =>
    intro h
    rw [readLE, src_readLE, getD_read_bytes src off n o2 (by omega),
      ih (o2 + 1) (by omega)]
    have : off + o2 + 1 = off + (o2 + 1) := by omega
    rw [this]

theorem getD_mem_or_zero (b : List Nat) (i : Nat) :
    b.getD i 0 ∈ b ∨ b.getD i 0 = 0 := by
  rcases Nat.lt_or_ge i b.length with h | h
  · left
    rw [List.getD_eq_getElem?_getD, List.getElem?_eq_getElem h]
    exact List.getElem_mem h
  · right
    rw [List.getD_eq_getElem?_getD, List.getElem?_eq_none h]
    rfl

theorem readLE_lt (b : List Nat) (off n : Nat) (hb : ∀ x ∈ b, x < 256) :
    readLE b off n < 256 ^ n := by
  induction n generalizing off with
  | zero => simp [readLE]
  | succ n ih =>
    rw [readLE]
    have hbyte : b.getD off 0 < 256 := by
      rcases getD_mem_or_zero b off with h | h
      · exact hb _ h
      · omega
    have hrest := ih (off + 1)
    calc b.getD off 0 + 256 * readLE b (off + 1) n
        < 256 * (readLE b (off + 1) n + 1) := by omega
      _ ≤ 256 * 256 ^ n := by
          apply Nat.mul_le_mul_left
          omega
      _ = 256 ^ (n + 1) := by ring

/-! # Lemmas about the weak CRC-32 -/

theorem xor_div_two_pow (a b k : Nat) :
    (a ^^^ b) / 2 ^ k = a / 2 ^ k ^^^ b / 2 ^ k := by
  rw [← Nat.shiftRight_eq_div_pow, ← Nat.shiftRight_eq_div_pow,
    ← Nat.shiftRight_eq_div_pow]
  apply Nat.eq_of_testBit_eq
  intro i
  simp [Nat.testBit_shiftRight, Nat.testBit_xor]

theorem xor_left_cancel_nat {a b c : Nat} (h : a ^^^ b = a ^^^ c) : b = c := by
  have h2 := congrArg (fun x => a ^^^ x) h
  simpa [← Nat.xor_assoc, Nat.xor_self] using h2

theorem xor_right_cancel_nat {a b c : Nat} (h : b ^^^ a = c ^^^ a) : b = c := by
  apply xor_left_cancel_nat (a := a)
  rw [Nat.xor_comm a b, Nat.xor_comm a c]
  exact h

theorem crc32_table_getD (i : Nat) (h : i < 256) :
    crc32_table.getD i 0 = crc32_table_entry i := by
  simp [crc32_table, List.getD_eq_getElem?_getD, List.getElem?_map,
    List.getElem?_range h]

theorem crc32_bit_step_lt (c : Nat) (h : c < 2 ^ 32) : crc32_bit_step c < 2 ^ 32 := by
  unfold crc32_bit_step
  split
  · apply Nat.xor_lt_two_pow
    · norm_num [crc32_polynomial]
    · omega
  · omega

theorem crc32_table_entry_lt (i : Nat) (h : i < 2 ^ 32) :
    crc32_table_entry i < 2 ^ 32 := by
  unfold crc32_table_entry
  iterate 8 apply crc32_bit_step_lt
  exact h

theorem mask_byte_lt (x : Nat) : x &&& 255 < 256 := by
  have h := Nat.and_pow_two_sub_one_eq_mod x 8
  norm_num at h
  rw [h]
  exact Nat.mod_lt _ (by norm_num)

theorem crc32_byte_step_lt (c b : Nat) (hc : c < 2 ^ 32) :
    crc32_byte_step c b < 2 ^ 32 := by
  unfold crc32_byte_step
  apply Nat.xor_lt_two_pow
  · rw [crc32_table_getD _ (mask_byte_lt _)]
    exact crc32_table_entry_lt _ (lt_trans (mask_byte_lt _) (by norm_num))
  · omega

theorem crc32_lt (buffer : List Nat) (iv : Nat) (hiv : iv < 2 ^ 32) :
    dump_handle_calculate_weak_crc32 buffer iv < 2 ^ 32 := by
  unfold dump_handle_calculate_weak_crc32
  induction buffer generalizing iv with
  | nil => exact hiv
  | cons b rest ih => exact ih _ (crc32_byte_step_lt _ _ hiv)

/-- The top bytes (bits 24-31) of the 256 CRC table entries, verified
below against `crc32_table_entry` and shown to be pairwise distinct; this
makes the CRC byte step invertible. -/
def crc32_high_bytes : List Nat :=
  [0,242,225,19,199,53,38,212,138,120,107,153,77,191,172,94,16,226,241,3,215,
   37,54,196,154,104,123,137,93,175,188,78,32,210,193,51,231,21,6,244,170,88,
   75,185,109,159,140,126,48,194,209,35,247,5,22,228,186,72,91,169,125,143,
   156,110,65,179,160,82,134,116,103,149,203,57,42,216,12,254,237,31,81,163,
   176,66,150,100,119,133,219,41,58,200,28,238,253,15,97,147,128,114,166,84,
   71,181,235,25,10,248,44,222,205,63,113,131,144,98,182,68,87,165,251,9,26,
   232,60,206,221,47,130,112,99,145,69,183,164,86,8,250,233,27,207,61,46,220,
   146,96,115,129,85,167,180,70,24,234,249,11,223,45,62,204,162,80,67,177,
   101,151,132,118,40,218,201,59,239,29,14,252,178,64,83,161,117,135,148,102,
   56,202,217,43,255,13,30,236,195,49,34,208,4,246,229,23,73,187,168,90,142,
   124,111,157,211,33,50,192,20,230,245,7,89,171,184,74,158,108,127,141,227,
   17,2,240,36,214,197,55,105,155,136,122,174,92,79,189,243,1,18,224,52,198,
   213,39,121,139,152,106,190,76,95,173]

set_option maxRecDepth 4000 in
theorem crc32_high_bytes_eq :
    (List.range 256).map (fun i => crc32_table_entry i / 2 ^ 24) =
      crc32_high_bytes := by decide

set_option maxRecDepth 4000 in
theorem crc32_high_bytes_nodup : crc32_high_bytes.Nodup := by decide

theorem crc32_table_entry_high_inj (i1 i2 : Nat) (h1 : i1 < 256) (h2 : i2 < 256)
    (heq : crc32_table_entry i1 / 2 ^ 24 = crc32_table_entry i2 / 2 ^ 24) :
    i1 = i2 := by
  have hnd : ((List.range 256).map (fun i => crc32_table_entry i / 2 ^ 24)).Nodup := by
    rw [crc32_high_bytes_eq]
    exact crc32_high_bytes_nodup
  have hl1 : i1 < ((List.range 256).map (fun i => crc32_table_entry i / 2 ^ 24)).length := by
    simpa using h1
  have hl2 : i2 < ((List.range 256).map (fun i => crc32_table_entry i / 2 ^ 24)).length := by
    simpa using h2
  have hget : ((List.range 256).map (fun i => crc32_table_entry i / 2 ^ 24)).get
        ⟨i1, hl1⟩ =
      ((List.range 256).map (fun i => crc32_table_entry i / 2 ^ 24)).get ⟨i2, hl2⟩ := by
    simp only [List.get_eq_getElem, List.getElem_map, List.getElem_range]
    exact heq
  exact (hnd.getElem_inj_iff).mp hget

theorem crc32_byte_step_inj (b c1 c2 : Nat) (h1 : c1 < 2 ^ 32) (h2 : c2 < 2 ^ 32)
    (heq : crc32_byte_step c1 b = crc32_byte_step c2 b) : c1 = c2 := by
  unfold crc32_byte_step at heq
  rw [crc32_table_getD _ (mask_byte_lt _), crc32_table_getD _ (mask_byte_lt _)] at heq
  have hd1 : c1 / 256 < 2 ^ 24 := by omega
  have hd2 : c2 / 256 < 2 ^ 24 := by omega
  have hhigh := congrArg (fun x => x / 2 ^ 24) heq
  simp only [xor_div_two_pow] at hhigh
  rw [Nat.div_eq_of_lt hd1, Nat.div_eq_of_lt hd2, Nat.xor_zero, Nat.xor_zero] at hhigh
  have hidx : (c1 ^^^ b) &&& 255 = (c2 ^^^ b) &&& 255 :=
    crc32_table_entry_high_inj _ _ (mask_byte_lt _) (mask_byte_lt _) hhigh
  rw [hidx] at heq
  have hdiv : c1 / 256 = c2 / 256 := xor_left_cancel_nat heq
  have hmod : c1 % 256 = c2 % 256 := by
    rw [Nat.and_xor_distrib_right, Nat.and_xor_distrib_right] at hidx
    have hlow := xor_right_cancel_nat hidx
    have e1 := Nat.and_pow_two_sub_one_eq_mod c1 8
    have e2 := Nat.and_pow_two_sub_one_eq_mod c2 8
    norm_num at e1 e2
    rw [e1, e2] at hlow
    exact hlow
  omega

theorem crc32_iv_inj (buffer : List Nat) (iv1 iv2 : Nat) (h1 : iv1 < 2 ^ 32)
    (h2 : iv2 < 2 ^ 32)
    (heq : dump_handle_calculate_weak_crc32 buffer iv1 =
      dump_handle_calculate_weak_crc32 buffer iv2) : iv1 = iv2 := by
  unfold dump_handle_calculate_weak_crc32 at heq
  induction buffer generalizing iv1 iv2 with
  | nil => exact heq
  | cons b rest ih =>
    exact crc32_byte_step_inj b _ _ h1 h2
      (ih _ _ (crc32_byte_step_lt _ _ h1) (crc32_byte_step_lt _ _ h2) heq)

theorem ref_reflected_step_eq (c : Nat) : ref_reflected_step c = crc32_bit_step c := by
  unfold ref_reflected_step crc32_bit_step crc32_polynomial
  split
  · rw [Nat.xor_comm]
  · rfl

theorem ref_table_eq (i : Nat) : ref_table i = crc32_table_entry i := by
  have h : ref_table i = ref_reflected_step (ref_reflected_step (ref_reflected_step
      (ref_reflected_step (ref_reflected_step (ref_reflected_step
      (ref_reflected_step (ref_reflected_step i))))))) := rfl
  rw [h]
  simp only [ref_reflected_step_eq]
  rfl

theorem crc32_byte_step_eq_ref (c b : Nat) :
    crc32_byte_step c b = ref_table ((c ^^^ b) &&& 255) ^^^ c / 256 := by
  unfold crc32_byte_step
  rw [crc32_table_getD _ (mask_byte_lt _), ref_table_eq]

/-- Claim C5: for every byte sequence and every initial value, the weak
CRC-32 of `dump_handle_calculate_weak_crc32` (table built by
`dump_handle_initialize_crc32_table` from polynomial 0x82F63B78) is
bit-identical to the reference reflected implementation described by the
spec: per-entry seed-and-shift table construction, and per byte
`checksum = table[(checksum XOR b) AND 0xFF] XOR (checksum >> 8)`. -/
theorem c5_weak_crc32_reference (bs : List Nat) (iv : Nat) :
    dump_handle_calculate_weak_crc32 bs iv = ref_weak_crc32 bs iv := by
  unfold dump_handle_calculate_weak_crc32 ref_weak_crc32
  induction bs generalizing iv with
  | nil => rfl
  | cons b rest ih =>
    simp only [List.foldl_cons]
    rw [crc32_byte_step_eq_ref]
    exact ih _

/-! # Claim C9: block number conversions -/

/-- Claim C9 (amended): on inputs whose byte offset does not wrap u64
arithmetic, the round trip `fvde_block_to_linux_sector ∘
linux_sector_to_fvde_block` returns the sector exactly when `s * 512` is a
multiple of the block size, and when the block size is itself a multiple of
512 the round trip yields the largest sector not exceeding `s` whose byte
offset is a multiple of the block size.  (As stated the flooring clause
fails for block sizes that are not multiples of 512, see
`c9_counterexample`.) -/
theorem c9_block_conversion_amended (s b : Nat) (hnw : s * 512 < 2 ^ 64) :
    (b ∣ s * 512 → linux_sector_roundtrip s b = s) ∧
    (512 ∣ b →
      linux_sector_roundtrip s b ≤ s ∧
      b ∣ linux_sector_roundtrip s b * 512 ∧
      ∀ s1, s1 ≤ s → b ∣ s1 * 512 → s1 ≤ linux_sector_roundtrip s b) := by
  have hu : u64_mod = 2 ^ 64 := by norm_num [u64_mod]
  constructor
  · intro hdvd
    by_cases hb : b = 0
    · subst hb
      have hs : s * 512 = 0 := Nat.eq_zero_of_zero_dvd hdvd
      have hs0 : s = 0 := by omega
      subst hs0
      rfl
    · unfold linux_sector_roundtrip fvdecheck_linux_sector_to_fvde_block
        fvdecheck_fvde_block_to_linux_sector
      rw [if_neg hb, hu, Nat.mod_eq_of_lt hnw, Nat.div_mul_cancel hdvd,
        Nat.mod_eq_of_lt hnw]
      omega
  · intro h512
    obtain ⟨k, hk⟩ := h512
    by_cases hk0 : k = 0
    · subst hk0
      simp only [Nat.mul_zero] at hk
      subst hk
      have hr0 : linux_sector_roundtrip s 0 = 0 := by
        unfold linux_sector_roundtrip fvdecheck_linux_sector_to_fvde_block
          fvdecheck_fvde_block_to_linux_sector
        simp
      rw [hr0]
      refine ⟨Nat.zero_le s, Dvd.intro 0 rfl, ?_⟩
      intro s1 hs1 hdvd
      have h1 : s1 * 512 = 0 := Nat.eq_zero_of_zero_dvd hdvd
      omega
    · have hb : b ≠ 0 := by
        rw [hk]; positivity
      have hq : fvdecheck_linux_sector_to_fvde_block s b = s / k := by
        unfold fvdecheck_linux_sector_to_fvde_block
        rw [if_neg hb, hu, Nat.mod_eq_of_lt hnw, hk, Nat.mul_comm s 512,
          Nat.mul_div_mul_left _ _ (by norm_num)]
      have hrt : linux_sector_roundtrip s b = s / k * k := by
        unfold linux_sector_roundtrip
        rw [hq]
        unfold fvdecheck_fvde_block_to_linux_sector
        have hle : s / k * b ≤ s * 512 := by
          rw [hk, ← Nat.mul_assoc, Nat.mul_comm (s / k) 512, Nat.mul_assoc,
            Nat.mul_comm s 512]
          exact Nat.mul_le_mul_left 512 (Nat.div_mul_le_self s k)
        rw [hu, Nat.mod_eq_of_lt (lt_of_le_of_lt hle hnw), hk, ← Nat.mul_assoc,
          Nat.mul_comm (s / k) 512, Nat.mul_assoc,
          Nat.mul_div_cancel_left _ (by norm_num : (0:Nat) < 512)]
      rw [hrt]
      refine ⟨Nat.div_mul_le_self s k, ?_, ?_⟩
      · rw [hk]
        exact ⟨s / k, by ring⟩
      · intro s1 hs1 hdvd
        rw [hk] at hdvd
        have hdk : k ∣ s1 := by
          have h1 : 512 * k ∣ 512 * s1 := by
            rw [Nat.mul_comm s1 512] at hdvd
            exact hdvd
          exact (Nat.mul_dvd_mul_iff_left (by norm_num : (0:Nat) < 512)).mp h1
        calc s1 = s1 / k * k := (Nat.div_mul_cancel hdk).symm
          _ ≤ s / k * k := Nat.mul_le_mul_right k (Nat.div_le_div_right hs1)

/-- Claim C9 counterexample: at sector 3 with block size 1000 the round
trip yields 1, but 1 * 512 is not a multiple of 1000 and the largest
sector not exceeding 3 whose byte offset is a multiple of 1000 is 0, so
the flooring clause of the claim as stated fails. -/
theorem c9_counterexample :
    linux_sector_roundtrip 3 1000 = 1 ∧ ¬ (1000 ∣ 1 * 512) ∧
    (∀ s1, s1 ≤ 3 → 1000 ∣ s1 * 512 → s1 = 0) := by decide

/-- Witness for claim C9 at sector 8, block size 4096. -/
theorem c9_block_conversion_witness :
    8 * 512 < 2 ^ 64 ∧
    ((4096 ∣ 8 * 512 → linux_sector_roundtrip 8 4096 = 8) ∧
     (512 ∣ 4096 →
       linux_sector_roundtrip 8 4096 ≤ 8 ∧
       4096 ∣ linux_sector_roundtrip 8 4096 * 512 ∧
       ∀ s1, s1 ≤ 8 → 4096 ∣ s1 * 512 → s1 ≤ linux_sector_roundtrip 8 4096)) :=
  ⟨by norm_num, c9_block_conversion_amended 8 4096 (by norm_num)⟩

/-! # Claim C8: keyring zeroization -/

/-- Claim C8 is violated by the code: on the return path taken when the
kernel `add_key` call fails, the key material has been copied into the
48-byte `combined_key` buffer but the buffer is not zeroed before the
function returns (the `memory_set` runs only after a successful
`add_key`).  This theorem evaluates the function at that failing input:
valid 16/32/16-byte keys and uuid, keyring `"@s"`, `add_key` failing. -/
theorem c8_keyring_zeroization_failure_path :
    keyring_handle_add_key (some (List.replicate 16 1)) 16
      (some (List.replicate 32 2)) 32 (some (List.replicate 16 3)) 16
      keyring_choice.at_s false =
      { result := -1, key_copied := true, key_zeroed := false } := by decide

/-! # Claim C7: the 16-volume capacity -/

/-- Claim C7: seventeen `add_physical_volume` calls with distinct uuids:
the first sixteen succeed (producing exactly the sixteen added volumes,
in order, with empty extent lists), the seventeenth fails with the
capacity error and leaves the sixteen volumes unchanged; the same holds
for `add_logical_volume`. -/
theorem c7_capacity :
    c7_physical_adds 16 = .ok c7_expected_physical ∧
    fvdecheck_volume_state_add_physical_volume c7_expected_physical (c7_uuid 16) 100 =
      .error .capacityExceeded ∧
    c7_physical_adds 17 = .error .capacityExceeded ∧
    c7_expected_physical.physical_volumes.length = 16 ∧
    c7_logical_adds 16 = .ok c7_expected_logical ∧
    fvdecheck_volume_state_add_logical_volume c7_expected_logical (c7_uuid 16) 100 =
      .error .capacityExceeded ∧
    c7_logical_adds 17 = .error .capacityExceeded ∧
    c7_expected_logical.logical_volumes.length = 16 := by decide

/-! # Claim C2: check_overlap -/

theorem overlap_test_iff_intersect (s c : Nat) (e : fvdecheck_extent)
    (hc : 0 < c) (hpos : 0 < e.physical_block_count)
    (hnw : e.physical_block_start + e.physical_block_count < 2 ^ 64)
    (hcnw : s + c < 2 ^ 64) :
    overlap_test s c e = true ↔
      intervals_intersect s c e.physical_block_start e.physical_block_count := by
  have hu : u64_mod = 2 ^ 64 := by norm_num [u64_mod]
  unfold overlap_test intervals_intersect
  rw [hu, Nat.mod_eq_of_lt hnw, Nat.mod_eq_of_lt hcnw]
  simp only [Bool.and_eq_true, decide_eq_true_eq]
  rw [Nat.max_lt, Nat.lt_min, Nat.lt_min]
  omega

theorem check_overlap_in_list_eq_find (s c : Nat) (L : List fvdecheck_extent)
    (hsort : List.Sorted extent_phys_le L)
    (hnw : ∀ e ∈ L, e.physical_block_start + e.physical_block_count < 2 ^ 64)
    (hcnw : s + c < 2 ^ 64) :
    fvdecheck_check_overlap_in_list s c L = L.find? (overlap_test s c) := by
  have hu : u64_mod = 2 ^ 64 := by norm_num [u64_mod]
  induction L with
  | nil => rfl
  | cons e rest ih =>
    obtain ⟨hhead, htail⟩ := List.sorted_cons.mp hsort
    have hse : (s + c) % u64_mod = s + c := by rw [hu]; exact Nat.mod_eq_of_lt hcnw
    have hee : (e.physical_block_start + e.physical_block_count) % u64_mod =
        e.physical_block_start + e.physical_block_count := by
      rw [hu]; exact Nat.mod_eq_of_lt (hnw e (List.mem_cons_self e rest))
    simp only [fvdecheck_check_overlap_in_list, hse, hee]
    by_cases hov : s < e.physical_block_start + e.physical_block_count ∧
        e.physical_block_start < s + c
    · rw [if_pos hov]
      have hb : overlap_test s c e = true := by
        unfold overlap_test
        rw [hee, hse]
        simp only [Bool.and_eq_true, decide_eq_true_eq]
        exact hov
      rw [List.find?_cons_of_pos _ hb]
    · rw [if_neg hov]
      have hb : ¬ overlap_test s c e = true := by
        unfold overlap_test
        rw [hee, hse]
        simp only [Bool.and_eq_true, decide_eq_true_eq]
        exact hov
      rw [List.find?_cons_of_neg _ (by simpa using hb)]
      by_cases hge : e.physical_block_start ≥ s + c
      · rw [if_pos hge]
        symm
        rw [List.find?_eq_none]
        intro x hx
        have hxges : s + c ≤ x.physical_block_start := le_trans hge (hhead x hx)
        unfold overlap_test
        rw [hse]
        simp only [Bool.and_eq_true, decide_eq_true_eq]
        intro hcon
        omega
      · rw [if_neg hge]
        exact ih htail (fun x hx => hnw x (List.mem_cons_of_mem _ hx))

/-- Claim C2 (amended): for a valid physical-volume index, a query of
positive length `c` that does not wrap u64 arithmetic, and a stored list
that is sorted with positive, non-wrapping extents (as every list built by
the store is), `check_overlap` returns exactly the first extent of the
pv-list satisfying the half-open interval test, and it returns `Some` iff
some stored extent of that volume has non-empty intersection with
`[s, s + c)`.  (As stated, with `c = 0` allowed, the claim fails: see
`c2_counterexample`.) -/
theorem c2_check_overlap_amended (st : fvdecheck_volume_state) (pv s c : Nat)
    (hpv : pv < st.physical_volumes.length)
    (hsort : List.Sorted extent_phys_le (pv_extent_list st pv))
    (hpos : ∀ e ∈ pv_extent_list st pv, 0 < e.physical_block_count)
    (hidx : ∀ e ∈ pv_extent_list st pv, e.physical_volume_index = pv)
    (hnw : ∀ e ∈ pv_extent_list st pv,
      e.physical_block_start + e.physical_block_count < 2 ^ 64)
    (hc : 0 < c) (hcnw : s + c < 2 ^ 64) :
    fvdecheck_volume_state_check_overlap st pv s c =
      (pv_extent_list st pv).find? (overlap_test s c) ∧
    ((fvdecheck_volume_state_check_overlap st pv s c).isSome = true ↔
      ∃ e ∈ pv_extent_list st pv, e.physical_volume_index = pv ∧
        intervals_intersect s c e.physical_block_start e.physical_block_count) := by
  have hsome : st.physical_volumes[pv]? = some (st.physical_volumes.get ⟨pv, hpv⟩) :=
    List.getElem?_eq_getElem hpv
  have hlist : pv_extent_list st pv =
      (st.physical_volumes.get ⟨pv, hpv⟩).extent_list := by
    unfold pv_extent_list
    rw [hsome]
  have hmain : fvdecheck_volume_state_check_overlap st pv s c =
      (pv_extent_list st pv).find? (overlap_test s c) := by
    unfold fvdecheck_volume_state_check_overlap
    rw [hsome]
    show fvdecheck_check_overlap_in_list s c
      (st.physical_volumes.get ⟨pv, hpv⟩).extent_list = _
    rw [← hlist]
    exact check_overlap_in_list_eq_find s c _ hsort hnw hcnw
  refine ⟨hmain, ?_⟩
  rw [hmain, List.find?_isSome]
  constructor
  · rintro ⟨e, he, hp⟩
    exact ⟨e, he, hidx e he,
      (overlap_test_iff_intersect s c e hc (hpos e he) (hnw e he) hcnw).mp hp⟩
  · rintro ⟨e, he, _, hint⟩
    exact ⟨e, he,
      (overlap_test_iff_intersect s c e hc (hpos e he) (hnw e he) hcnw).mpr hint⟩

/-- Claim C2 counterexample: in a state holding the single reserved extent
`[0, 10)` on physical volume 0, the query `check_overlap(0, 5, 0)` returns
`Some` although no stored extent has non-empty intersection with the empty
window `[5, 5)`, refuting the claimed equivalence as stated. -/
theorem c2_counterexample :
    (fvdecheck_volume_state_check_overlap c2_cex_state 0 5 0).isSome = true ∧
    ¬ ∃ e ∈ pv_extent_list c2_cex_state 0,
      intervals_intersect 5 0 e.physical_block_start e.physical_block_count := by
  decide

/-- Witness for claim C2 on the same one-extent state with the query
`(0, 5, 3)`. -/
theorem c2_check_overlap_witness :
    (0 < c2_cex_state.physical_volumes.length) ∧
    (fvdecheck_volume_state_check_overlap c2_cex_state 0 5 3 =
      (pv_extent_list c2_cex_state 0).find? (overlap_test 5 3) ∧
    ((fvdecheck_volume_state_check_overlap c2_cex_state 0 5 3).isSome = true ↔
      ∃ e ∈ pv_extent_list c2_cex_state 0, e.physical_volume_index = 0 ∧
        intervals_intersect 5 3 e.physical_block_start e.physical_block_count)) :=
  ⟨by decide,
   c2_check_overlap_amended c2_cex_state 0 5 3 (by decide) (by decide) (by decide)
     (by decide) (by decide) (by decide) (by decide)⟩

/-! # Claim C6: insertion order -/

theorem insert_physical_stable (e : fvdecheck_extent) (l : List fvdecheck_extent) :
    fvdecheck_insert_extent_physical e l =
      l.takeWhile (fun x => decide (x.physical_block_start ≤ e.physical_block_start)) ++
      e :: l.dropWhile (fun x => decide (x.physical_block_start ≤ e.physical_block_start)) := by
  induction l with
  | nil => rfl
  | cons x rest ih =>
    rw [fvdecheck_insert_extent_physical, List.takeWhile_cons, List.dropWhile_cons]
    by_cases h : e.physical_block_start < x.physical_block_start
    · rw [if_pos h]
      have hp : decide (x.physical_block_start ≤ e.physical_block_start) = false := by
        simp
        omega
      rw [hp]
      simp
    · rw [if_neg h]
      have hp : decide (x.physical_block_start ≤ e.physical_block_start) = true := by
        simp
        omega
      rw [hp]
      simp [ih]

theorem insert_logical_stable (e : fvdecheck_extent) (l : List fvdecheck_extent) :
    fvdecheck_insert_extent_logical e l =
      l.takeWhile (fun x => decide (x.logical_block_start ≤ e.logical_block_start)) ++
      e :: l.dropWhile (fun x => decide (x.logical_block_start ≤ e.logical_block_start)) := by
  induction l with
  | nil => rfl
  | cons x rest ih =>
    rw [fvdecheck_insert_extent_logical, List.takeWhile_cons, List.dropWhile_cons]
    by_cases h : e.logical_block_start < x.logical_block_start
    · rw [if_pos h]
      have hp : decide (x.logical_block_start ≤ e.logical_block_start) = false := by
        simp
        omega
      rw [hp]
      simp
    · rw [if_neg h]
      have hp : decide (x.logical_block_start ≤ e.logical_block_start) = true := by
        simp
        omega
      rw [hp]
      simp [ih]

theorem insert_physical_perm (e : fvdecheck_extent) (l : List fvdecheck_extent) :
    List.Perm (fvdecheck_insert_extent_physical e l) (e :: l) := by
  induction l with
  | nil => rfl
  | cons x rest ih =>
    rw [fvdecheck_insert_extent_physical]
    by_cases h : e.physical_block_start < x.physical_block_start
    · rw [if_pos h]
    · rw [if_neg h]
      exact (ih.cons x).trans (List.Perm.swap e x rest)

theorem insert_logical_perm (e : fvdecheck_extent) (l : List fvdecheck_extent) :
    List.Perm (fvdecheck_insert_extent_logical e l) (e :: l) := by
  induction l with
  | nil => rfl
  | cons x rest ih =>
    rw [fvdecheck_insert_extent_logical]
    by_cases h : e.logical_block_start < x.logical_block_start
    · rw [if_pos h]
    · rw [if_neg h]
      exact (ih.cons x).trans (List.Perm.swap e x rest)

theorem insert_physical_mem {y e : fvdecheck_extent} {l : List fvdecheck_extent}
    (h : y ∈ fvdecheck_insert_extent_physical e l) : y = e ∨ y ∈ l := by
  have := (insert_physical_perm e l).mem_iff.mp h
  simpa using this

theorem insert_logical_mem {y e : fvdecheck_extent} {l : List fvdecheck_extent}
    (h : y ∈ fvdecheck_insert_extent_logical e l) : y = e ∨ y ∈ l := by
  have := (insert_logical_perm e l).mem_iff.mp h
  simpa using this

theorem insert_physical_sorted (e : fvdecheck_extent) (l : List fvdecheck_extent)
    (h : List.Sorted extent_phys_le l) :
    List.Sorted extent_phys_le (fvdecheck_insert_extent_physical e l) := by
  induction l with
  | nil => simp [fvdecheck_insert_extent_physical]
  | cons x rest ih =>
    obtain ⟨hhead, htail⟩ := List.sorted_cons.mp h
    rw [fvdecheck_insert_extent_physical]
    by_cases hlt : e.physical_block_start < x.physical_block_start
    · rw [if_pos hlt]
      rw [List.sorted_cons]
      refine ⟨?_, h⟩
      intro y hy
      rcases List.mem_cons.mp hy with hy | hy
      · subst hy
        exact le_of_lt hlt
      · exact le_trans (le_of_lt hlt) (hhead y hy)
    · rw [if_neg hlt]
      rw [List.sorted_cons]
      refine ⟨?_, ih htail⟩
      intro y hy
      rcases insert_physical_mem hy with hy | hy
      · subst hy
        unfold extent_phys_le
        omega
      · exact hhead y hy

theorem insert_logical_sorted (e : fvdecheck_extent) (l : List fvdecheck_extent)
    (h : List.Sorted extent_logical_le l) :
    List.Sorted extent_logical_le (fvdecheck_insert_extent_logical e l) := by
  induction l with
  | nil => simp [fvdecheck_insert_extent_logical]
  | cons x rest ih =>
    obtain ⟨hhead, htail⟩ := List.sorted_cons.mp h
    rw [fvdecheck_insert_extent_logical]
    by_cases hlt : e.logical_block_start < x.logical_block_start
    · rw [if_pos hlt]
      rw [List.sorted_cons]
      refine ⟨?_, h⟩
      intro y hy
      rcases List.mem_cons.mp hy with hy | hy
      · subst hy
        exact le_of_lt hlt
      · exact le_trans (le_of_lt hlt) (hhead y hy)
    · rw [if_neg hlt]
      rw [List.sorted_cons]
      refine ⟨?_, ih htail⟩
      intro y hy
      rcases insert_logical_mem hy with hy | hy
      · subst hy
        unfold extent_logical_le
        omega
      · exact hhead y hy

/-! Shape of a successful mark call. -/

theorem mark_reserved_shape {st : fvdecheck_volume_state}
    {pv s c : Nat} {d : String} {st1 : fvdecheck_volume_state}
    (h : fvdecheck_volume_state_mark_reserved st pv s c d = .ok st1) :
    ∃ pv_info, st.physical_volumes[pv]? = some pv_info ∧
      st1.physical_volumes = st.physical_volumes.set pv
        { pv_info with extent_list :=
            (fvdecheck_insert_extent_physical (reserved_extent pv s c d)
              pv_info.extent_list) } ∧
      st1.logical_volumes = st.logical_volumes ∧
      st1.block_size = st.block_size := by
  unfold fvdecheck_volume_state_mark_reserved at h
  split at h
  · cases h
  · rename_i hguard
    have hlt : pv < st.physical_volumes.length := by omega
    have hsome : st.physical_volumes[pv]? = some (st.physical_volumes.get ⟨pv, hlt⟩) :=
      List.getElem?_eq_getElem hlt
    refine ⟨st.physical_volumes.get ⟨pv, hlt⟩, hsome, ?_⟩
    have hins : insert_into_physical_volume st pv (reserved_extent pv s c d) =
        { st with physical_volumes := (st.physical_volumes.set pv
            { st.physical_volumes.get ⟨pv, hlt⟩ with extent_list :=
                (fvdecheck_insert_extent_physical (reserved_extent pv s c d)
                  (st.physical_volumes.get ⟨pv, hlt⟩).extent_list) }) } := by
      unfold insert_into_physical_volume
      rw [hsome]
    dsimp only at h
    injection h with h
    subst h
    rw [hins]
    exact ⟨rfl, rfl, rfl⟩

theorem mark_free_shape {st : fvdecheck_volume_state}
    {pv s c tid mbi bt : Nat} {st1 : fvdecheck_volume_state}
    (h : fvdecheck_volume_state_mark_free st pv s c tid mbi bt = .ok st1) :
    ∃ pv_info, st.physical_volumes[pv]? = some pv_info ∧
      st1.physical_volumes = st.physical_volumes.set pv
        { pv_info with extent_list :=
            (fvdecheck_insert_extent_physical (free_extent pv s c tid mbi bt)
              pv_info.extent_list) } ∧
      st1.logical_volumes = st.logical_volumes ∧
      st1.block_size = st.block_size := by
  unfold fvdecheck_volume_state_mark_free at h
  split at h
  · cases h
  · rename_i hguard
    have hlt : pv < st.physical_volumes.length := by omega
    have hsome : st.physical_volumes[pv]? = some (st.physical_volumes.get ⟨pv, hlt⟩) :=
      List.getElem?_eq_getElem hlt
    refine ⟨st.physical_volumes.get ⟨pv, hlt⟩, hsome, ?_⟩
    have hins : insert_into_physical_volume st pv (free_extent pv s c tid mbi bt) =
        { st with physical_volumes := (st.physical_volumes.set pv
            { st.physical_volumes.get ⟨pv, hlt⟩ with extent_list :=
                (fvdecheck_insert_extent_physical (free_extent pv s c tid mbi bt)
                  (st.physical_volumes.get ⟨pv, hlt⟩).extent_list) }) } := by
      unfold insert_into_physical_volume
      rw [hsome]
    dsimp only at h
    injection h with h
    subst h
    rw [hins]
    exact ⟨rfl, rfl, rfl⟩

theorem mark_allocated_shape {st : fvdecheck_volume_state}
    {pv s c lv ls tid mbi bt : Nat} {st1 : fvdecheck_volume_state}
    (h : fvdecheck_volume_state_mark_allocated st pv s c lv ls tid mbi bt = .ok st1) :
    ∃ pv_info lv_info, st.physical_volumes[pv]? = some pv_info ∧
      st.logical_volumes[lv]? = some lv_info ∧
      st1.physical_volumes = st.physical_volumes.set pv
        { pv_info with extent_list :=
            (fvdecheck_insert_extent_physical
              (allocated_extent pv s c lv ls tid mbi bt) pv_info.extent_list) } ∧
      st1.logical_volumes = st.logical_volumes.set lv
        { lv_info with extent_list :=
            (fvdecheck_insert_extent_logical
              (allocated_extent pv s c lv ls tid mbi bt) lv_info.extent_list) } ∧
      st1.block_size = st.block_size := by
  unfold fvdecheck_volume_state_mark_allocated at h
  split at h
  · cases h
  · split at h
    · cases h
    · rename_i hguard1 hguard2
      have hltp : pv < st.physical_volumes.length := by omega
      have hltl : lv < st.logical_volumes.length := by omega
      have hsomep : st.physical_volumes[pv]? = some (st.physical_volumes.get ⟨pv, hltp⟩) :=
        List.getElem?_eq_getElem hltp
      have hsomel : st.logical_volumes[lv]? = some (st.logical_volumes.get ⟨lv, hltl⟩) :=
        List.getElem?_eq_getElem hltl
      refine ⟨st.physical_volumes.get ⟨pv, hltp⟩, st.logical_volumes.get ⟨lv, hltl⟩,
        hsomep, hsomel, ?_⟩
      have hins1 : insert_into_physical_volume st pv
          (allocated_extent pv s c lv ls tid mbi bt) =
          { st with physical_volumes := (st.physical_volumes.set pv
              { st.physical_volumes.get ⟨pv, hltp⟩ with extent_list :=
                  (fvdecheck_insert_extent_physical
                    (allocated_extent pv s c lv ls tid mbi bt)
                    (st.physical_volumes.get ⟨pv, hltp⟩).extent_list) }) } := by
        unfold insert_into_physical_volume
        rw [hsomep]
      have hsomel2 : (insert_into_physical_volume st pv
          (allocated_extent pv s c lv ls tid mbi bt)).logical_volumes[lv]? =
          some (st.logical_volumes.get ⟨lv, hltl⟩) := by
        rw [hins1]
        exact hsomel
      have hins2 : insert_into_logical_volume
          (insert_into_physical_volume st pv
            (allocated_extent pv s c lv ls tid mbi bt)) lv
          (allocated_extent pv s c lv ls tid mbi bt) =
          { insert_into_physical_volume st pv
              (allocated_extent pv s c lv ls tid mbi bt) with
            logical_volumes := (st.logical_volumes.set lv
              { st.logical_volumes.get ⟨lv, hltl⟩ with extent_list :=
                  (fvdecheck_insert_extent_logical
                    (allocated_extent pv s c lv ls tid mbi bt)
                    (st.logical_volumes.get ⟨lv, hltl⟩).extent_list) }) } := by
        unfold insert_into_logical_volume
        rw [hsomel2, hins1]
      dsimp only at h
      injection h with h
      subst h
      rw [hins2, hins1]
      exact ⟨rfl, rfl, rfl⟩

/-- Sorted lists are preserved by every successful mark call. -/
theorem apply_mark_op_sorted {st st1 : fvdecheck_volume_state}
    {op : fvdecheck_mark_op} (hs : sorted_lists st)
    (h : apply_mark_op st op = .ok st1) : sorted_lists st1 := by
  obtain ⟨hsp, hsl⟩ := hs
  cases op with
  | reserved pv s c d =>
    obtain ⟨pv_info, hsome, hpvs, hlvs, _⟩ := mark_reserved_shape h
    constructor
    · intro pvi hpvi
      rw [hpvs] at hpvi
      rcases List.mem_or_eq_of_mem_set hpvi with h1 | h1
      · exact hsp pvi h1
      · rw [h1]
        exact insert_physical_sorted _ _
          (hsp _ (List.getElem?_mem hsome))
    · intro lvi hlvi
      rw [hlvs] at hlvi
      exact hsl lvi hlvi
  | free pv s c tid mbi bt =>
    obtain ⟨pv_info, hsome, hpvs, hlvs, _⟩ := mark_free_shape h
    constructor
    · intro pvi hpvi
      rw [hpvs] at hpvi
      rcases List.mem_or_eq_of_mem_set hpvi with h1 | h1
      · exact hsp pvi h1
      · rw [h1]
        exact insert_physical_sorted _ _
          (hsp _ (List.getElem?_mem hsome))
    · intro lvi hlvi
      rw [hlvs] at hlvi
      exact hsl lvi hlvi
  | allocated pv s c lv ls tid mbi bt =>
    obtain ⟨pv_info, lv_info, hsomep, hsomel, hpvs, hlvs, _⟩ := mark_allocated_shape h
    constructor
    · intro pvi hpvi
      rw [hpvs] at hpvi
      rcases List.mem_or_eq_of_mem_set hpvi with h1 | h1
      · exact hsp pvi h1
      · rw [h1]
        exact insert_physical_sorted _ _
          (hsp _ (List.getElem?_mem hsomep))
    · intro lvi hlvi
      rw [hlvs] at hlvi
      rcases List.mem_or_eq_of_mem_set hlvi with h1 | h1
      · exact hsl lvi h1
      · rw [h1]
        exact insert_logical_sorted _ _
          (hsl _ (List.getElem?_mem hsomel))

theorem apply_mark_ops_sorted (st : fvdecheck_volume_state)
    (ops : List fvdecheck_mark_op) (hs : sorted_lists st) :
    sorted_lists (apply_mark_ops st ops) := by
  induction ops generalizing st with
  | nil => exact hs
  | cons op rest ih =>
    rw [apply_mark_ops, List.foldl_cons]
    rcases hok : apply_mark_op st op with st1 | st1
    · simp only [hok]
      exact ih st hs
    · simp only [hok]
      exact ih st1 (apply_mark_op_sorted hs hok)

/-- Claim C6: (1) both insertion routines place a new extent after every
stored extent with a key less than or equal to its own and before every
strictly greater key — ascending order with stable append on equal keys,
for the physical list keyed by `physical_block_start` and the logical list
keyed by `logical_block_start`; (2) hence any sequence of successful
`mark_reserved`/`mark_free`/`mark_allocated` calls keeps every list sorted;
(3) the S2 scenario: after reserved(0,start 0,count 1),
allocated(start 10,count 5, logical 0) and allocated(start 4,count 3,
logical 5) on one volume, the pv-0 traversal yields starts [0, 4, 10],
`check_overlap(0, 6, 3)` returns the extent at start 4 and
`find_physical_extent(0, 12)` the extent at start 10. -/
theorem c6_insertion_order :
    (∀ (e : fvdecheck_extent) (l : List fvdecheck_extent),
      fvdecheck_insert_extent_physical e l =
        l.takeWhile (fun x => decide (x.physical_block_start ≤ e.physical_block_start)) ++
        e :: l.dropWhile (fun x => decide (x.physical_block_start ≤ e.physical_block_start))) ∧
    (∀ (e : fvdecheck_extent) (l : List fvdecheck_extent),
      fvdecheck_insert_extent_logical e l =
        l.takeWhile (fun x => decide (x.logical_block_start ≤ e.logical_block_start)) ++
        e :: l.dropWhile (fun x => decide (x.logical_block_start ≤ e.logical_block_start))) ∧
    (∀ (st : fvdecheck_volume_state) (ops : List fvdecheck_mark_op),
      sorted_lists st → sorted_lists (apply_mark_ops st ops)) ∧
    ((pv_extent_list s2_state 0).map (fun e => e.physical_block_start) = [0, 4, 10] ∧
     (fvdecheck_volume_state_check_overlap s2_state 0 6 3).map
       (fun e => e.physical_block_start) = some 4 ∧
     (fvdecheck_volume_state_find_physical_extent s2_state 0 12).map
       (fun e => e.physical_block_start) = some 10) :=
  ⟨insert_physical_stable, insert_logical_stable,
   fun st ops hs => apply_mark_ops_sorted st ops hs,
   by decide⟩

/-- Witness for claim C6: the sorted-lists invariant instantiated at the
initial state and the S2 operation sequence. -/
theorem c6_insertion_order_witness :
    sorted_lists fvdecheck_volume_state_initial ∧
    sorted_lists (apply_mark_ops fvdecheck_volume_state_initial
      [fvdecheck_mark_op.reserved 0 0 1 "H"]) :=
  have hempty : sorted_lists fvdecheck_volume_state_initial := by
    constructor <;> intro x hx <;> cases hx
  ⟨hempty, c6_insertion_order.2.2.1 fvdecheck_volume_state_initial
    [fvdecheck_mark_op.reserved 0 0 1 "H"] hempty⟩

/-! # Claim C4: the compact-mode metadata checksum -/

/-- Core fact about `dump_handle_write_corrected_metadata`: whenever the
descriptor-rewrite path is taken, the stored checksum is the weak CRC-32
of bytes `[8 .. 8 + 8184)` of the modified block with the fixed initial
value `0xffffffff` (the code does not read the block's `[4..8)` field). -/
theorem write_corrected_metadata_fixed_iv (src : Nat → Nat) (h : dump_handle)
    (source_offset c1 c2 : Nat)
    (hvg : readLE (read_bytes src source_offset h.metadata_size) 220 4 > 64)
    (hfit : 64 + (readLE (read_bytes src source_offset h.metadata_size) 220 4 - 64)
      + 48 ≤ h.metadata_size) :
    readLE (dump_handle_write_corrected_metadata src h source_offset c1 c2) 0 4 =
      dump_handle_calculate_weak_crc32
        (((dump_handle_write_corrected_metadata src h source_offset c1 c2).drop 8).take 8184)
        0xffffffff := by
  unfold dump_handle_write_corrected_metadata
  rw [if_pos hvg, if_pos hfit]
  set d := read_bytes src source_offset h.metadata_size with hd
  set actual_offset := readLE d 220 4 - 64 with hao
  set b2 := writeLE (writeLE d (64 + actual_offset + 32) 8 (c1 / h.block_size))
    (64 + actual_offset + 40) 8 (c2 / h.block_size) with hb2
  set c := dump_handle_calculate_weak_crc32 ((b2.drop 8).take 8184) 0xffffffff with hc
  have hlen : b2.length = h.metadata_size := by
    rw [hb2, length_writeLE, length_writeLE, hd, length_read_bytes]
  have hclt : c < 2 ^ 32 := crc32_lt _ _ (by norm_num)
  have h1 : readLE (writeLE b2 0 4 c) 0 4 = c := by
    rw [readLE_writeLE_self b2 0 4 c (by omega)]
    have : (256 : Nat) ^ 4 = 2 ^ 32 := by norm_num
    rw [this, Nat.mod_eq_of_lt hclt]
  have h3 : (writeLE b2 0 4 c).drop 8 = b2.drop 8 := drop_writeLE b2 0 4 c 8 (by omega)
  rw [h1, h3]

/-- Claim C4 (amended): on the rewrite path, the checksum stored at
`[0..4)` is the weak CRC-32 over the fixed byte range `[8 .. 8192)`
(8184 bytes) of the modified block, computed with the fixed initial value
`0xffffffff` — not with the value stored at `[4..8)` and not over
`[8 .. metadata_size)`. -/
theorem c4_metadata_checksum_amended (src : Nat → Nat) (h : dump_handle)
    (source_offset c1 c2 : Nat)
    (hvg : readLE (read_bytes src source_offset h.metadata_size) 220 4 > 64)
    (hfit : 64 + (readLE (read_bytes src source_offset h.metadata_size) 220 4 - 64)
      + 48 ≤ h.metadata_size) :
    readLE (dump_handle_write_corrected_metadata src h source_offset c1 c2) 0 4 =
      dump_handle_calculate_weak_crc32
        (((dump_handle_write_corrected_metadata src h source_offset c1 c2).drop 8).take 8184)
        0xffffffff :=
  write_corrected_metadata_fixed_iv src h source_offset c1 c2 hvg hfit

/-- Witness for claim C4 on the first metadata copy of the concrete C3
source. -/
theorem c4_metadata_checksum_witness :
    readLE (read_bytes c3_src 8192 c3_handle2.metadata_size) 220 4 > 64 ∧
    64 + (readLE (read_bytes c3_src 8192 c3_handle2.metadata_size) 220 4 - 64) + 48 ≤
      c3_handle2.metadata_size ∧
    readLE (dump_handle_write_corrected_metadata c3_src c3_handle2 8192 36864 53248) 0 4 =
      dump_handle_calculate_weak_crc32
        (((dump_handle_write_corrected_metadata c3_src c3_handle2 8192 36864 53248).drop 8).take 8184)
        0xffffffff := by
  have hvg : readLE (read_bytes c3_src 8192 c3_handle2.metadata_size) 220 4 > 64 := by
    rw [readLE_read_bytes c3_src 8192 c3_handle2.metadata_size 220 4 (by decide)]
    decide
  have hfit : 64 + (readLE (read_bytes c3_src 8192 c3_handle2.metadata_size) 220 4 - 64)
      + 48 ≤ c3_handle2.metadata_size := by
    rw [readLE_read_bytes c3_src 8192 c3_handle2.metadata_size 220 4 (by decide)]
    decide
  exact ⟨hvg, hfit, c4_metadata_checksum_amended c3_src c3_handle2 8192 36864 53248 hvg hfit⟩

/-- Claim C4 counterexample: the rewritten block `c4_out` comes from a
source block whose checksum initial-value field `[4..8)` holds 0; its
stored checksum does not validate against the weak CRC-32 computed with
the initial value read from `[4..8)` as the claim states, because the code
uses the constant `0xffffffff` instead. -/
theorem c4_counterexample :
    ¬ (readLE c4_out 0 4 =
       dump_handle_calculate_weak_crc32 ((c4_out.drop 8).take 8184)
         (readLE c4_out 4 4)) := by
  have hvgc : readLE (read_bytes c4_src 0 c4_handle.metadata_size) 220 4 > 64 := by
    rw [readLE_read_bytes c4_src 0 c4_handle.metadata_size 220 4 (by decide)]
    decide
  have hfitc : 64 + (readLE (read_bytes c4_src 0 c4_handle.metadata_size) 220 4 - 64)
      + 48 ≤ c4_handle.metadata_size := by
    rw [readLE_read_bytes c4_src 0 c4_handle.metadata_size 220 4 (by decide)]
    decide
  intro hcon
  have hvalid : readLE c4_out 0 4 =
      dump_handle_calculate_weak_crc32 ((c4_out.drop 8).take 8184) 0xffffffff :=
    write_corrected_metadata_fixed_iv c4_src c4_handle 0 36864 53248 hvgc hfitc
  have hiv : readLE c4_out 4 4 = 0 := by
    unfold c4_out dump_handle_write_corrected_metadata
    rw [if_pos hvgc, if_pos hfitc]
    rw [readLE_writeLE_right _ 0 4 _ 4 4 (by norm_num)]
    rw [readLE_writeLE_left _ _ _ _ 4 4 (by omega)]
    rw [readLE_writeLE_left _ _ _ _ 4 4 (by omega)]
    rw [readLE_read_bytes c4_src 0 c4_handle.metadata_size 4 4 (by decide)]
    decide
  rw [hiv] at hcon
  have heq : dump_handle_calculate_weak_crc32 ((c4_out.drop 8).take 8184) 0xffffffff =
      dump_handle_calculate_weak_crc32 ((c4_out.drop 8).take 8184) 0 :=
    hvalid.symm.trans hcon
  have habs := crc32_iv_inj _ _ _ (by norm_num) (by norm_num) heq
  norm_num at habs

/-! # Claim C3: the compact dump scenario S4 -/

theorem header_fold_length (C : Nat) (l : List Nat) :
    ∀ (b : List Nat) (k : Nat),
      ((l.foldl (fun (acc : List Nat × Nat) metadata_index =>
        (writeLE acc.1 (104 + metadata_index * 8) 8 acc.2,
         (acc.2 + C) % u64_mod)) (b, k)).1).length = b.length := by
  induction l with
  | nil => intro b k; rfl
  | cons a rest ih =>
    intro b k
    rw [List.foldl_cons]
    rw [ih (writeLE b (104 + a * 8) 8 k) ((k + C) % u64_mod), length_writeLE]

theorem header_fold_bytes (C : Nat) (l : List Nat) :
    ∀ (b : List Nat) (k : Nat), (∀ x ∈ b, x < 256) →
      ∀ x ∈ ((l.foldl (fun (acc : List Nat × Nat) metadata_index =>
        (writeLE acc.1 (104 + metadata_index * 8) 8 acc.2,
         (acc.2 + C) % u64_mod)) (b, k)).1), x < 256 := by
  induction l with
  | nil => intro b k hb; exact hb
  | cons a rest ih =>
    intro b k hb
    rw [List.foldl_cons]
    exact ih (writeLE b (104 + a * 8) 8 k) ((k + C) % u64_mod)
      (bytes_lt_writeLE b (104 + a * 8) 8 k hb)

/-- Writing the recomputed volume-header checksum at `[0..4)` leaves a
buffer whose header checksum validates (the verification reads the same
initial value from `[4..8)` and the same bytes `[8..512)`). -/
theorem checksum_write_valid_504 (d : List Nat) (hlen : 512 ≤ d.length)
    (hbytes : ∀ x ∈ d, x < 256) :
    volume_header_checksum_valid (writeLE d 0 4
      (dump_handle_calculate_weak_crc32 ((d.drop 8).take 504) (readLE d 4 4))) := by
  unfold volume_header_checksum_valid
  set c := dump_handle_calculate_weak_crc32 ((d.drop 8).take 504) (readLE d 4 4) with hc
  have hiv : readLE d 4 4 < 2 ^ 32 := by
    have h1 := readLE_lt d 4 4 hbytes
    exact lt_of_lt_of_le h1 (by norm_num)
  have hclt : c < 2 ^ 32 := crc32_lt _ _ hiv
  have h1 : readLE (writeLE d 0 4 c) 0 4 = c := by
    rw [readLE_writeLE_self d 0 4 c (by omega)]
    have h2 : (256 : Nat) ^ 4 = 2 ^ 32 := by norm_num
    rw [h2, Nat.mod_eq_of_lt hclt]
  have h2 : readLE (writeLE d 0 4 c) 4 4 = readLE d 4 4 :=
    readLE_writeLE_right d 0 4 c 4 4 (by norm_num)
  have h3 : (writeLE d 0 4 c).drop 8 = d.drop 8 := drop_writeLE d 0 4 c 8 (by norm_num)
  rw [h1, h2, h3]

theorem c3_src_lt (i : Nat) : c3_src i < 256 := by
  unfold c3_src c3_header_byte c3_metadata_byte
  repeat' split
  all_goals norm_num

/-- The volume header of the C3 source decodes to `c3_handle1`. -/
theorem c3_read_volume_header :
    dump_handle_read_volume_header c3_src c3_handle0 = .ok c3_handle1 := by
  unfold dump_handle_read_volume_header
  have h88 : (read_bytes c3_src 0 512).getD 88 0 = 67 := by
    rw [getD_read_bytes c3_src 0 512 88 (by norm_num)]
    decide
  have h89 : (read_bytes c3_src 0 512).getD 89 0 = 83 := by
    rw [getD_read_bytes c3_src 0 512 89 (by norm_num)]
    decide
  have hneg : ¬((read_bytes c3_src 0 512).getD 88 0 ≠ 67 ∨
      (read_bytes c3_src 0 512).getD 89 0 ≠ 83) := by
    push_neg
    exact ⟨h88, h89⟩
  rw [if_neg hneg]
  have h72 : readLE (read_bytes c3_src 0 512) 72 8 = 0 := by
    rw [readLE_read_bytes c3_src 0 512 72 8 (by norm_num)]
    decide
  have h96 : readLE (read_bytes c3_src 0 512) 96 4 = 4096 := by
    rw [readLE_read_bytes c3_src 0 512 96 4 (by norm_num)]
    decide
  have h100 : readLE (read_bytes c3_src 0 512) 100 4 = 8192 := by
    rw [readLE_read_bytes c3_src 0 512 100 4 (by norm_num)]
    decide
  have h104 : readLE (read_bytes c3_src 0 512) 104 8 = 2 := by
    rw [readLE_read_bytes c3_src 0 512 104 8 (by norm_num)]
    decide
  have h112 : readLE (read_bytes c3_src 0 512) 112 8 = 4 := by
    rw [readLE_read_bytes c3_src 0 512 112 8 (by norm_num)]
    decide
  have h120 : readLE (read_bytes c3_src 0 512) 120 8 = 6 := by
    rw [readLE_read_bytes c3_src 0 512 120 8 (by norm_num)]
    decide
  have h128 : readLE (read_bytes c3_src 0 512) 128 8 = 8 := by
    rw [readLE_read_bytes c3_src 0 512 128 8 (by norm_num)]
    decide
  have hrange : List.range 4 = [0, 1, 2, 3] := rfl
  rw [hrange]
  simp only [List.map_cons, List.map_nil]
  norm_num [h72, h96, h100, h104, h112, h120, h128]
  unfold c3_handle1 c3_handle0 dump_handle_initialize_state
  norm_num [u64_mod]

theorem c3_block_tx (i : Nat) (hi : i < 4) :
    readLE (metadata_block_of c3_src c3_handle1 i) 16 8 = 1 := by
  unfold metadata_block_of
  interval_cases i
  · rw [show c3_handle1.metadata_offsets.getD 0 0 = 8192 from rfl,
      show c3_handle1.metadata_size = 8192 from rfl,
      readLE_read_bytes c3_src 8192 8192 16 8 (by norm_num)]
    decide
  · rw [show c3_handle1.metadata_offsets.getD 1 0 = 16384 from rfl,
      show c3_handle1.metadata_size = 8192 from rfl,
      readLE_read_bytes c3_src 16384 8192 16 8 (by norm_num)]
    decide
  · rw [show c3_handle1.metadata_offsets.getD 2 0 = 24576 from rfl,
      show c3_handle1.metadata_size = 8192 from rfl,
      readLE_read_bytes c3_src 24576 8192 16 8 (by norm_num)]
    decide
  · rw [show c3_handle1.metadata_offsets.getD 3 0 = 32768 from rfl,
      show c3_handle1.metadata_size = 8192 from rfl,
      readLE_read_bytes c3_src 32768 8192 16 8 (by norm_num)]
    decide

theorem c3_block0_vgdo :
    readLE (metadata_block_of c3_src c3_handle1 0) 220 4 = 300 := by
  unfold metadata_block_of
  rw [show c3_handle1.metadata_offsets.getD 0 0 = 8192 from rfl,
    show c3_handle1.metadata_size = 8192 from rfl,
    readLE_read_bytes c3_src 8192 8192 220 4 (by norm_num)]
  decide

theorem c3_block0_enc_size :
    readLE (metadata_block_of c3_src c3_handle1 0) (64 + (300 - 64) + 8) 8 = 4 := by
  unfold metadata_block_of
  rw [show c3_handle1.metadata_offsets.getD 0 0 = 8192 from rfl,
    show c3_handle1.metadata_size = 8192 from rfl]
  rw [show 64 + (300 - 64) + 8 = 308 from rfl,
    readLE_read_bytes c3_src 8192 8192 308 8 (by norm_num)]
  decide

theorem c3_block0_enc1 :
    readLE (metadata_block_of c3_src c3_handle1 0) (64 + (300 - 64) + 32) 8 = 100 := by
  unfold metadata_block_of
  rw [show c3_handle1.metadata_offsets.getD 0 0 = 8192 from rfl,
    show c3_handle1.metadata_size = 8192 from rfl]
  rw [show 64 + (300 - 64) + 32 = 332 from rfl,
    readLE_read_bytes c3_src 8192 8192 332 8 (by norm_num)]
  decide

theorem c3_block0_enc2 :
    readLE (metadata_block_of c3_src c3_handle1 0) (64 + (300 - 64) + 40) 8 = 200 := by
  unfold metadata_block_of
  rw [show c3_handle1.metadata_offsets.getD 0 0 = 8192 from rfl,
    show c3_handle1.metadata_size = 8192 from rfl]
  rw [show 64 + (300 - 64) + 40 = 340 from rfl,
    readLE_read_bytes c3_src 8192 8192 340 8 (by norm_num)]
  decide

theorem c3_scan_result :
    dump_handle_metadata_scan c3_src c3_handle1 =
      { highest_transaction_id := 1, best_metadata_index := 0
        encrypted_metadata_size := 4, encrypted_metadata1_offset := 100
        encrypted_metadata2_offset := 200 } := by
  unfold dump_handle_metadata_scan
  rw [show List.range 4 = [0, 1, 2, 3] from rfl]
  simp only [List.foldl_cons, List.foldl_nil]
  have hs0 : read_metadata_step (metadata_block_of c3_src c3_handle1 0) 0
      { highest_transaction_id := 0, best_metadata_index := 0
        encrypted_metadata_size := 0, encrypted_metadata1_offset := 0
        encrypted_metadata2_offset := 0 } =
      { highest_transaction_id := 1, best_metadata_index := 0
        encrypted_metadata_size := 4, encrypted_metadata1_offset := 100
        encrypted_metadata2_offset := 200 } := by
    unfold read_metadata_step
    rw [c3_block_tx 0 (by norm_num), if_pos (by norm_num), c3_block0_vgdo,
      if_pos (by norm_num)]
    dsimp only
    rw [c3_block0_enc_size, c3_block0_enc1, c3_block0_enc2]
  rw [hs0]
  have hstep : ∀ i, i < 4 → read_metadata_step (metadata_block_of c3_src c3_handle1 i) i
      { highest_transaction_id := 1, best_metadata_index := 0
        encrypted_metadata_size := 4, encrypted_metadata1_offset := 100
        encrypted_metadata2_offset := 200 } =
      { highest_transaction_id := 1, best_metadata_index := 0
        encrypted_metadata_size := 4, encrypted_metadata1_offset := 100
        encrypted_metadata2_offset := 200 } := by
    intro i hi
    unfold read_metadata_step
    rw [c3_block_tx i hi, if_neg (by norm_num)]
  rw [hstep 1 (by norm_num), hstep 2 (by norm_num), hstep 3 (by norm_num)]

/-- The metadata scan of the C3 source adopts the descriptor of copy 0 and
`dump_handle_read_metadata` converts its fields to byte offsets. -/
theorem c3_read_metadata :
    dump_handle_read_metadata c3_src c3_handle1 = .ok c3_handle2 := by
  unfold dump_handle_read_metadata
  rw [if_neg (show ¬(c3_handle1.metadata_size = 0) by decide)]
  rw [c3_scan_result]
  unfold c3_handle2 c3_handle1 c3_handle0 dump_handle_initialize_state
  norm_num [u64_mod]
  exact ⟨by decide, by decide⟩

theorem length_write_corrected_metadata (src : Nat → Nat) (h : dump_handle)
    (so c1 c2 : Nat) :
    (dump_handle_write_corrected_metadata src h so c1 c2).length = h.metadata_size := by
  unfold dump_handle_write_corrected_metadata
  dsimp only
  split
  · split
    · rw [length_writeLE, length_writeLE, length_writeLE, length_read_bytes]
    · rw [length_read_bytes]
  · rw [length_read_bytes]

theorem length_write_corrected_volume_header (src : Nat → Nat) (h : dump_handle) :
    (dump_handle_write_corrected_volume_header src h).length = 512 := by
  unfold dump_handle_write_corrected_volume_header
  rw [length_writeLE]
  rw [header_fold_length, length_read_bytes]

/-- The corrected volume header always validates: the checksum is computed
over the final bytes `[8..512)` with the initial value read back from
`[4..8)`. -/
theorem write_corrected_volume_header_valid (src : Nat → Nat) (h : dump_handle)
    (hsrc : ∀ i, src i < 256) :
    volume_header_checksum_valid (dump_handle_write_corrected_volume_header src h) := by
  unfold dump_handle_write_corrected_volume_header
  apply checksum_write_valid_504
  · rw [header_fold_length, length_read_bytes]
  · exact header_fold_bytes _ _ _ _ (bytes_lt_read_bytes src 0 512 hsrc)

/-- On the rewrite path the block's `[4..8)` field is not modified. -/
theorem write_corrected_metadata_iv (src : Nat → Nat) (h : dump_handle)
    (so c1 c2 : Nat)
    (hvg : readLE (read_bytes src so h.metadata_size) 220 4 > 64)
    (hfit : 64 + (readLE (read_bytes src so h.metadata_size) 220 4 - 64) + 48 ≤
      h.metadata_size) :
    readLE (dump_handle_write_corrected_metadata src h so c1 c2) 4 4 =
      readLE (read_bytes src so h.metadata_size) 4 4 := by
  unfold dump_handle_write_corrected_metadata
  rw [if_pos hvg, if_pos hfit]
  set d := read_bytes src so h.metadata_size with hd
  set ao := readLE d 220 4 - 64 with hao
  rw [readLE_writeLE_right _ 0 4 _ 4 4 (by norm_num)]
  rw [readLE_writeLE_left _ (64 + ao + 40) 8 _ 4 4 (by omega)]
  rw [readLE_writeLE_left _ (64 + ao + 32) 8 _ 4 4 (by omega)]

/-- On the rewrite path the two encrypted-metadata block numbers are
written (as full little-endian u64 values) at descriptor offsets +32 and
+40. -/
theorem write_corrected_metadata_fields (src : Nat → Nat) (h : dump_handle)
    (so c1 c2 : Nat)
    (hvg : readLE (read_bytes src so h.metadata_size) 220 4 > 64)
    (hfit : 64 + (readLE (read_bytes src so h.metadata_size) 220 4 - 64) + 48 ≤
      h.metadata_size) :
    readLE (dump_handle_write_corrected_metadata src h so c1 c2)
      (64 + (readLE (read_bytes src so h.metadata_size) 220 4 - 64) + 32) 8 =
      c1 / h.block_size % 256 ^ 8 ∧
    readLE (dump_handle_write_corrected_metadata src h so c1 c2)
      (64 + (readLE (read_bytes src so h.metadata_size) 220 4 - 64) + 40) 8 =
      c2 / h.block_size % 256 ^ 8 := by
  unfold dump_handle_write_corrected_metadata
  rw [if_pos hvg, if_pos hfit]
  set d := read_bytes src so h.metadata_size with hd
  set ao := readLE d 220 4 - 64 with hao
  have hlend : d.length = h.metadata_size := by
    rw [hd]; exact length_read_bytes _ _ _
  constructor
  · rw [readLE_writeLE_right _ 0 4 _ (64 + ao + 32) 8 (by omega)]
    rw [readLE_writeLE_left _ (64 + ao + 40) 8 _ (64 + ao + 32) 8 (by omega)]
    rw [readLE_writeLE_self d (64 + ao + 32) 8 _ (by omega)]
  · rw [readLE_writeLE_right _ 0 4 _ (64 + ao + 40) 8 (by omega)]
    rw [readLE_writeLE_self _ (64 + ao + 40) 8 _ (by rw [length_writeLE]; omega)]

theorem c3_md_vgdo (off : Nat)
    (hoff : off = 8192 ∨ off = 16384 ∨ off = 24576 ∨ off = 32768) :
    readLE (read_bytes c3_src off c3_handle2.metadata_size) 220 4 = 300 := by
  rw [show c3_handle2.metadata_size = 8192 from rfl]
  rcases hoff with h | h | h | h <;> subst h <;>
    rw [readLE_read_bytes c3_src _ 8192 220 4 (by norm_num)] <;> decide

theorem c3_md_iv (off : Nat)
    (hoff : off = 8192 ∨ off = 16384 ∨ off = 24576 ∨ off = 32768) :
    readLE (read_bytes c3_src off c3_handle2.metadata_size) 4 4 = 4294967295 := by
  rw [show c3_handle2.metadata_size = 8192 from rfl]
  rcases hoff with h | h | h | h <;> subst h <;>
    rw [readLE_read_bytes c3_src _ 8192 4 4 (by norm_num)] <;> decide

theorem c3_md_hvg (off : Nat)
    (hoff : off = 8192 ∨ off = 16384 ∨ off = 24576 ∨ off = 32768) :
    readLE (read_bytes c3_src off c3_handle2.metadata_size) 220 4 > 64 := by
  rw [c3_md_vgdo off hoff]
  norm_num

theorem c3_md_hfit (off : Nat)
    (hoff : off = 8192 ∨ off = 16384 ∨ off = 24576 ∨ off = 32768) :
    64 + (readLE (read_bytes c3_src off c3_handle2.metadata_size) 220 4 - 64) + 48 ≤
      c3_handle2.metadata_size := by
  rw [c3_md_vgdo off hoff]
  decide

/-- The rewritten encrypted-metadata block numbers of every compact
metadata copy are 9 and 13. -/
theorem c3_dump_metadata_fields (i : Nat) (hi : i < 4) :
    readLE (c3_dump_metadata i) 332 8 = 9 ∧ readLE (c3_dump_metadata i) 340 8 = 13 := by
  have hoff : c3_handle2.metadata_offsets.getD i 0 = 8192 ∨
      c3_handle2.metadata_offsets.getD i 0 = 16384 ∨
      c3_handle2.metadata_offsets.getD i 0 = 24576 ∨
      c3_handle2.metadata_offsets.getD i 0 = 32768 := by
    interval_cases i
    · left; rfl
    · right; left; rfl
    · right; right; left; rfl
    · right; right; right; rfl
  have hfields := write_corrected_metadata_fields c3_src c3_handle2
    (c3_handle2.metadata_offsets.getD i 0) 36864 53248
    (c3_md_hvg _ hoff) (c3_md_hfit _ hoff)
  rw [c3_md_vgdo _ hoff] at hfields
  rw [show c3_handle2.block_size = 4096 from rfl] at hfields
  norm_num only at hfields
  unfold c3_dump_metadata
  exact hfields

/-- Every compact metadata copy's checksum validates (its `[4..8)` field
holds 0xffffffff, the fixed initial value the rewriter uses). -/
theorem c3_dump_metadata_valid (i : Nat) (hi : i < 4) :
    metadata_block_checksum_valid (c3_dump_metadata i) := by
  have hoff : c3_handle2.metadata_offsets.getD i 0 = 8192 ∨
      c3_handle2.metadata_offsets.getD i 0 = 16384 ∨
      c3_handle2.metadata_offsets.getD i 0 = 24576 ∨
      c3_handle2.metadata_offsets.getD i 0 = 32768 := by
    interval_cases i
    · left; rfl
    · right; left; rfl
    · right; right; left; rfl
    · right; right; right; rfl
  unfold metadata_block_checksum_valid c3_dump_metadata
  have hiv : readLE (dump_handle_write_corrected_metadata c3_src c3_handle2
      (c3_handle2.metadata_offsets.getD i 0) 36864 53248) 4 4 = 4294967295 := by
    rw [write_corrected_metadata_iv c3_src c3_handle2 _ 36864 53248
      (c3_md_hvg _ hoff) (c3_md_hfit _ hoff)]
    exact c3_md_iv _ hoff
  rw [hiv]
  exact write_corrected_metadata_fixed_iv c3_src c3_handle2 _ 36864 53248
    (c3_md_hvg _ hoff) (c3_md_hfit _ hoff)

theorem c3_header_valid : volume_header_checksum_valid c3_dump_header := by
  unfold c3_dump_header
  exact write_corrected_volume_header_valid c3_src c3_handle2 c3_src_lt

/-- The four metadata slot block numbers written into the corrected volume
header are 1, 3, 5, 7 (step `ceil(8192 / 4096) = 2` starting from 1). -/
theorem c3_dump_header_blocks :
    readLE c3_dump_header 104 8 = 1 ∧ readLE c3_dump_header 112 8 = 3 ∧
    readLE c3_dump_header 120 8 = 5 ∧ readLE c3_dump_header 128 8 = 7 := by
  unfold c3_dump_header dump_handle_write_corrected_volume_header
  rw [show (List.range 4) = [0, 1, 2, 3] from rfl]
  dsimp only [List.foldl_cons, List.foldl_nil]
  rw [show c3_handle2.metadata_size = 8192 from rfl,
    show c3_handle2.block_size = 4096 from rfl]
  norm_num only [u32_mod, u64_mod]
  have hlen0 : (read_bytes c3_src 0 512).length = 512 := length_read_bytes _ _ _
  refine ⟨?_, ?_, ?_, ?_⟩
  · rw [readLE_writeLE_right _ 0 4 _ 104 8 (by norm_num)]
    rw [readLE_writeLE_left _ 128 8 _ 104 8 (by norm_num)]
    rw [readLE_writeLE_left _ 120 8 _ 104 8 (by norm_num)]
    rw [readLE_writeLE_left _ 112 8 _ 104 8 (by norm_num)]
    rw [readLE_writeLE_self _ 104 8 _ (by rw [length_read_bytes]; norm_num)]
    norm_num
  · rw [readLE_writeLE_right _ 0 4 _ 112 8 (by norm_num)]
    rw [readLE_writeLE_left _ 128 8 _ 112 8 (by norm_num)]
    rw [readLE_writeLE_left _ 120 8 _ 112 8 (by norm_num)]
    rw [readLE_writeLE_self _ 112 8 _ (by rw [length_writeLE, length_read_bytes]; norm_num)]
    norm_num
  · rw [readLE_writeLE_right _ 0 4 _ 120 8 (by norm_num)]
    rw [readLE_writeLE_left _ 128 8 _ 120 8 (by norm_num)]
    rw [readLE_writeLE_self _ 120 8 _
      (by rw [length_writeLE, length_writeLE, length_read_bytes]; norm_num)]
    norm_num
  · rw [readLE_writeLE_right _ 0 4 _ 128 8 (by norm_num)]
    rw [readLE_writeLE_self _ 128 8 _
      (by rw [length_writeLE, length_writeLE, length_writeLE, length_read_bytes]; norm_num)]
    norm_num

/-- The ordered write list the compact dump performs on the C3 source. -/
theorem c3_writes_shape :
    dump_handle_dump c3_src c3_handle2 =
      [(0, c3_dump_header), (4096, c3_dump_metadata 0), (12288, c3_dump_metadata 1),
       (20480, c3_dump_metadata 2), (28672, c3_dump_metadata 3),
       (36864, read_bytes c3_src 409600 16384),
       (53248, read_bytes c3_src 819200 16384)] := by
  unfold dump_handle_dump c3_dump_header c3_dump_metadata
  rw [if_pos (show c3_handle2.compact = true from rfl)]
  dsimp only
  rw [if_pos (show c3_handle2.encrypted_metadata2_offset ≠ 0 by decide)]
  rw [if_pos (show c3_handle2.encrypted_metadata1_offset ≠ 0 by decide)]
  dsimp only
  rw [show (List.range 4) = [0, 1, 2, 3] from rfl]
  dsimp only [List.map_cons, List.map_nil, List.cons_append, List.nil_append]
  rw [show c3_handle2.block_size = 4096 from rfl,
    show c3_handle2.metadata_size = 8192 from rfl,
    show c3_handle2.encrypted_metadata_size = 16384 from rfl,
    show c3_handle2.encrypted_metadata1_offset = 409600 from rfl,
    show c3_handle2.encrypted_metadata2_offset = 819200 from rfl]
  norm_num only [u32_mod]

theorem c3_destination_size :
    dump_destination_size c3_handle2 (dump_handle_dump c3_src c3_handle2) = 69632 := by
  rw [c3_writes_shape]
  unfold dump_destination_size
  rw [if_pos (show c3_handle2.compact = true from rfl)]
  dsimp only [List.foldl_cons, List.foldl_nil]
  have hh : c3_dump_header.length = 512 := by
    unfold c3_dump_header
    rw [length_write_corrected_volume_header]
  have hm : ∀ i, (c3_dump_metadata i).length = 8192 := by
    intro i
    unfold c3_dump_metadata
    rw [length_write_corrected_metadata]
    rfl
  have hr1 : (read_bytes c3_src 409600 16384).length = 16384 := length_read_bytes _ _ _
  have hr2 : (read_bytes c3_src 819200 16384).length = 16384 := length_read_bytes _ _ _
  rw [hh, hm 0, hm 1, hm 2, hm 3, hr1, hr2]
  omega

/-- Claim C3: for a source with block size 4096, metadata size 8192,
encrypted metadata size 16384, original metadata offsets
0x2000/0x4000/0x6000/0x8000 and encrypted-metadata block numbers 100 and
200, reading the volume header and the metadata succeeds, and the compact
dump writes a destination of 69632 bytes in which the header's four
metadata slot block numbers are 1, 3, 5, 7, every copied metadata block
carries rewritten encrypted-metadata block numbers 9 and 13, and the
header checksum and all four metadata-block checksums validate under the
weak CRC-32. -/
theorem c3_compact_dump_scenario :
    dump_handle_read_volume_header c3_src c3_handle0 = Except.ok c3_handle1 ∧
    dump_handle_read_metadata c3_src c3_handle1 = Except.ok c3_handle2 ∧
    dump_handle_dump c3_src c3_handle2 =
      [(0, c3_dump_header), (4096, c3_dump_metadata 0), (12288, c3_dump_metadata 1),
       (20480, c3_dump_metadata 2), (28672, c3_dump_metadata 3),
       (36864, read_bytes c3_src 409600 16384),
       (53248, read_bytes c3_src 819200 16384)] ∧
    dump_destination_size c3_handle2 (dump_handle_dump c3_src c3_handle2) = 69632 ∧
    (readLE c3_dump_header 104 8 = 1 ∧ readLE c3_dump_header 112 8 = 3 ∧
     readLE c3_dump_header 120 8 = 5 ∧ readLE c3_dump_header 128 8 = 7) ∧
    (readLE (c3_dump_metadata 0) 332 8 = 9 ∧ readLE (c3_dump_metadata 0) 340 8 = 13) ∧
    (readLE (c3_dump_metadata 1) 332 8 = 9 ∧ readLE (c3_dump_metadata 1) 340 8 = 13) ∧
    (readLE (c3_dump_metadata 2) 332 8 = 9 ∧ readLE (c3_dump_metadata 2) 340 8 = 13) ∧
    (readLE (c3_dump_metadata 3) 332 8 = 9 ∧ readLE (c3_dump_metadata 3) 340 8 = 13) ∧
    volume_header_checksum_valid c3_dump_header ∧
    metadata_block_checksum_valid (c3_dump_metadata 0) ∧
    metadata_block_checksum_valid (c3_dump_metadata 1) ∧
    metadata_block_checksum_valid (c3_dump_metadata 2) ∧
    metadata_block_checksum_valid (c3_dump_metadata 3) :=
  ⟨c3_read_volume_header, c3_read_metadata, c3_writes_shape, c3_destination_size,
   c3_dump_header_blocks,
   c3_dump_metadata_fields 0 (by norm_num), c3_dump_metadata_fields 1 (by norm_num),
   c3_dump_metadata_fields 2 (by norm_num), c3_dump_metadata_fields 3 (by norm_num),
   c3_header_valid,
   c3_dump_metadata_valid 0 (by norm_num), c3_dump_metadata_valid 1 (by norm_num),
   c3_dump_metadata_valid 2 (by norm_num), c3_dump_metadata_valid 3 (by norm_num)⟩

/-! # Claim C10: metadata copy selection -/

theorem metadata_scan_upto_succ (src : Nat → Nat) (h : dump_handle) (n : Nat) :
    metadata_scan_upto src h (n + 1) =
      read_metadata_step (metadata_block_of src h n) n (metadata_scan_upto src h n) := by
  unfold metadata_scan_upto
  rw [List.range_succ, List.foldl_append, List.foldl_cons, List.foldl_nil]

/-- Invariant of the metadata scan: the running highest transaction id
bounds every scanned copy's id; it is zero only in the initial state; when
positive, the best index is the lowest index attaining it; and the
descriptor fields are either still zero or were adopted from a copy whose
transaction id strictly exceeds every earlier copy's and whose descriptor
offset is > 64. -/
theorem metadata_scan_upto_spec (src : Nat → Nat) (h : dump_handle) :
    ∀ n : Nat,
    (∀ j, j < n → transaction_id_of src h j ≤
        (metadata_scan_upto src h n).highest_transaction_id) ∧
    ((metadata_scan_upto src h n).highest_transaction_id = 0 →
      metadata_scan_upto src h n = metadata_scan_upto src h 0) ∧
    (0 < (metadata_scan_upto src h n).highest_transaction_id →
      (metadata_scan_upto src h n).best_metadata_index < n ∧
      (metadata_scan_upto src h n).highest_transaction_id =
        transaction_id_of src h (metadata_scan_upto src h n).best_metadata_index ∧
      ∀ j, j < (metadata_scan_upto src h n).best_metadata_index →
        transaction_id_of src h j <
          transaction_id_of src h (metadata_scan_upto src h n).best_metadata_index) ∧
    (((metadata_scan_upto src h n).encrypted_metadata_size,
      (metadata_scan_upto src h n).encrypted_metadata1_offset,
      (metadata_scan_upto src h n).encrypted_metadata2_offset) = (0, 0, 0) ∨
     ∃ i, i < n ∧
       (∀ j, j < i → transaction_id_of src h j < transaction_id_of src h i) ∧
       readLE (metadata_block_of src h i) 220 4 > 64 ∧
       ((metadata_scan_upto src h n).encrypted_metadata_size,
        (metadata_scan_upto src h n).encrypted_metadata1_offset,
        (metadata_scan_upto src h n).encrypted_metadata2_offset) =
         metadata_descriptor_fields src h i) := by
  intro n
  induction n with
  | zero =>
    refine ⟨fun j hj => absurd hj (Nat.not_lt_zero j), fun _ => rfl,
      fun h0 => absurd h0 (Nat.lt_irrefl 0), Or.inl rfl⟩
  | succ n ih =>
    obtain ⟨ih1, ih2, ih3, ih4⟩ := ih
    rw [metadata_scan_upto_succ]
    unfold read_metadata_step
    by_cases hgt : readLE (metadata_block_of src h n) 16 8 >
        (metadata_scan_upto src h n).highest_transaction_id
    · rw [if_pos hgt]
      have htxn : transaction_id_of src h n = readLE (metadata_block_of src h n) 16 8 := rfl
      have hstrict : ∀ j, j < n → transaction_id_of src h j < transaction_id_of src h n := by
        intro j hj
        rw [htxn]
        exact lt_of_le_of_lt (ih1 j hj) hgt
      by_cases hvg : readLE (metadata_block_of src h n) 220 4 > 64
      · rw [if_pos hvg]
        dsimp only
        refine ⟨?_, ?_, ?_, ?_⟩
        · intro j hj
          rcases Nat.lt_succ_iff_lt_or_eq.mp hj with hj | hj
          · exact le_of_lt (lt_of_le_of_lt (ih1 j hj) hgt)
          · subst hj; exact le_of_eq htxn
        · intro h0
          rw [h0] at hgt
          exact absurd hgt (Nat.not_lt_zero _)
        · intro _
          exact ⟨Nat.lt_succ_self n, htxn, hstrict⟩
        · right
          exact ⟨n, Nat.lt_succ_self n, hstrict, hvg, rfl⟩
      · rw [if_neg hvg]
        dsimp only
        refine ⟨?_, ?_, ?_, ?_⟩
        · intro j hj
          rcases Nat.lt_succ_iff_lt_or_eq.mp hj with hj | hj
          · exact le_of_lt (lt_of_le_of_lt (ih1 j hj) hgt)
          · subst hj; exact le_of_eq htxn
        · intro h0
          rw [h0] at hgt
          exact absurd hgt (Nat.not_lt_zero _)
        · intro _
          exact ⟨Nat.lt_succ_self n, htxn, hstrict⟩
        · rcases ih4 with h4 | ⟨i, hi, hstr, hvgi, hfields⟩
          · exact Or.inl h4
          · exact Or.inr ⟨i, Nat.lt_succ_of_lt hi, hstr, hvgi, hfields⟩
    · rw [if_neg hgt]
      refine ⟨?_, ih2, ?_, ?_⟩
      · intro j hj
        rcases Nat.lt_succ_iff_lt_or_eq.mp hj with hj | hj
        · exact ih1 j hj
        · subst hj; exact Nat.not_lt.mp hgt
      · intro hpos
        obtain ⟨hb, he, hs⟩ := ih3 hpos
        exact ⟨Nat.lt_succ_of_lt hb, he, hs⟩
      · rcases ih4 with h4 | ⟨i, hi, hstr, hvgi, hfields⟩
        · exact Or.inl h4
        · exact Or.inr ⟨i, Nat.lt_succ_of_lt hi, hstr, hvgi, hfields⟩

theorem metadata_scan_eq_upto (src : Nat → Nat) (h : dump_handle) :
    dump_handle_metadata_scan src h = metadata_scan_upto src h 4 := rfl

theorem metadata_scan_upto_zero (src : Nat → Nat) (h : dump_handle) :
    metadata_scan_upto src h 0 =
      { highest_transaction_id := 0, best_metadata_index := 0
        encrypted_metadata_size := 0, encrypted_metadata1_offset := 0
        encrypted_metadata2_offset := 0 } := rfl

/-- When both encrypted-metadata offsets are zero, the dump writes only
the volume header and the four metadata copies. -/
theorem dump_omits_encrypted_regions (src : Nat → Nat) (h : dump_handle)
    (h1 : h.encrypted_metadata1_offset = 0) (h2 : h.encrypted_metadata2_offset = 0) :
    (dump_handle_dump src h).length = 5 := by
  unfold dump_handle_dump
  by_cases hc : h.compact
  · rw [if_pos hc]
    dsimp only
    rw [if_neg (by simp [h2]), if_neg (by simp [h1])]
    simp
  · rw [if_neg hc]
    dsimp only
    rw [if_neg (by simp [h2]), if_neg (by simp [h1])]
    simp

/-- `dump_handle_read_metadata` never inspects the best-metadata-only
flag: toggling it only toggles the flag of the result. -/
theorem read_metadata_flag_independent (src : Nat → Nat) (h : dump_handle) (b : Bool) :
    dump_handle_read_metadata src { h with best_metadata_only := b } =
      Except.map (fun h2 => { h2 with best_metadata_only := b })
        (dump_handle_read_metadata src h) := by
  unfold dump_handle_read_metadata
  by_cases hm : h.metadata_size = 0
  · rw [if_pos hm,
      if_pos (show ({ h with best_metadata_only := b } : dump_handle).metadata_size = 0 from hm)]
    rfl
  · rw [if_neg hm,
      if_neg (show ¬ ({ h with best_metadata_only := b } : dump_handle).metadata_size = 0 from hm)]
    rfl

/-- When all four transaction identifiers are zero no copy is ever
adopted and the encrypted-metadata fields stay zero. -/
theorem read_metadata_all_zero (src : Nat → Nat) (h : dump_handle)
    (htx : ∀ j, j < 4 → transaction_id_of src h j = 0)
    (hm : h.metadata_size ≠ 0) :
    dump_handle_read_metadata src h =
      .ok { h with encrypted_metadata1_offset := 0
                   encrypted_metadata2_offset := 0
                   encrypted_metadata_size := 0 } := by
  obtain ⟨_, h2, h3, _⟩ := metadata_scan_upto_spec src h 4
  have hzero : (metadata_scan_upto src h 4).highest_transaction_id = 0 := by
    by_contra hne
    obtain ⟨hb, he, _⟩ := h3 (Nat.pos_of_ne_zero hne)
    rw [htx _ hb] at he
    exact hne he
  have hscan : dump_handle_metadata_scan src h = metadata_scan_upto src h 0 := by
    rw [metadata_scan_eq_upto]
    exact h2 hzero
  unfold dump_handle_read_metadata
  rw [if_neg hm, hscan, metadata_scan_upto_zero]
  simp

/-- Claim C10: the metadata scan of `dump_handle_read_metadata` visits the
four copies in index order; the running highest transaction id bounds every
copy's id and, when positive, is attained by the best copy, whose index is
the lowest attaining it (a tie never displaces an earlier copy); the
volume-groups descriptor fields are either still zero or were adopted from
a copy whose transaction id strictly exceeds every earlier copy's (and
whose descriptor offset is > 64); the selection is independent of the
best-metadata-only flag; and when all four transaction ids are zero the
encrypted-metadata offsets and size remain zero, so the subsequent dump
writes only the header and the four metadata copies, omitting both
encrypted-metadata regions. -/
theorem c10_read_metadata_selection (src : Nat → Nat) (h : dump_handle) :
    (∀ j, j < 4 → transaction_id_of src h j ≤
        (dump_handle_metadata_scan src h).highest_transaction_id) ∧
    (0 < (dump_handle_metadata_scan src h).highest_transaction_id →
      (dump_handle_metadata_scan src h).best_metadata_index < 4 ∧
      (dump_handle_metadata_scan src h).highest_transaction_id =
        transaction_id_of src h (dump_handle_metadata_scan src h).best_metadata_index ∧
      ∀ j, j < (dump_handle_metadata_scan src h).best_metadata_index →
        transaction_id_of src h j <
          transaction_id_of src h (dump_handle_metadata_scan src h).best_metadata_index) ∧
    (((dump_handle_metadata_scan src h).encrypted_metadata_size,
      (dump_handle_metadata_scan src h).encrypted_metadata1_offset,
      (dump_handle_metadata_scan src h).encrypted_metadata2_offset) = (0, 0, 0) ∨
     ∃ i, i < 4 ∧
       (∀ j, j < i → transaction_id_of src h j < transaction_id_of src h i) ∧
       readLE (metadata_block_of src h i) 220 4 > 64 ∧
       ((dump_handle_metadata_scan src h).encrypted_metadata_size,
        (dump_handle_metadata_scan src h).encrypted_metadata1_offset,
        (dump_handle_metadata_scan src h).encrypted_metadata2_offset) =
         metadata_descriptor_fields src h i) ∧
    (∀ b : Bool, dump_handle_read_metadata src { h with best_metadata_only := b } =
      Except.map (fun h2 => { h2 with best_metadata_only := b })
        (dump_handle_read_metadata src h)) ∧
    ((∀ j, j < 4 → transaction_id_of src h j = 0) → h.metadata_size ≠ 0 →
      dump_handle_read_metadata src h =
        .ok { h with encrypted_metadata1_offset := 0
                     encrypted_metadata2_offset := 0
                     encrypted_metadata_size := 0 } ∧
      (dump_handle_dump src
        { h with encrypted_metadata1_offset := 0
                 encrypted_metadata2_offset := 0
                 encrypted_metadata_size := 0 }).length = 5) := by
  obtain ⟨h1, _, h3, h4⟩ := metadata_scan_upto_spec src h 4
  rw [metadata_scan_eq_upto]
  refine ⟨h1, h3, h4, read_metadata_flag_independent src h, ?_⟩
  intro htx hm
  exact ⟨read_metadata_all_zero src h htx hm,
    dump_omits_encrypted_regions src _ rfl rfl⟩

/-- Witness for claim C10: on the all-zero source every transaction id is
zero, reading the metadata keeps the encrypted-metadata fields zero and
the dump performs exactly 5 writes. -/
theorem c10_read_metadata_selection_witness :
    (∀ j, j < 4 → transaction_id_of c10_src c10_handle j = 0) ∧
    c10_handle.metadata_size ≠ 0 ∧
    dump_handle_read_metadata c10_src c10_handle =
      .ok { c10_handle with encrypted_metadata1_offset := 0
                            encrypted_metadata2_offset := 0
                            encrypted_metadata_size := 0 } ∧
    (dump_handle_dump c10_src
      { c10_handle with encrypted_metadata1_offset := 0
                        encrypted_metadata2_offset := 0
                        encrypted_metadata_size := 0 }).length = 5 := by
  have htx : ∀ j, j < 4 → transaction_id_of c10_src c10_handle j = 0 := by
    intro j hj
    have hoff : c10_handle.metadata_offsets.getD j 0 = 0 := by
      interval_cases j <;> rfl
    unfold transaction_id_of metadata_block_of
    rw [hoff, readLE_read_bytes c10_src 0 c10_handle.metadata_size 16 8
      (by rw [show c10_handle.metadata_size = 8192 from rfl]; norm_num)]
    decide
  obtain ⟨hok, hlen⟩ :=
    (c10_read_metadata_selection c10_src c10_handle).2.2.2.2 htx (by decide)
  exact ⟨htx, by decide, hok, hlen⟩

/-! # Claim C1: the walker invariants -/

theorem count_eq_one_of_pairwise {α : Type} [DecidableEq α] {R : α → α → Prop}
    {l : List α} {a : α} (hp : l.Pairwise R) (ha : a ∈ l) (hirr : ¬ R a a) :
    l.count a = 1 := by
  induction l with
  | nil => cases ha
  | cons b t ih =>
    rw [List.pairwise_cons] at hp
    by_cases hab : a = b
    · subst hab
      rw [List.count_cons_self]
      have hnot : a ∉ t := fun hmem => hirr (hp.1 a hmem)
      rw [List.count_eq_zero.mpr hnot]
    · rw [List.count_cons_of_ne hab]
      rcases List.mem_cons.mp ha with h | hat
      · exact absurd h hab
      · exact ih hp.2 hat

theorem extent_disjoint_symm : Symmetric extent_disjoint := by
  intro e1 e2 h
  unfold extent_disjoint at h ⊢
  exact h.symm

theorem extent_same_pv_disjoint_symm : Symmetric extent_same_pv_disjoint := by
  intro e1 e2 h
  intro heq
  exact extent_disjoint_symm (h heq.symm)

theorem extent_disjoint_irrefl {e : fvdecheck_extent}
    (hpos : 0 < e.physical_block_count) : ¬ extent_disjoint e e := by
  unfold extent_disjoint
  omega

theorem apply_mark_op_block_size {st st1 : fvdecheck_volume_state}
    {op : fvdecheck_mark_op} (h : apply_mark_op st op = .ok st1) :
    st1.block_size = st.block_size := by
  cases op with
  | reserved pv s c d =>
    have h2 : fvdecheck_volume_state_mark_reserved st pv s c d = .ok st1 := h
    obtain ⟨_, _, _, _, hbs⟩ := mark_reserved_shape h2
    exact hbs
  | free pv s c tid mbi bt =>
    have h2 : fvdecheck_volume_state_mark_free st pv s c tid mbi bt = .ok st1 := h
    obtain ⟨_, _, _, _, hbs⟩ := mark_free_shape h2
    exact hbs
  | allocated pv s c lv ls tid mbi bt =>
    have h2 : fvdecheck_volume_state_mark_allocated st pv s c lv ls tid mbi bt =
        .ok st1 := h
    obtain ⟨_, _, _, _, _, _, hbs⟩ := mark_allocated_shape h2
    exact hbs

theorem foldlM_apply_mark_block (ops : List fvdecheck_mark_op) :
    ∀ st st1, ops.foldlM apply_mark_op st = .ok st1 →
      st1.block_size = st.block_size := by
  induction ops with
  | nil =>
    intro st st1 h
    rw [List.foldlM_nil] at h
    obtain rfl := Except.ok.inj h
    rfl
  | cons op rest ih =>
    intro st st1 h
    rw [List.foldlM_cons] at h
    cases hop : apply_mark_op st op with
    | error e => rw [hop] at h; cases h
    | ok st' =>
      rw [hop] at h
      have h' : rest.foldlM apply_mark_op st' = .ok st1 := h
      rw [ih st' st1 h', apply_mark_op_block_size hop]

theorem check_handle_add_physical_ok {st st1 : fvdecheck_volume_state}
    {pv : unlocker_physical_volume}
    (h : check_handle_add_physical st pv = .ok st1) :
    st1.logical_volumes = st.logical_volumes ∧
    st1.block_size = st.block_size ∧
    st1.physical_volumes.length = st.physical_volumes.length + 1 ∧
    (∀ p, p < st.physical_volumes.length →
      st1.physical_volumes[p]? = st.physical_volumes[p]?) ∧
    (∃ pvinfo, st1.physical_volumes[st.physical_volumes.length]? = some pvinfo ∧
      pvinfo.extent_list = [header_extent st.physical_volumes.length]) := by
  unfold check_handle_add_physical at h
  cases hadd : fvdecheck_volume_state_add_physical_volume st pv.identifier
      (pv.size / st.block_size) with
  | error e => rw [hadd] at h; cases h
  | ok r =>
    rw [hadd] at h
    have h2 : fvdecheck_volume_state_mark_reserved r.1 r.2 0 1 "Volume header" = .ok st1 := h
    unfold fvdecheck_volume_state_add_physical_volume at hadd
    split at hadd
    · cases hadd
    · injection hadd with hadd
      subst hadd
      dsimp only at h2
      obtain ⟨pvinfo, hsome, hpvs, hlvs, hbs⟩ := mark_reserved_shape h2
      rw [List.getElem?_concat_length] at hsome
      injection hsome with hsome
      subst hsome
      rw [List.set_append_right _ _ (Nat.le_refl _), Nat.sub_self] at hpvs
      refine ⟨hlvs, hbs, ?_, ?_, ?_⟩
      · rw [hpvs]
        simp
      · intro p hp
        rw [hpvs]
        rw [List.getElem?_append_left hp]
      · rw [List.set_cons_zero] at hpvs
        cases hx : st1.physical_volumes[st.physical_volumes.length]? with
        | none =>
          rw [hpvs, List.getElem?_concat_length] at hx
          cases hx
        | some pvi =>
          refine ⟨pvi, rfl, ?_⟩
          rw [hpvs, List.getElem?_concat_length] at hx
          injection hx with hx
          subst hx
          rfl

theorem add_physical_fold_ok (pvs : List unlocker_physical_volume) :
    ∀ st st1, pvs.foldlM check_handle_add_physical st = .ok st1 →
    st1.logical_volumes = st.logical_volumes ∧
    st1.block_size = st.block_size ∧
    st1.physical_volumes.length = st.physical_volumes.length + pvs.length ∧
    (∀ p, p < st.physical_volumes.length →
      st1.physical_volumes[p]? = st.physical_volumes[p]?) ∧
    (∀ p, st.physical_volumes.length ≤ p → p < st1.physical_volumes.length →
      ∃ pvinfo, st1.physical_volumes[p]? = some pvinfo ∧
        pvinfo.extent_list = [header_extent p]) := by
  induction pvs with
  | nil =>
    intro st st1 h
    rw [List.foldlM_nil] at h
    obtain rfl := Except.ok.inj h
    exact ⟨rfl, rfl, rfl, fun p _ => rfl, fun p h1 h2 => absurd h2 (by omega)⟩
  | cons pv rest ih =>
    intro st st1 h
    rw [List.foldlM_cons] at h
    cases hstep : check_handle_add_physical st pv with
    | error e => rw [hstep] at h; cases h
    | ok st' =>
      rw [hstep] at h
      have h' : rest.foldlM check_handle_add_physical st' = .ok st1 := h
      obtain ⟨hl1, hb1, hlen1, hold1, pvinfo, hnew1, hlist1⟩ :=
        check_handle_add_physical_ok hstep
      obtain ⟨hl2, hb2, hlen2, hold2, hnew2⟩ := ih st' st1 h'
      refine ⟨hl2.trans hl1, hb2.trans hb1, by rw [hlen2, hlen1]; simp [Nat.add_assoc,
        Nat.add_comm 1 rest.length], ?_, ?_⟩
      · intro p hp
        rw [hold2 p (by omega), hold1 p hp]
      · intro p hp1 hp2
        by_cases hpe : p = st.physical_volumes.length
        · subst hpe
          exact ⟨pvinfo, by rw [hold2 _ (by omega)]; exact hnew1, hlist1⟩
        · exact hnew2 p (by omega) hp2

theorem check_handle_add_logical_ok {st st1 : fvdecheck_volume_state}
    {lv : unlocker_logical_volume}
    (h : check_handle_add_logical st lv = .ok st1) :
    st1.physical_volumes = st.physical_volumes ∧
    st1.block_size = st.block_size ∧
    st1.logical_volumes = st.logical_volumes ++
      [{ uuid := lv.identifier, size_in_blocks := lv.size / st.block_size,
         extent_list := [], mapped_blocks := 0, unmapped_blocks := 0 }] := by
  unfold check_handle_add_logical at h
  cases hadd : fvdecheck_volume_state_add_logical_volume st lv.identifier
      (lv.size / st.block_size) with
  | error e => rw [hadd] at h; cases h
  | ok r =>
    rw [hadd] at h
    have h2 : (pure r.1 : Except StoreError fvdecheck_volume_state) = .ok st1 := h
    obtain rfl := Except.ok.inj h2
    unfold fvdecheck_volume_state_add_logical_volume at hadd
    split at hadd
    · cases hadd
    · injection hadd with hadd
      subst hadd
      exact ⟨rfl, rfl, rfl⟩

theorem add_logical_fold_ok (lvs : List unlocker_logical_volume) :
    ∀ st st1, lvs.foldlM check_handle_add_logical st = .ok st1 →
    st1.physical_volumes = st.physical_volumes ∧
    st1.block_size = st.block_size ∧
    ∀ (l : Nat) (lvi : fvdecheck_logical_volume_info),
      st1.logical_volumes[l]? = some lvi →
      (st.logical_volumes[l]? = some lvi ∨ lvi.extent_list = []) := by
  induction lvs with
  | nil =>
    intro st st1 h
    rw [List.foldlM_nil] at h
    obtain rfl := Except.ok.inj h
    exact ⟨rfl, rfl, fun l lvi hl => Or.inl hl⟩
  | cons lv rest ih =>
    intro st st1 h
    rw [List.foldlM_cons] at h
    cases hstep : check_handle_add_logical st lv with
    | error e => rw [hstep] at h; cases h
    | ok st' =>
      rw [hstep] at h
      have h' : rest.foldlM check_handle_add_logical st' = .ok st1 := h
      obtain ⟨hp1, hb1, hl1⟩ := check_handle_add_logical_ok hstep
      obtain ⟨hp2, hb2, hl2⟩ := ih st' st1 h'
      refine ⟨hp2.trans hp1, hb2.trans hb1, ?_⟩
      intro l lvi hl
      rcases hl2 l lvi hl with hcase | hcase
      · rw [hl1] at hcase
        by_cases hlt : l < st.logical_volumes.length
        · rw [List.getElem?_append_left hlt] at hcase
          exact Or.inl hcase
        · by_cases hle : l = st.logical_volumes.length
          · subst hle
            rw [List.getElem?_concat_length] at hcase
            injection hcase with hcase
            subst hcase
            exact Or.inr rfl
          · rw [List.getElem?_eq_none (by simp; omega)] at hcase
            cases hcase
      · exact Or.inr hcase

theorem mem_insert_physical_iff (e : fvdecheck_extent) (l : List fvdecheck_extent)
    (x : fvdecheck_extent) :
    x ∈ fvdecheck_insert_extent_physical e l ↔ x = e ∨ x ∈ l := by
  rw [(insert_physical_perm e l).mem_iff]
  exact List.mem_cons

theorem mem_insert_logical_iff (e : fvdecheck_extent) (l : List fvdecheck_extent)
    (x : fvdecheck_extent) :
    x ∈ fvdecheck_insert_extent_logical e l ↔ x = e ∨ x ∈ l := by
  rw [(insert_logical_perm e l).mem_iff]
  exact List.mem_cons

/-- Inserting a fresh extent preserves pairwise disjointness of a physical
list. -/
theorem pairwise_insert_physical {e : fvdecheck_extent} {l : List fvdecheck_extent}
    (hp : l.Pairwise extent_disjoint) (hf : ∀ x ∈ l, extent_disjoint x e) :
    (fvdecheck_insert_extent_physical e l).Pairwise extent_disjoint := by
  rw [(insert_physical_perm e l).pairwise_iff (fun hab => extent_disjoint_symm hab)]
  rw [List.pairwise_cons]
  exact ⟨fun x hx => extent_disjoint_symm (hf x hx), hp⟩

theorem pairwise_insert_logical {e : fvdecheck_extent} {l : List fvdecheck_extent}
    (hp : l.Pairwise extent_same_pv_disjoint)
    (hf : ∀ x ∈ l, extent_same_pv_disjoint x e) :
    (fvdecheck_insert_extent_logical e l).Pairwise extent_same_pv_disjoint := by
  rw [(insert_logical_perm e l).pairwise_iff (fun hab => extent_same_pv_disjoint_symm hab)]
  rw [List.pairwise_cons]
  exact ⟨fun x hx => extent_same_pv_disjoint_symm (hf x hx), hp⟩

/-- A region-level disjointness fact, transported to the two extents. -/
theorem extent_disjoint_of_region {x e : fvdecheck_extent}
    (hd : region_disjoint (extent_region x) (extent_region e))
    (hpv : x.physical_volume_index = e.physical_volume_index) :
    extent_disjoint x e := by
  unfold region_disjoint extent_region at hd
  dsimp only at hd
  exact hd hpv

/-- Marking on the physical side only (reserved or free) preserves the
walker invariant, extending the region trace. -/
theorem mark_phys_only_inv {R : List walk_region} {st st1 : fvdecheck_volume_state}
    {pv : Nat} {e : fvdecheck_extent}
    (hinv : walker_inv R st)
    (hepv : e.physical_volume_index = pv)
    (hecount : 0 < e.physical_block_count)
    (hestate : e.state ≠ FVDECHECK_EXTENT_STATE_ALLOCATED)
    (hregion : ∀ r' ∈ R, region_disjoint r' (extent_region e))
    (hshape : ∃ pv_info, st.physical_volumes[pv]? = some pv_info ∧
      st1.physical_volumes = st.physical_volumes.set pv
        { pv_info with extent_list :=
            fvdecheck_insert_extent_physical e pv_info.extent_list })
    (hlvs : st1.logical_volumes = st.logical_volumes) :
    walker_inv (R ++ [extent_region e]) st1 := by
  obtain ⟨A1, A2, A3, A4⟩ := hinv
  obtain ⟨pvi, hsome, hset⟩ := hshape
  have hpvlt : pv < st.physical_volumes.length := by
    by_contra hge
    rw [List.getElem?_eq_none (by omega)] at hsome
    cases hsome
  have hlist : ∀ q, pv_extent_list st1 q =
      if q = pv then fvdecheck_insert_extent_physical e (pv_extent_list st pv)
      else pv_extent_list st q := by
    intro q
    by_cases hq : q = pv
    · subst hq
      rw [if_pos rfl]
      unfold pv_extent_list
      rw [hset, List.getElem?_set_self hpvlt, hsome]
    · rw [if_neg hq]
      unfold pv_extent_list
      rw [hset, List.getElem?_set_ne (fun h => hq h.symm)]
  have hllist : ∀ m, lv_extent_list st1 m = lv_extent_list st m := by
    intro m
    unfold lv_extent_list
    rw [hlvs]
  have hfresh : ∀ x ∈ pv_extent_list st pv, extent_disjoint x e := by
    intro x hx
    obtain ⟨hxpv, _, hxreg, _⟩ := A1 pv x hx
    exact extent_disjoint_of_region (hregion _ hxreg) (by rw [hxpv, hepv])
  refine ⟨?_, ?_, ?_, ?_⟩
  · intro p x hx
    rw [hlist p] at hx
    by_cases hp : p = pv
    · subst hp
      rw [if_pos rfl] at hx
      rcases (mem_insert_physical_iff e _ x).mp hx with rfl | hx
      · exact ⟨hepv, hecount, List.mem_append_right _ (List.mem_singleton.mpr rfl),
          fun hall => absurd hall hestate⟩
      · obtain ⟨h1, h2, h3, h4⟩ := A1 p x hx
        refine ⟨h1, h2, List.mem_append_left _ h3, fun hall => ?_⟩
        obtain ⟨lvi, hlvi, hmeml⟩ := h4 hall
        exact ⟨lvi, by rw [hlvs]; exact hlvi, hmeml⟩
    · rw [if_neg hp] at hx
      obtain ⟨h1, h2, h3, h4⟩ := A1 p x hx
      refine ⟨h1, h2, List.mem_append_left _ h3, fun hall => ?_⟩
      obtain ⟨lvi, hlvi, hmeml⟩ := h4 hall
      exact ⟨lvi, by rw [hlvs]; exact hlvi, hmeml⟩
  · intro p
    rw [hlist p]
    by_cases hp : p = pv
    · subst hp
      rw [if_pos rfl]
      exact pairwise_insert_physical (A2 p) hfresh
    · rw [if_neg hp]
      exact A2 p
  · intro l x hx
    rw [hllist l] at hx
    obtain ⟨h1, h2, h3⟩ := A3 l x hx
    refine ⟨h1, h2, ?_⟩
    rw [hlist]
    by_cases hp : x.physical_volume_index = pv
    · rw [if_pos hp]
      exact (mem_insert_physical_iff e _ x).mpr (Or.inr (by rw [← hp]; exact h3))
    · rw [if_neg hp]
      exact h3
  · intro l
    rw [hllist l]
    exact A4 l

/-- Marking an allocated extent preserves the walker invariant. -/
theorem mark_allocated_inv {R : List walk_region} {st st1 : fvdecheck_volume_state}
    {pv s c lv ls tid mbi bt : Nat}
    (hinv : walker_inv R st)
    (hc : 0 < c)
    (hregion : ∀ r' ∈ R,
      region_disjoint r' (extent_region (allocated_extent pv s c lv ls tid mbi bt)))
    (h : fvdecheck_volume_state_mark_allocated st pv s c lv ls tid mbi bt = .ok st1) :
    walker_inv (R ++ [extent_region (allocated_extent pv s c lv ls tid mbi bt)]) st1 := by
  obtain ⟨A1, A2, A3, A4⟩ := hinv
  obtain ⟨pvi, lvi0, hsomep, hsomel, hsetp, hsetl, _⟩ := mark_allocated_shape h
  set e := allocated_extent pv s c lv ls tid mbi bt with he
  have hpvlt : pv < st.physical_volumes.length := by
    by_contra hge
    rw [List.getElem?_eq_none (by omega)] at hsomep
    cases hsomep
  have hlvlt : lv < st.logical_volumes.length := by
    by_contra hge
    rw [List.getElem?_eq_none (by omega)] at hsomel
    cases hsomel
  have hepv : e.physical_volume_index = pv := rfl
  have helv : e.logical_volume_index = lv := rfl
  have hecount : 0 < e.physical_block_count := hc
  have hestate : e.state = FVDECHECK_EXTENT_STATE_ALLOCATED := rfl
  have hlist : ∀ q, pv_extent_list st1 q =
      if q = pv then fvdecheck_insert_extent_physical e (pv_extent_list st pv)
      else pv_extent_list st q := by
    intro q
    by_cases hq : q = pv
    · subst hq
      rw [if_pos rfl]
      unfold pv_extent_list
      rw [hsetp, List.getElem?_set_self hpvlt, hsomep]
    · rw [if_neg hq]
      unfold pv_extent_list
      rw [hsetp, List.getElem?_set_ne (fun h => hq h.symm)]
  have hllist : ∀ m, lv_extent_list st1 m =
      if m = lv then fvdecheck_insert_extent_logical e (lv_extent_list st lv)
      else lv_extent_list st m := by
    intro m
    by_cases hm : m = lv
    · subst hm
      rw [if_pos rfl]
      unfold lv_extent_list
      rw [hsetl, List.getElem?_set_self hlvlt, hsomel]
    · rw [if_neg hm]
      unfold lv_extent_list
      rw [hsetl, List.getElem?_set_ne (fun h => hm h.symm)]
  have hfresh : ∀ x ∈ pv_extent_list st pv, extent_disjoint x e := by
    intro x hx
    obtain ⟨hxpv, _, hxreg, _⟩ := A1 pv x hx
    exact extent_disjoint_of_region (hregion _ hxreg) (by rw [hxpv, hepv])
  have hfreshl : ∀ x ∈ lv_extent_list st lv, extent_same_pv_disjoint x e := by
    intro x hx
    obtain ⟨_, _, hxp⟩ := A3 lv x hx
    obtain ⟨_, _, hxreg, _⟩ := A1 _ x hxp
    intro hpveq
    exact extent_disjoint_of_region (hregion _ hxreg) hpveq
  have hlvpres : ∀ (x : fvdecheck_extent),
      (∃ lvi, st.logical_volumes[x.logical_volume_index]? = some lvi ∧
        x ∈ lvi.extent_list) →
      ∃ lvi, st1.logical_volumes[x.logical_volume_index]? = some lvi ∧
        x ∈ lvi.extent_list := by
    intro x hx
    obtain ⟨lvi, hlvi, hmem⟩ := hx
    by_cases hxl : x.logical_volume_index = lv
    · rw [hxl] at hlvi ⊢
      rw [hsomel] at hlvi
      injection hlvi with hlvi
      subst hlvi
      refine ⟨{ lvi0 with extent_list :=
          fvdecheck_insert_extent_logical e lvi0.extent_list }, ?_, ?_⟩
      · rw [hsetl]
        exact List.getElem?_set_self hlvlt
      · exact (mem_insert_logical_iff e _ x).mpr (Or.inr hmem)
    · refine ⟨lvi, ?_, hmem⟩
      rw [hsetl, List.getElem?_set_ne (fun hh => hxl hh.symm)]
      exact hlvi
  have hlve : ∃ lvi, st1.logical_volumes[e.logical_volume_index]? = some lvi ∧
      e ∈ lvi.extent_list := by
    rw [helv]
    refine ⟨{ lvi0 with extent_list :=
        fvdecheck_insert_extent_logical e lvi0.extent_list }, ?_, ?_⟩
    · rw [hsetl]
      exact List.getElem?_set_self hlvlt
    · exact (mem_insert_logical_iff e _ e).mpr (Or.inl rfl)
  refine ⟨?_, ?_, ?_, ?_⟩
  · intro p x hx
    rw [hlist p] at hx
    by_cases hp : p = pv
    · subst hp
      rw [if_pos rfl] at hx
      rcases (mem_insert_physical_iff e _ x).mp hx with rfl | hx
      · exact ⟨hepv, hecount, List.mem_append_right _ (List.mem_singleton.mpr rfl),
          fun _ => hlve⟩
      · obtain ⟨h1, h2, h3, h4⟩ := A1 p x hx
        exact ⟨h1, h2, List.mem_append_left _ h3, fun hall => hlvpres x (h4 hall)⟩
    · rw [if_neg hp] at hx
      obtain ⟨h1, h2, h3, h4⟩ := A1 p x hx
      exact ⟨h1, h2, List.mem_append_left _ h3, fun hall => hlvpres x (h4 hall)⟩
  · intro p
    rw [hlist p]
    by_cases hp : p = pv
    · subst hp
      rw [if_pos rfl]
      exact pairwise_insert_physical (A2 p) hfresh
    · rw [if_neg hp]
      exact A2 p
  · intro l x hx
    rw [hllist l] at hx
    by_cases hm : l = lv
    · subst hm
      rw [if_pos rfl] at hx
      rcases (mem_insert_logical_iff e _ x).mp hx with rfl | hx
      · refine ⟨hestate, helv, ?_⟩
        rw [hlist]
        rw [if_pos hepv]
        exact (mem_insert_physical_iff e _ e).mpr (Or.inl rfl)
      · obtain ⟨h1, h2, h3⟩ := A3 l x hx
        refine ⟨h1, h2, ?_⟩
        rw [hlist]
        by_cases hp : x.physical_volume_index = pv
        · rw [if_pos hp]
          exact (mem_insert_physical_iff e _ x).mpr (Or.inr (by rw [← hp]; exact h3))
        · rw [if_neg hp]
          exact h3
    · rw [if_neg hm] at hx
      obtain ⟨h1, h2, h3⟩ := A3 l x hx
      refine ⟨h1, h2, ?_⟩
      rw [hlist]
      by_cases hp : x.physical_volume_index = pv
      · rw [if_pos hp]
        exact (mem_insert_physical_iff e _ x).mpr (Or.inr (by rw [← hp]; exact h3))
      · rw [if_neg hp]
        exact h3
  · intro l
    rw [hllist l]
    by_cases hm : l = lv
    · subst hm
      rw [if_pos rfl]
      exact pairwise_insert_logical (A4 l) hfreshl
    · rw [if_neg hm]
      exact A4 l

/-- The master induction: a run of mark calls whose regions extend the
trace `R` to a pairwise-disjoint list of positive regions preserves the
walker invariant. -/
theorem foldlM_mark_ops_inv (ops : List fvdecheck_mark_op) :
    ∀ (R : List walk_region) (st st1 : fvdecheck_volume_state),
    walker_inv R st →
    List.Pairwise region_disjoint (R ++ ops.map mark_op_region) →
    (∀ op ∈ ops, 0 < (mark_op_region op).count) →
    ops.foldlM apply_mark_op st = .ok st1 →
    walker_inv (R ++ ops.map mark_op_region) st1 := by
  induction ops with
  | nil =>
    intro R st st1 hinv _ _ h
    rw [List.foldlM_nil] at h
    obtain rfl := Except.ok.inj h
    simpa using hinv
  | cons op rest ih =>
    intro R st st1 hinv hdisj hpos h
    rw [List.foldlM_cons] at h
    cases hop : apply_mark_op st op with
    | error err => rw [hop] at h; cases h
    | ok st' =>
      rw [hop] at h
      have h' : rest.foldlM apply_mark_op st' = .ok st1 := h
      have hfreshR : ∀ r' ∈ R, region_disjoint r' (mark_op_region op) := by
        intro r' hr'
        refine (List.pairwise_append.mp hdisj).2.2 r' hr' (mark_op_region op) ?_
        rw [List.map_cons]
        exact List.mem_cons_self _ _
      have hstep : walker_inv (R ++ [mark_op_region op]) st' := by
        cases op with
        | reserved pv s c d =>
          have hop2 : fvdecheck_volume_state_mark_reserved st pv s c d = .ok st' := hop
          obtain ⟨pvinfo, hsome, hpvs, hlvs, _⟩ := mark_reserved_shape hop2
          have hestate : (reserved_extent pv s c d).state ≠
              FVDECHECK_EXTENT_STATE_ALLOCATED := by
            show FVDECHECK_EXTENT_STATE_RESERVED ≠ FVDECHECK_EXTENT_STATE_ALLOCATED
            decide
          exact @mark_phys_only_inv R st st' pv (reserved_extent pv s c d) hinv rfl
            (hpos _ (List.mem_cons_self _ _)) hestate hfreshR
            ⟨pvinfo, hsome, hpvs⟩ hlvs
        | free pv s c tid mbi bt =>
          have hop2 : fvdecheck_volume_state_mark_free st pv s c tid mbi bt =
              .ok st' := hop
          obtain ⟨pvinfo, hsome, hpvs, hlvs, _⟩ := mark_free_shape hop2
          have hestate : (free_extent pv s c tid mbi bt).state ≠
              FVDECHECK_EXTENT_STATE_ALLOCATED := by
            show FVDECHECK_EXTENT_STATE_FREE ≠ FVDECHECK_EXTENT_STATE_ALLOCATED
            decide
          exact @mark_phys_only_inv R st st' pv (free_extent pv s c tid mbi bt) hinv rfl
            (hpos _ (List.mem_cons_self _ _)) hestate hfreshR
            ⟨pvinfo, hsome, hpvs⟩ hlvs
        | allocated pv s c lv ls tid mbi bt =>
          exact mark_allocated_inv hinv (hpos _ (List.mem_cons_self _ _)) hfreshR hop
      have hdisj' : List.Pairwise region_disjoint
          ((R ++ [mark_op_region op]) ++ rest.map mark_op_region) := by
        rw [List.append_assoc, List.singleton_append]
        rw [List.map_cons] at hdisj
        exact hdisj
      have hpos' : ∀ op' ∈ rest, 0 < (mark_op_region op').count :=
        fun op' hmem => hpos op' (List.mem_cons_of_mem _ hmem)
      have hfin := ih (R ++ [mark_op_region op]) st' st1 hstep hdisj' hpos' h'
      rw [List.append_assoc, List.singleton_append, ← List.map_cons] at hfin
      exact hfin

theorem foldlM_apply_mark_sorted (ops : List fvdecheck_mark_op) :
    ∀ st st1, sorted_lists st → ops.foldlM apply_mark_op st = .ok st1 →
      sorted_lists st1 := by
  induction ops with
  | nil =>
    intro st st1 hs h
    rw [List.foldlM_nil] at h
    obtain rfl := Except.ok.inj h
    exact hs
  | cons op rest ih =>
    intro st st1 hs h
    rw [List.foldlM_cons] at h
    cases hop : apply_mark_op st op with
    | error err => rw [hop] at h; cases h
    | ok st' =>
      rw [hop] at h
      exact ih st' st1 (apply_mark_op_sorted hs hop) h

theorem apply_mark_op_reserved (st : fvdecheck_volume_state)
    (pv s c : Nat) (d : String) :
    apply_mark_op st (.reserved pv s c d) =
      fvdecheck_volume_state_mark_reserved st pv s c d := rfl

/-- The metadata-slot loop, rephrased as mark operations (the walker's
block size stays 4096 throughout). -/
theorem reserved_fold_eq (idxs : List Nat) (offs : Nat → Nat) (msz : Nat)
    (descf : Nat → String) :
    ∀ st : fvdecheck_volume_state, st.block_size = 4096 →
      idxs.foldlM (fun st i => fvdecheck_volume_state_mark_reserved st 0
        (offs i / st.block_size) (msz / st.block_size) (descf i)) st =
      (idxs.map (fun i => fvdecheck_mark_op.reserved 0 (offs i / 4096)
        (msz / 4096) (descf i))).foldlM apply_mark_op st := by
  induction idxs with
  | nil => intro st _; rfl
  | cons i rest ih =>
    intro st hbs
    rw [List.map_cons, List.foldlM_cons, List.foldlM_cons, hbs,
      apply_mark_op_reserved]
    cases hres : fvdecheck_volume_state_mark_reserved st 0 (offs i / 4096)
        (msz / 4096) (descf i) with
    | error e => rfl
    | ok st' =>
      obtain ⟨_, _, _, _, hb⟩ := mark_reserved_shape hres
      exact ih st' (hb.trans hbs)

/-- An optional mark call, as the fold of an optional one-element op list. -/
theorem opt_mark_eq (cond : Prop) [Decidable cond] (st : fvdecheck_volume_state)
    (pv s c : Nat) (d : String) :
    (if cond then fvdecheck_volume_state_mark_reserved st pv s c d
     else pure st) =
      (if cond then [fvdecheck_mark_op.reserved pv s c d] else []).foldlM
        apply_mark_op st := by
  by_cases hc : cond
  · rw [if_pos hc, if_pos hc, List.foldlM_cons, apply_mark_op_reserved]
    cases hres : fvdecheck_volume_state_mark_reserved st pv s c d with
    | error e => rfl
    | ok st' => rfl
  · rw [if_neg hc, if_neg hc]
    rfl

/-- Congruence for a bind whose continuations agree on every ok result
(which always carries block size 4096). -/
theorem bind_congr_block (F : Except StoreError fvdecheck_volume_state)
    (k1 k2 : fvdecheck_volume_state → Except StoreError fvdecheck_volume_state)
    (hblk : ∀ st1, F = .ok st1 → st1.block_size = 4096)
    (hk : ∀ st1, F = .ok st1 → st1.block_size = 4096 → k1 st1 = k2 st1) :
    (F >>= k1) = (F >>= k2) := by
  cases hF : F with
  | error e => rfl
  | ok st1 => exact hk st1 hF (hblk st1 hF)

theorem mark_metadata_reserved_eq_ops (uv : unlocked_volume)
    (st : fvdecheck_volume_state) (hbs : st.block_size = 4096) :
    check_handle_mark_metadata_reserved uv st =
      (md_ops uv).foldlM apply_mark_op st := by
  unfold check_handle_mark_metadata_reserved md_ops
  dsimp only
  rw [List.foldlM_append]
  rw [reserved_fold_eq (List.range 4)
    (fun i => uv.volume_header.metadata_offsets.getD i 0)
    uv.volume_header.metadata_size metadata_description st hbs]
  refine bind_congr_block _ _ _
    (fun st1 hA => (foldlM_apply_mark_block _ _ _ hA).trans hbs) ?_
  intro st1 _ hbs1
  cases hmd : uv.metadata with
  | none => rfl
  | some md =>
    dsimp only
    rw [List.foldlM_append, hbs1]
    by_cases h1 : md.encrypted_metadata1_offset > 0 ∧ md.encrypted_metadata_size > 0
    · rw [if_pos h1, if_pos h1, List.foldlM_cons, apply_mark_op_reserved]
      cases hres : fvdecheck_volume_state_mark_reserved st1 0
          (md.encrypted_metadata1_offset / 4096)
          (md.encrypted_metadata_size / 4096) "Encrypted metadata 1" with
      | error e => rfl
      | ok st2 =>
        obtain ⟨_, _, _, _, hb⟩ := mark_reserved_shape hres
        have hbs2 : st2.block_size = 4096 := hb.trans hbs1
        show (if md.encrypted_metadata2_offset > 0 ∧ md.encrypted_metadata_size > 0 then
            fvdecheck_volume_state_mark_reserved st2 0
              (md.encrypted_metadata2_offset / st2.block_size)
              (md.encrypted_metadata_size / st2.block_size) "Encrypted metadata 2"
          else pure st2) =
          (if md.encrypted_metadata2_offset > 0 ∧ md.encrypted_metadata_size > 0 then
            [fvdecheck_mark_op.reserved 0 (md.encrypted_metadata2_offset / 4096)
              (md.encrypted_metadata_size / 4096) "Encrypted metadata 2"]
          else []).foldlM apply_mark_op st2
        rw [hbs2]
        exact opt_mark_eq _ st2 0 _ _ _
    · rw [if_neg h1, if_neg h1]
      show (if md.encrypted_metadata2_offset > 0 ∧ md.encrypted_metadata_size > 0 then
          fvdecheck_volume_state_mark_reserved st1 0
            (md.encrypted_metadata2_offset / st1.block_size)
            (md.encrypted_metadata_size / st1.block_size) "Encrypted metadata 2"
        else pure st1) =
        (if md.encrypted_metadata2_offset > 0 ∧ md.encrypted_metadata_size > 0 then
          [fvdecheck_mark_op.reserved 0 (md.encrypted_metadata2_offset / 4096)
            (md.encrypted_metadata_size / 4096) "Encrypted metadata 2"]
        else []).foldlM apply_mark_op st1
      rw [hbs1]
      exact opt_mark_eq _ st1 0 _ _ _

theorem seg_fold_eq (lvps : List (Nat × unlocker_logical_volume)) :
    ∀ st : fvdecheck_volume_state,
      lvps.foldlM (fun st p => p.2.segment_descriptors.foldlM (fun st sd =>
        fvdecheck_volume_state_mark_allocated st sd.physical_volume_index
          sd.physical_block_number sd.number_of_blocks p.1 sd.logical_block_number
          0 0 0x0305) st) st =
      (lvps.flatMap (fun p => p.2.segment_descriptors.map (fun sd =>
        fvdecheck_mark_op.allocated sd.physical_volume_index
          sd.physical_block_number sd.number_of_blocks p.1 sd.logical_block_number
          0 0 0x0305))).foldlM apply_mark_op st := by
  induction lvps with
  | nil => intro st; rfl
  | cons p rest ih =>
    intro st
    rw [List.foldlM_cons, List.flatMap_cons, List.foldlM_append, List.foldlM_map]
    exact bind_congr (fun st' => ih st')

theorem process_volume_eq_ops (uv : unlocked_volume) (st : fvdecheck_volume_state)
    (hbs : st.block_size = 4096) :
    check_handle_process_volume uv st = (walk_ops uv).foldlM apply_mark_op st := by
  unfold check_handle_process_volume walk_ops
  rw [List.foldlM_append, mark_metadata_reserved_eq_ops uv st hbs]
  exact bind_congr (fun st1 => seg_fold_eq uv.logical_volumes.enum st1)

theorem enumFrom_flatMap_snd {α β : Type} (l : List α) (f : α → List β) :
    ∀ n, ((List.enumFrom n l).flatMap (fun p => f p.2)) = l.flatMap f := by
  induction l with
  | nil => intro n; rfl
  | cons a rest ih =>
    intro n
    rw [List.enumFrom_cons, List.flatMap_cons, List.flatMap_cons, ih (n + 1)]

theorem enum_flatMap_snd {α β : Type} (l : List α) (f : α → List β) :
    (l.enum.flatMap (fun p => f p.2)) = l.flatMap f :=
  enumFrom_flatMap_snd l f 0

theorem seg_regions_eq (lvs : List unlocker_logical_volume) :
    (lvs.enum.flatMap (fun a =>
      a.2.segment_descriptors.map (fun sd =>
        ({ pv := sd.physical_volume_index, start := sd.physical_block_number,
           count := sd.number_of_blocks } : walk_region)))) =
    lvs.flatMap (fun lv =>
      lv.segment_descriptors.map (fun sd =>
        ({ pv := sd.physical_volume_index, start := sd.physical_block_number,
           count := sd.number_of_blocks } : walk_region))) :=
  enum_flatMap_snd lvs (fun lv =>
    lv.segment_descriptors.map (fun sd =>
      ({ pv := sd.physical_volume_index, start := sd.physical_block_number,
         count := sd.number_of_blocks } : walk_region)))

/-- The regions of the whole walk are the header regions followed by the
regions of the mark-op list. -/
theorem walk_regions_decomp (uv : unlocked_volume) :
    walk_regions uv =
      uv.physical_volumes.enum.map
        (fun p => ({ pv := p.1, start := 0, count := 1 } : walk_region)) ++
      (walk_ops uv).map mark_op_region := by
  unfold walk_regions walk_ops md_ops seg_ops
  cases hmd : uv.metadata with
  | none =>
    simp only [List.map_append, List.map_map, List.map_flatMap, List.map_cons,
      List.map_nil, List.append_assoc, List.nil_append, List.append_nil,
      mark_op_region, Function.comp_def]
    rw [seg_regions_eq]
  | some md =>
    by_cases h1 : md.encrypted_metadata1_offset > 0 ∧ md.encrypted_metadata_size > 0
    · by_cases h2 : md.encrypted_metadata2_offset > 0 ∧ md.encrypted_metadata_size > 0
      · simp only [if_pos h1, if_pos h2, List.map_append, List.map_map,
          List.map_flatMap, List.map_cons, List.map_nil, List.append_assoc,
          List.nil_append, List.append_nil, mark_op_region, Function.comp_def]
        rw [seg_regions_eq]
      · simp only [if_pos h1, if_neg h2, List.map_append, List.map_map,
          List.map_flatMap, List.map_cons, List.map_nil, List.append_assoc,
          List.nil_append, List.append_nil, mark_op_region, Function.comp_def]
        rw [seg_regions_eq]
    · by_cases h2 : md.encrypted_metadata2_offset > 0 ∧ md.encrypted_metadata_size > 0
      · simp only [if_neg h1, if_pos h2, List.map_append, List.map_map,
          List.map_flatMap, List.map_cons, List.map_nil, List.append_assoc,
          List.nil_append, List.append_nil, mark_op_region, Function.comp_def]
        rw [seg_regions_eq]
      · simp only [if_neg h1, if_neg h2, List.map_append, List.map_map,
          List.map_flatMap, List.map_cons, List.map_nil, List.append_assoc,
          List.nil_append, List.append_nil, mark_op_region, Function.comp_def]
        rw [seg_regions_eq]

/-- I5 holds of every state: `calculate_statistics` derives every
statistics field from the extent lists alone and is idempotent. -/
theorem calculate_statistics_I5 (st : fvdecheck_volume_state) : invariant_I5 st := by
  unfold invariant_I5
  refine ⟨?_, ?_, ?_⟩
  · intro i pvi hp
    unfold fvdecheck_volume_state_calculate_statistics at hp
    dsimp only at hp
    rw [List.getElem?_map] at hp
    cases hq : st.physical_volumes[i]? with
    | none => rw [hq] at hp; cases hp
    | some pv =>
      rw [hq] at hp
      injection hp with hp
      subst hp
      unfold pv_extent_list
      rw [hq]
  · intro j lvi hp
    unfold fvdecheck_volume_state_calculate_statistics at hp
    dsimp only at hp
    rw [List.getElem?_map] at hp
    cases hq : st.logical_volumes[j]? with
    | none => rw [hq] at hp; cases hp
    | some lv =>
      rw [hq] at hp
      injection hp with hp
      subst hp
      unfold lv_extent_list
      rw [hq]
  · unfold fvdecheck_volume_state_calculate_statistics
    dsimp only
    congr 1
    · rw [List.map_map]
      apply List.map_congr_left
      intro pv _
      rfl
    · rw [List.map_map]
      apply List.map_congr_left
      intro lv _
      rfl

theorem walker_inv_I1 {R : List walk_region} {st : fvdecheck_volume_state}
    (h : walker_inv R st) : invariant_I1 st := by
  obtain ⟨A1, _, _, _⟩ := h
  intro pvi hpvi e he
  obtain ⟨p, hp, hpeq⟩ := List.mem_iff_getElem.mp hpvi
  have hlist : pv_extent_list st p = pvi.extent_list := by
    unfold pv_extent_list
    rw [List.getElem?_eq_getElem hp, hpeq]
  exact (A1 p e (by rw [hlist]; exact he)).2.1

theorem walker_inv_I2 {R : List walk_region} {st : fvdecheck_volume_state}
    (hinv : walker_inv R st) (hs : sorted_lists st) : invariant_I2 st := by
  obtain ⟨A1, A2, _, _⟩ := hinv
  intro pvi hpvi
  obtain ⟨p, hp, hpeq⟩ := List.mem_iff_getElem.mp hpvi
  have hlist : pv_extent_list st p = pvi.extent_list := by
    unfold pv_extent_list
    rw [List.getElem?_eq_getElem hp, hpeq]
  have hdisj : pvi.extent_list.Pairwise extent_disjoint := by
    rw [← hlist]
    exact A2 p
  have hsorted : List.Sorted extent_phys_le pvi.extent_list := hs.1 pvi hpvi
  have hposm : ∀ e ∈ pvi.extent_list, 0 < e.physical_block_count := fun e he =>
    (A1 p e (by rw [hlist]; exact he)).2.1
  refine ⟨?_, hdisj⟩
  have hand := List.Pairwise.and hsorted hdisj
  refine List.Pairwise.imp_of_mem ?_ hand
  intro a b ha hb hab
  obtain ⟨hle, hd⟩ := hab
  have hpa := hposm a ha
  have hpb := hposm b hb
  unfold extent_phys_le at hle
  unfold extent_disjoint at hd
  omega

theorem walker_inv_I3 {R : List walk_region} {st : fvdecheck_volume_state}
    (hinv : walker_inv R st) : invariant_I3 st := by
  obtain ⟨A1, A2, A3, A4⟩ := hinv
  constructor
  · intro pvi hpvi e he hall
    obtain ⟨p, hp, hpeq⟩ := List.mem_iff_getElem.mp hpvi
    have hlist : pv_extent_list st p = pvi.extent_list := by
      unfold pv_extent_list
      rw [List.getElem?_eq_getElem hp, hpeq]
    have hmem : e ∈ pv_extent_list st p := by rw [hlist]; exact he
    obtain ⟨_, hepos, _, h4⟩ := A1 p e hmem
    obtain ⟨lvi, hlvi, hmeml⟩ := h4 hall
    refine ⟨?_, lvi, hlvi, ?_⟩
    · rw [← hlist]
      exact count_eq_one_of_pairwise (A2 p) hmem (extent_disjoint_irrefl hepos)
    · have hl : lv_extent_list st e.logical_volume_index = lvi.extent_list := by
        unfold lv_extent_list
        rw [hlvi]
      rw [← hl]
      exact count_eq_one_of_pairwise (A4 _) (by rw [hl]; exact hmeml)
        (fun hct => extent_disjoint_irrefl hepos (hct rfl))
  · intro lvi hlvi e he
    obtain ⟨l, hl, hleq⟩ := List.mem_iff_getElem.mp hlvi
    have hllist : lv_extent_list st l = lvi.extent_list := by
      unfold lv_extent_list
      rw [List.getElem?_eq_getElem hl, hleq]
    have hmem : e ∈ lv_extent_list st l := by rw [hllist]; exact he
    obtain ⟨hall, hlidx, hpmem⟩ := A3 l e hmem
    obtain ⟨_, hepos, _, _⟩ := A1 _ e hpmem
    refine ⟨hall, ?_, ?_⟩
    · rw [← hllist]
      exact count_eq_one_of_pairwise (A4 l) hmem
        (fun hct => extent_disjoint_irrefl hepos (hct rfl))
    · cases hq : st.physical_volumes[e.physical_volume_index]? with
      | none =>
        exfalso
        unfold pv_extent_list at hpmem
        rw [hq] at hpmem
        cases hpmem
      | some pvi2 =>
        refine ⟨pvi2, rfl, ?_⟩
        have hpl : pv_extent_list st e.physical_volume_index = pvi2.extent_list := by
          unfold pv_extent_list
          rw [hq]
        rw [← hpl]
        exact count_eq_one_of_pairwise (A2 _) hpmem (extent_disjoint_irrefl hepos)

theorem walker_inv_I4 {R : List walk_region} {st : fvdecheck_volume_state}
    (hinv : walker_inv R st) : invariant_I4 st := by
  obtain ⟨A1, A2, _, _⟩ := hinv
  intro pvi hpvi e1 he1 e2 he2 hall hres
  obtain ⟨p, hp, hpeq⟩ := List.mem_iff_getElem.mp hpvi
  have hlist : pv_extent_list st p = pvi.extent_list := by
    unfold pv_extent_list
    rw [List.getElem?_eq_getElem hp, hpeq]
  by_cases h12 : e1 = e2
  · subst h12
    rw [hall] at hres
    exact absurd hres (by decide)
  · exact List.Pairwise.forall extent_disjoint_symm
      (by rw [← hlist]; exact A2 p) he1 he2 h12

/-- Claim C1 (amended): when every region the unlocker supplies to the
walker has a positive block count and the regions are pairwise disjoint
per physical volume, a successful walk establishes invariants I1-I5. -/
theorem c1_walker_invariants_amended (uv : unlocked_volume)
    (st : fvdecheck_volume_state)
    (hpos : ∀ r ∈ walk_regions uv, 0 < r.count)
    (hdisj : List.Pairwise region_disjoint (walk_regions uv))
    (hwalk : check_handle_walk uv = .ok st) :
    invariant_I1 st ∧ invariant_I2 st ∧ invariant_I3 st ∧ invariant_I4 st ∧
      invariant_I5 st := by
  unfold check_handle_walk at hwalk
  cases h1 : uv.physical_volumes.foldlM check_handle_add_physical
      fvdecheck_volume_state_initial with
  | error e => rw [h1] at hwalk; cases hwalk
  | ok st1 =>
    rw [h1] at hwalk
    have hwalk1 : (uv.logical_volumes.foldlM check_handle_add_logical st1 >>=
        fun st2 => check_handle_process_volume uv st2) = .ok st := hwalk
    cases h2 : uv.logical_volumes.foldlM check_handle_add_logical st1 with
    | error e => rw [h2] at hwalk1; cases hwalk1
    | ok st2 =>
      rw [h2] at hwalk1
      have h3 : check_handle_process_volume uv st2 = .ok st := hwalk1
      obtain ⟨hl1, hb1, hlen1, hold1, hnew1⟩ := add_physical_fold_ok _ _ _ h1
      obtain ⟨hp2, hb2, hl2⟩ := add_logical_fold_ok _ _ _ h2
      have hinitlen : fvdecheck_volume_state_initial.physical_volumes.length = 0 := rfl
      have hbs2 : st2.block_size = 4096 := by rw [hb2, hb1]; rfl
      have hlv2 : ∀ l, lv_extent_list st2 l = [] := by
        intro l
        unfold lv_extent_list
        cases hq : st2.logical_volumes[l]? with
        | none => rfl
        | some lvi =>
          rcases hl2 l lvi hq with hcase | hcase
          · rw [hl1] at hcase
            simp [fvdecheck_volume_state_initial] at hcase
          · exact hcase
      have hst1len : st1.physical_volumes.length = uv.physical_volumes.length := by
        rw [hlen1, hinitlen]
        omega
      have hpv2 : ∀ p, p < uv.physical_volumes.length →
          pv_extent_list st2 p = [header_extent p] := by
        intro p hplt
        unfold pv_extent_list
        rw [hp2]
        obtain ⟨pvinfo, hsomeq, hlistq⟩ := hnew1 p (by omega) (by omega)
        rw [hsomeq]
        exact hlistq
      have hpv2none : ∀ p, uv.physical_volumes.length ≤ p →
          pv_extent_list st2 p = [] := by
        intro p hge
        unfold pv_extent_list
        rw [hp2, List.getElem?_eq_none (by omega)]
      have hinv2 : walker_inv (uv.physical_volumes.enum.map
          (fun p => ({ pv := p.1, start := 0, count := 1 } : walk_region))) st2 := by
        refine ⟨?_, ?_, ?_, ?_⟩
        · intro p e he
          by_cases hplt : p < uv.physical_volumes.length
          · rw [hpv2 p hplt] at he
            rcases List.mem_singleton.mp he with rfl
            refine ⟨rfl, Nat.one_pos, ?_, ?_⟩
            · have hq : uv.physical_volumes.enum[p]? =
                  some (p, uv.physical_volumes.get ⟨p, hplt⟩) := by
                rw [List.getElem?_enum, List.getElem?_eq_getElem hplt]
                rfl
              exact List.mem_map.mpr ⟨_, List.getElem?_mem hq, rfl⟩
            · intro hall
              have hcl : FVDECHECK_EXTENT_STATE_RESERVED =
                  FVDECHECK_EXTENT_STATE_ALLOCATED := hall
              exact absurd hcl (by decide)
          · rw [hpv2none p (by omega)] at he
            cases he
        · intro p
          by_cases hplt : p < uv.physical_volumes.length
          · rw [hpv2 p hplt]
            exact List.pairwise_singleton _ _
          · rw [hpv2none p (by omega)]
            exact List.Pairwise.nil
        · intro l e he
          rw [hlv2 l] at he
          cases he
        · intro l
          rw [hlv2 l]
          exact List.Pairwise.nil
      have hsorted2 : sorted_lists st2 := by
        constructor
        · intro pvi hpvi
          obtain ⟨p, hplt, hpeq⟩ := List.mem_iff_getElem.mp hpvi
          have hpl : pv_extent_list st2 p = pvi.extent_list := by
            unfold pv_extent_list
            rw [List.getElem?_eq_getElem hplt, hpeq]
          have hplt2 : p < uv.physical_volumes.length := by
            rw [← hst1len]
            rw [hp2] at hplt
            exact hplt
          rw [← hpl, hpv2 p hplt2]
          exact List.sorted_singleton _
        · intro lvi hlvi
          obtain ⟨l, hllt, hleq⟩ := List.mem_iff_getElem.mp hlvi
          have hll : lv_extent_list st2 l = lvi.extent_list := by
            unfold lv_extent_list
            rw [List.getElem?_eq_getElem hllt, hleq]
          rw [← hll, hlv2 l]
          exact List.sorted_nil
      rw [process_volume_eq_ops uv st2 hbs2] at h3
      have hdisj' := hdisj
      rw [walk_regions_decomp] at hdisj'
      have hposops : ∀ op ∈ walk_ops uv, 0 < (mark_op_region op).count := by
        intro op hop
        refine hpos _ ?_
        rw [walk_regions_decomp]
        exact List.mem_append_right _ (List.mem_map_of_mem _ hop)
      have hfinal := foldlM_mark_ops_inv (walk_ops uv) _ st2 st hinv2 hdisj' hposops h3
      have hsortedf := foldlM_apply_mark_sorted (walk_ops uv) st2 st hsorted2 h3
      exact ⟨walker_inv_I1 hfinal, walker_inv_I2 hfinal hsortedf,
        walker_inv_I3 hfinal, walker_inv_I4 hfinal, calculate_statistics_I5 st⟩

/-- Counterexample to claim C1 as stated: on an unlocker input whose
segment descriptors contain an overlapping duplicate and a zero-length
segment, the walk succeeds and yet I1 and I2 both fail. -/
theorem c1_counterexample :
    check_handle_walk c1_cex_input = .ok c1_cex_state ∧
    ¬ invariant_I1 c1_cex_state ∧ ¬ invariant_I2 c1_cex_state := by
  refine ⟨by decide, ?_, ?_⟩
  · unfold invariant_I1
    decide
  · unfold invariant_I2
    decide

/-- Witness for claim C1: a well-formed unlocker input satisfying the
amended hypotheses whose walk succeeds and satisfies I1-I5. -/
theorem c1_walker_invariants_witness :
    (∀ r ∈ walk_regions c1_witness_input, 0 < r.count) ∧
    List.Pairwise region_disjoint (walk_regions c1_witness_input) ∧
    check_handle_walk c1_witness_input = .ok c1_witness_state ∧
    (invariant_I1 c1_witness_state ∧ invariant_I2 c1_witness_state ∧
     invariant_I3 c1_witness_state ∧ invariant_I4 c1_witness_state ∧
     invariant_I5 c1_witness_state) := by
  have hpos : ∀ r ∈ walk_regions c1_witness_input, 0 < r.count := by decide
  have hdisj : List.Pairwise region_disjoint (walk_regions c1_witness_input) := by
    decide
  have hwalk : check_handle_walk c1_witness_input = .ok c1_witness_state := by decide
  exact ⟨hpos, hdisj, hwalk,
    c1_walker_invariants_amended c1_witness_input c1_witness_state hpos hdisj hwalk⟩

end FVDE
